import Mathlib

/-!
# Memorial archive: workflow model

A shallow embedding of the workflow of the memorial archive: the pages of the
client (`src/src/pages/Upload.jsx`, `src/src/pages/AdminDashboard.jsx`,
`src/src/pages/EditMemorial.jsx`, `src/src/pages/Archive.jsx`,
`src/src/pages/MemorialDetail.jsx`, `src/src/pages/Chat.jsx`,
`src/src/pages/Notifications.jsx`, `src/src/context/AuthContext.jsx`), the
maintenance script `src/scripts/clear-test-data.js` and the trigger handlers
of `src/functions/index.js`.

Documents are field lists, the document store is a record of collections, and
every remote call (asset upload, store read, store write) takes its outcome
from an explicit environment, so that a handler is a total function from its
inputs, the environment and the world before to the world after.  Every remote
call a handler attempts is appended to a call log.
-/

set_option autoImplicit false

namespace MemorialArchive

/-! ## Values and documents -/

/-- A field value of a stored document or of a JavaScript object literal. -/
inductive Value where
  | null
  | bool (b : Bool)
  | num (n : Int)
  | str (s : String)
  | strs (l : List String)
  | serverTimestamp
  | timestamp (seconds : Int)
  deriving DecidableEq, Repr

/-- An object literal or a stored document: fields in source order. -/
abbrev Fields := List (String × Value)

/-- Property access `obj.k`; `none` stands for `undefined`. -/
def getField (d : Fields) (k : String) : Option Value :=
  List.lookup k d

/-- Assignment of one field, keeping the position of an existing key. -/
def setField (k : String) (v : Value) : Fields → Fields
  | [] => [(k, v)]
  | (k0, v0) :: rest => if k0 = k then (k, v) :: rest else (k0, v0) :: setField k v rest

/-- The field merge performed by `updateDoc(ref, payload)` (and by an object
spread): every field of the payload is assigned, all others are kept. -/
def applyUpdate (payload : Fields) (d : Fields) : Fields :=
  payload.foldl (fun acc kv => setField kv.1 kv.2 acc) d

/-- JavaScript truthiness of a (possibly undefined) value. -/
def truthy : Option Value → Bool
  | none => false
  | some .null => false
  | some (.bool b) => b
  | some (.num n) => n != 0
  | some (.str s) => s != ""
  | some (.strs _) => true
  | some .serverTimestamp => true
  | some (.timestamp _) => true

/-- The expression `a || b` on values. -/
def jsOr (a : Option Value) (b : Value) : Value :=
  match a with
  | some v => if truthy (some v) then v else b
  | none => b

/-- The expression `s || b` for a string `s`. -/
def strOr (s : String) (b : Value) : Value :=
  if s != "" then .str s else b

/-- The expression `a || b` for a possibly undefined string `a` and a string `b`. -/
def strOrStr (a : Option String) (b : String) : String :=
  match a with
  | some s => if s != "" then s else b
  | none => b

/-- White space and line terminators removed by `String.prototype.trim`. -/
def isJsWhitespace (c : Char) : Bool :=
  c.val = 0x09 || c.val = 0x0A || c.val = 0x0B || c.val = 0x0C || c.val = 0x0D ||
  c.val = 0x20 || c.val = 0xA0 || c.val = 0x1680 ||
  (0x2000 ≤ c.val && c.val ≤ 0x200A) ||
  c.val = 0x2028 || c.val = 0x2029 || c.val = 0x202F || c.val = 0x205F ||
  c.val = 0x3000 || c.val = 0xFEFF

/-- The method `s.trim()`. -/
def jsTrim (s : String) : String :=
  String.mk ((s.data.dropWhile isJsWhitespace).reverse.dropWhile isJsWhitespace).reverse

/-! ## The document store -/

/-- A collection: documents by id, in insertion order. -/
abbrev Coll := List (String × Fields)

/-- The document with the given id, if any. -/
def Coll.doc (c : Coll) (id : String) : Option Fields :=
  List.lookup id c

/-- Apply `f` to the document(s) stored under `id`. -/
def Coll.modify (c : Coll) (id : String) (f : Fields → Fields) : Coll :=
  c.map (fun e => if e.1 = id then (e.1, f e.2) else e)

/-- The write of a document under a newly generated id (`addDoc(coll, data)`,
or `set` on a reference obtained from `doc(collection(db, name))`): a new
document is added to the collection. -/
def Coll.create (c : Coll) (id : String) (data : Fields) : Coll :=
  c ++ [(id, data)]

/-- The collections of the document store used by the workflow; `messages`
holds the subcollection `chats/{chatId}/messages` of each chat, by chat id, and
`mail` is the queue of outgoing mails. -/
structure Store where
  users : Coll
  memorials : Coll
  notifications : Coll
  chats : Coll := []
  messages : List (String × Coll) := []
  mail : Coll := []
  deriving DecidableEq, Repr

/-- A remote call attempted by a handler. -/
inductive Call where
  | upload (folder : String) (file : String)
  | setDoc (coll : String) (id : String)
  | updateDoc (coll : String) (id : String)
  | addDoc (coll : String)
  | getDocs (coll : String)
  | getDoc (coll : String) (id : String)
  | commit (writes : Nat)
  | commitDeletes (coll : String) (ids : List String)
  deriving DecidableEq, Repr

/-- Whether the call is a write to the document store. -/
def Call.isStoreWrite : Call → Bool
  | .setDoc _ _ => true
  | .updateDoc _ _ => true
  | .addDoc _ => true
  | .commit _ => true
  | .commitDeletes _ _ => true
  | _ => false

/-- Whether the call is an upload to the asset service. -/
def Call.isUpload : Call → Bool
  | .upload _ _ => true
  | _ => false

/-- The document store together with the log of remote calls attempted so
far, oldest first. -/
structure World where
  store : Store
  log : List Call
  deriving DecidableEq, Repr

/-- Record an attempted remote call. -/
def World.call (w : World) (c : Call) : World :=
  { w with log := w.log ++ [c] }

/-- Assignment of one entry of the map from chat ids to their messages. -/
def setMessagesEntry (chatId : String) (c : Coll) : List (String × Coll) → List (String × Coll)
  | [] => [(chatId, c)]
  | (k, v) :: rest =>
    if k = chatId then (chatId, c) :: rest else (k, v) :: setMessagesEntry chatId c rest

/-- The subcollection `chats/{chatId}/messages`. -/
def Store.messagesOf (s : Store) (chatId : String) : Coll :=
  (List.lookup chatId s.messages).getD []

/-- The store with the subcollection `chats/{chatId}/messages` replaced. -/
def Store.setMessages (s : Store) (chatId : String) (c : Coll) : Store :=
  { s with messages := setMessagesEntry chatId c s.messages }

/-- The path of the subcollection `chats/{chatId}/messages`. -/
def messagesPath (chatId : String) : String :=
  "chats/" ++ chatId ++ "/messages"

/-- The error message of an `updateDoc` on a document that does not exist. -/
def notFoundMessage : String := "No document to update"

/-- The call `await updateDoc(doc(db, 'memorials', id), payload)`: `fails` is
the rejection chosen by the environment; the store also rejects the update of
a document that does not exist. -/
def updateMemorialDoc (fails : Option String) (id : String) (payload : Fields)
    (w : World) : Except String Unit × World :=
  let w1 := w.call (.updateDoc "memorials" id)
  match fails with
  | some msg => (.error msg, w1)
  | none =>
    match w1.store.memorials.doc id with
    | none => (.error notFoundMessage, w1)
    | some _ =>
      (.ok (), { w1 with store :=
        { w1.store with memorials := w1.store.memorials.modify id (applyUpdate payload) } })

/-- The call `await addDoc(collection(db, 'notifications'), data)`; `autoId`
is the document id generated for the new document. -/
def addNotificationDoc (fails : Option String) (autoId : String) (data : Fields)
    (w : World) : Except String Unit × World :=
  let w1 := w.call (.addDoc "notifications")
  match fails with
  | some msg => (.error msg, w1)
  | none =>
    (.ok (), { w1 with store :=
      { w1.store with notifications := w1.store.notifications.create autoId data } })

/-! ## `AuthContext.jsx` -/

namespace AuthContext

/-- The context value `isAdmin`:
`userProfile?.role === 'admin' || userProfile?.isAdmin === true`. -/
def isAdmin (userProfile : Option Fields) : Bool :=
  match userProfile with
  | none => false
  | some p => getField p "role" == some (.str "admin") || getField p "isAdmin" == some (.bool true)

end AuthContext

/-! ## `AdminDashboard.jsx` -/

namespace AdminDashboard

/-- The component state read by the approval handlers: the memorial objects of
the last snapshot (`{ id: d.id, ...d.data() }`) and the custom messages typed
by the admin, by memorial id. -/
structure State where
  memorials : List Fields
  customMessages : List (String × String)
  deriving DecidableEq, Repr

/-- The object built from a snapshot document: `{ id: d.id, ...d.data() }`. -/
def snapshotObject (e : String × Fields) : Fields :=
  applyUpdate e.2 [("id", .str e.1)]

/-- Outcomes chosen by the environment for one run of an approval handler. -/
structure Env where
  confirm : Bool
  updateDocError : Option String
  addDocError : Option String
  autoId : String
  deriving DecidableEq, Repr

/-- What a handler leaves behind. -/
structure Result where
  world : World
  state : State
  alerts : List String
  deriving DecidableEq, Repr

/-- The payload of the approval update. -/
def approvePayload : Fields :=
  [("isApproved", .bool true), ("status", .str "approved")]

/-- The payload of the rejection update. -/
def rejectPayload : Fields :=
  [("isApproved", .bool false), ("status", .str "rejected")]

/-- The canned text of an approval notification. -/
def approvedDefault : String :=
  "Your tribute to the Kamgbunli Digital Sanctuary has been approved and is now live on the Tribute Wall!"

/-- The canned text of a rejection notification. -/
def deniedDefault : String :=
  "Your tribute was not approved at this time. Please contact the Admin for more details."

/-- The lookup `memorials.find(m => m.id === memorialId)`. -/
def findMemorial (st : State) (memorialId : String) : Option Fields :=
  st.memorials.find? (fun m => getField m "id" == some (.str memorialId))

/-- The expression `customMessages[memorialId]?.trim()`. -/
def adminMsg (st : State) (memorialId : String) : Option String :=
  (List.lookup memorialId st.customMessages).map jsTrim

/-- The notification written for the poster of a memorial. -/
def posterNotification (memorial : Fields) (memorialId : String) (type : String)
    (msg : Option String) (dflt : String) : Fields :=
  [ ("userId", (getField memorial "postedBy").getD .null),
    ("memorialId", .str memorialId),
    ("memorialName", jsOr (getField memorial "fullName") (.str "Memorial")),
    ("type", .str type),
    ("message", .str (strOrStr msg dflt)),
    ("isRead", .bool false),
    ("createdAt", .serverTimestamp) ]

/-- The state update `setCustomMessages(prev => ... delete next[memorialId] ...)`. -/
def clearCustomMessage (st : State) (memorialId : String) : State :=
  { st with customMessages := st.customMessages.filter (fun e => e.1 != memorialId) }

/-- The second half of both approval handlers: create the in-app notification
for the poster, when the memorial has one. -/
def notifyPoster (env : Env) (st : State) (memorial : Option Fields) (memorialId : String)
    (type dflt : String) (w : World) : Except String Unit × World × State :=
  match memorial with
  | none => (.ok (), w, st)
  | some m =>
    if truthy (getField m "postedBy") then
      match addNotificationDoc env.addDocError env.autoId
          (posterNotification m memorialId type (adminMsg st memorialId) dflt) w with
      | (.error e, w1) => (.error e, w1, st)
      | (.ok _, w1) => (.ok (), w1, clearCustomMessage st memorialId)
    else (.ok (), w, st)

/-- The handler `approveMemorial(memorialId)`. -/
def approveMemorial (env : Env) (st : State) (memorialId : String) (w : World) : Result :=
  let memorial := findMemorial st memorialId
  match updateMemorialDoc env.updateDocError memorialId approvePayload w with
  | (.error e, w1) =>
    { world := w1, state := st, alerts := ["Failed to approve: " ++ e] }
  | (.ok _, w1) =>
    let kept := st.memorials.filter (fun m => getField m "id" != some (.str memorialId))
    let st1 : State := { st with memorials := kept }
    match notifyPoster env st1 memorial memorialId "approved" approvedDefault w1 with
    | (.error e, w2, st2) =>
      { world := w2, state := st2, alerts := ["Failed to approve: " ++ e] }
    | (.ok _, w2, st2) => { world := w2, state := st2, alerts := [] }

/-- The handler `rejectMemorial(memorialId)`; `env.confirm` is the answer to
the confirmation dialog. -/
def rejectMemorial (env : Env) (st : State) (memorialId : String) (w : World) : Result :=
  if !env.confirm then { world := w, state := st, alerts := [] }
  else
    let memorial := findMemorial st memorialId
    match updateMemorialDoc env.updateDocError memorialId rejectPayload w with
    | (.error _, w1) => { world := w1, state := st, alerts := [] }
    | (.ok _, w1) =>
      match notifyPoster env st memorial memorialId "denied" deniedDefault w1 with
      | (.error _, w2, st2) => { world := w2, state := st2, alerts := [] }
      | (.ok _, w2, st2) => { world := w2, state := st2, alerts := [] }

/-- An admin transition on a memorial. -/
inductive Transition where
  | approve
  | reject
  deriving DecidableEq, Repr

/-- Run an admin transition; a rejection is run as confirmed or not according
to `env.confirm`. -/
def runTransition (t : Transition) (env : Env) (st : State) (memorialId : String)
    (w : World) : Result :=
  match t with
  | .approve => approveMemorial env st memorialId w
  | .reject => rejectMemorial env st memorialId w

/-- The payload of the status update issued by a transition. -/
def Transition.payload : Transition → Fields
  | .approve => approvePayload
  | .reject => rejectPayload

end AdminDashboard

/-! ## The asset upload endpoint -/

/-- The JSON answer of the upload endpoint, as far as the handlers read it:
`response.ok`, `response.status`, `data.secure_url` and `errData?.error?.message`. -/
structure Response where
  ok : Bool
  status : Nat
  secureUrl : String
  errorMessage : Option String
  deriving DecidableEq, Repr

/-- The settlement of one `fetch` of the upload endpoint: the promise rejects
(network failure) or resolves with a response. -/
inductive FetchResult where
  | rejected (message : String)
  | resolved (response : Response)
  deriving DecidableEq, Repr

/-- The tail of `uploadToCloudinary` after the `fetch`: a non-OK response
throws `errData?.error?.message || 'Upload failed (status)'`, an OK response
returns `data.secure_url`. -/
def uploadToCloudinary (r : FetchResult) : Except String String :=
  match r with
  | .rejected msg => .error msg
  | .resolved resp =>
    if !resp.ok then
      .error (strOrStr resp.errorMessage ("Upload failed (" ++ toString resp.status ++ ")"))
    else .ok resp.secureUrl

/-! ## `Upload.jsx` -/

namespace Upload

/-- The constant `MAX_PHOTOS`. -/
def MAX_PHOTOS : Nat := 3

/-- The form state. -/
structure Form where
  fullName : String
  familyHouse : String
  dateOfPassing : String
  biography : String
  relationship : String
  deriving DecidableEq, Repr

/-- The signed-in user of the identity provider, as far as the page reads it. -/
structure AuthUser where
  uid : String
  displayName : Option String
  email : Option String
  deriving DecidableEq, Repr

/-- What `handleSubmit` reads: the form, the selected files (by name), the
signed-in user and the user profile from which `isAdmin` is derived. -/
structure Input where
  form : Form
  photoFiles : List String
  legacyDocFile : Option String
  currentUser : AuthUser
  userProfile : Option Fields
  deriving DecidableEq, Repr

/-- Outcomes chosen by the environment for one run of `handleSubmit`:
the settlement of the upload of the photo at each index and of the document,
the id generated for the new memorial and for the notification at each index,
and the rejection, if any, of each store call. -/
structure Env where
  photoFetch : Nat → FetchResult
  docFetch : FetchResult
  memorialId : String
  notificationId : Nat → String
  setDocError : Option String
  getDocsError : Option String
  commitError : Option String

/-- The page state left by `handleSubmit`, with the alerts shown and the
navigations scheduled. -/
structure Result where
  world : World
  error : String
  success : Bool
  submitting : Bool
  alerts : List String
  navigations : List String
  deriving DecidableEq, Repr

/-- The expression `currentUser.displayName || currentUser.email`, `none` when
both are missing or empty. -/
def nameOrEmail (u : AuthUser) : Option String :=
  match u.displayName with
  | some n => if n != "" then some n else u.email
  | none => u.email

/-- An optional string as a value, for `x || null`. -/
def optStrOrNull (a : Option String) : Value :=
  match a with
  | some s => strOr s .null
  | none => .null

/-- Step 1 of `handleSubmit`: the loop uploading `photoFiles[i]`, `i` upward,
pushing each returned URL; the first failing upload throws. -/
def uploadPhotos (env : Env) :
    Nat → List String → List String → World → Except String (List String) × World
  | _, [], imageUrls, w => (.ok imageUrls, w)
  | i, file :: rest, imageUrls, w =>
    let w1 := w.call (.upload "wolo_memorials" file)
    match uploadToCloudinary (env.photoFetch i) with
    | .error e => (.error e, w1)
    | .ok url => uploadPhotos env (i + 1) rest (imageUrls ++ [url]) w1

/-- Step 2 of `handleSubmit`: the optional document upload.  A rejected fetch
throws; the URL is taken only `if (docRes.ok)`. -/
def uploadDocument (env : Env) (legacyDocFile : Option String) (w : World) :
    Except String (Option String) × World :=
  match legacyDocFile with
  | none => (.ok none, w)
  | some file =>
    let w1 := w.call (.upload "wolo_documents" file)
    match env.docFetch with
    | .rejected msg => (.error msg, w1)
    | .resolved docRes =>
      if docRes.ok then (.ok (some docRes.secureUrl), w1) else (.ok none, w1)

/-- The object `memorialData`. -/
def memorialData (inp : Input) (imageUrls : List String) (legacyDocUrl : Option String) :
    Fields :=
  let isAdmin := AuthContext.isAdmin inp.userProfile
  [ ("fullName", .str (jsTrim inp.form.fullName)),
    ("familyHouse", strOr (jsTrim inp.form.familyHouse) .null),
    ("dateOfPassing", strOr inp.form.dateOfPassing .null),
    ("biography", .str (jsTrim inp.form.biography)),
    ("imageUrl", optStrOrNull imageUrls.head?),
    ("imageUrls", if imageUrls.length > 0 then .strs imageUrls else .null),
    ("legacyDocumentUrl", match legacyDocUrl with
                          | some u => .str u
                          | none => .null),
    ("relationship", .str (jsTrim inp.form.relationship)),
    ("audioTributeUrl", .null),
    ("postedBy", .str inp.currentUser.uid),
    ("postedByName", .str (strOrStr (nameOrEmail inp.currentUser) "Unknown")),
    ("postedByEmail", optStrOrNull inp.currentUser.email),
    ("candlesLit", .num 0),
    ("status", .str (if isAdmin then "approved" else "pending")),
    ("isApproved", .bool (if isAdmin then true else false)),
    ("createdAt", .serverTimestamp) ]

/-- The notification set in the batch for one admin document. -/
def adminAlert (inp : Input) (env : Env) (adminId : String) : Fields :=
  [ ("userId", .str adminId),
    ("type", .str "admin_alert"),
    ("message", .str ((match nameOrEmail inp.currentUser with
                       | some n => n
                       | none => "null") ++
        " has submitted a new memorial for " ++ jsTrim inp.form.fullName ++
        " that requires your review.")),
    ("memorialId", .str env.memorialId),
    ("memorialName", .str (jsTrim inp.form.fullName)),
    ("isRead", .bool false),
    ("createdAt", .serverTimestamp) ]

/-- The result of `query(collection(db, 'users'), where('role', '==', 'admin'))`. -/
def adminDocs (users : Coll) : Coll :=
  users.filter (fun e => getField e.2 "role" == some (.str "admin"))

/-- The writes queued by `adminDocs.forEach(... batch.set(notifRef, ...))`:
one new notification document per admin document, in query order. -/
def adminBatch (inp : Input) (env : Env) (admins : Coll) : Coll :=
  (List.range admins.length).zip admins |>.map
    (fun p => (env.notificationId p.1, adminAlert inp env p.2.1))

/-- The commit of a batch of `set` writes on the notifications: all of them
are applied, or none. -/
def commitNotifications (fails : Option String) (writes : Coll) (w : World) :
    Except String Unit × World :=
  let w1 := w.call (.commit writes.length)
  match fails with
  | some msg => (.error msg, w1)
  | none =>
    let written := writes.foldl (fun c e => c.create e.1 e.2) w1.store.notifications
    (.ok (), { w1 with store := { w1.store with notifications := written } })

/-- The call `await setDoc(newMemorialRef, memorialData)`, where
`newMemorialRef = doc(collection(db, 'memorials'))` has a generated id. -/
def setMemorialDoc (fails : Option String) (id : String) (data : Fields) (w : World) :
    Except String Unit × World :=
  let w1 := w.call (.setDoc "memorials" id)
  match fails with
  | some msg => (.error msg, w1)
  | none =>
    (.ok (), { w1 with store := { w1.store with memorials := w1.store.memorials.create id data } })

/-- The fan-out after the memorial write: query the admin users and, when
there is one at least, commit one batch with a notification for each. -/
def notifyAdmins (inp : Input) (env : Env) (w : World) : Except String Unit × World :=
  let w1 := w.call (.getDocs "users")
  match env.getDocsError with
  | some msg => (.error msg, w1)
  | none =>
    let admins := adminDocs w1.store.users
    if !admins.isEmpty then commitNotifications env.commitError (adminBatch inp env admins) w1
    else (.ok (), w1)

/-- Step 3 of `handleSubmit`, the inner `try` block: write the memorial, then
notify the admins if the submitter is not one. -/
def saveMemorial (inp : Input) (env : Env) (data : Fields) (w : World) :
    Except String Unit × World :=
  match setMemorialDoc env.setDocError env.memorialId data w with
  | (.error e, w1) => (.error e, w1)
  | (.ok _, w1) =>
    if !AuthContext.isAdmin inp.userProfile then notifyAdmins inp env w1
    else (.ok (), w1)

/-- The outcome of the outer `catch` and `finally` for a thrown error. -/
def failed (w : World) (alerts : List String) (msg : String) : Result :=
  { world := w, error := "Failed: " ++ msg, success := false, submitting := false,
    alerts := alerts, navigations := [] }

/-- The handler `handleSubmit(e)`. -/
def handleSubmit (inp : Input) (env : Env) (w : World) : Result :=
  if jsTrim inp.form.fullName == "" then
    { world := w, error := "Please enter the full name of the deceased.", success := false,
      submitting := false, alerts := [], navigations := [] }
  else if jsTrim inp.form.relationship == "" then
    { world := w, error := "Please specify your relationship.", success := false,
      submitting := false, alerts := [], navigations := [] }
  else
    match uploadPhotos env 0 inp.photoFiles [] w with
    | (.error e, w1) => failed w1 [] e
    | (.ok imageUrls, w1) =>
      match uploadDocument env inp.legacyDocFile w1 with
      | (.error e, w2) => failed w2 [] e
      | (.ok legacyDocUrl, w2) =>
        match saveMemorial inp env (memorialData inp imageUrls legacyDocUrl) w2 with
        | (.error e, w3) => failed w3 ["Firestore error: " ++ e] e
        | (.ok _, w3) =>
          { world := w3, error := "", success := true, submitting := false,
            alerts := [], navigations := ["/archive"] }

end Upload

/-! ## `EditMemorial.jsx` -/

namespace EditMemorial

/-- What `handleSubmit` reads: the route parameter `id`, the form, the photo
URLs kept from the stored memorial and the newly selected files (by name). -/
structure Input where
  id : String
  form : Upload.Form
  existingPhotos : List String
  newPhotoFiles : List String
  deriving DecidableEq, Repr

/-- Outcomes chosen by the environment for one run of `handleSubmit`: the
rejection, if any, of the compression of the new photo at each index, the
settlement of its upload, and the rejection, if any, of the store update. -/
structure Env where
  compressError : Nat → Option String
  photoFetch : Nat → FetchResult
  updateDocError : Option String

/-- The page state left by `handleSubmit`. -/
structure Result where
  world : World
  error : String
  success : Bool
  submitting : Bool
  navigations : List String
  deriving DecidableEq, Repr

/-- The loop uploading `newPhotoFiles[i]`, `i` upward: each file is compressed
and then uploaded, and the returned URL pushed; the first failure throws. -/
def uploadPhotos (env : Env) :
    Nat → List String → List String → World → Except String (List String) × World
  | _, [], finalImageUrls, w => (.ok finalImageUrls, w)
  | i, file :: rest, finalImageUrls, w =>
    match env.compressError i with
    | some e => (.error e, w)
    | none =>
      let w1 := w.call (.upload "wolo_memorials" file)
      match uploadToCloudinary (env.photoFetch i) with
      | .error e => (.error e, w1)
      | .ok url => uploadPhotos env (i + 1) rest (finalImageUrls ++ [url]) w1

/-- The object `updateData`. -/
def updateData (form : Upload.Form) (finalImageUrls : List String) : Fields :=
  [ ("fullName", .str (jsTrim form.fullName)),
    ("familyHouse", strOr (jsTrim form.familyHouse) .null),
    ("dateOfPassing", strOr form.dateOfPassing .null),
    ("biography", .str (jsTrim form.biography)),
    ("relationship", .str (jsTrim form.relationship)),
    ("imageUrls", if finalImageUrls.length > 0 then .strs finalImageUrls else .null),
    ("imageUrl", match finalImageUrls.head? with
                 | some u => .str u
                 | none => .null) ]

/-- The outcome of the `catch` and `finally` for a thrown error. -/
def failed (w : World) (msg : String) : Result :=
  { world := w, error := "Failed to update: " ++ msg, success := false, submitting := false,
    navigations := [] }

/-- The handler `handleSubmit(e)`. -/
def handleSubmit (inp : Input) (env : Env) (w : World) : Result :=
  if jsTrim inp.form.fullName == "" then
    { world := w, error := "Please enter the full name.", success := false,
      submitting := false, navigations := [] }
  else
    match uploadPhotos env 0 inp.newPhotoFiles inp.existingPhotos w with
    | (.error e, w1) => failed w1 e
    | (.ok finalImageUrls, w1) =>
      match updateMemorialDoc env.updateDocError inp.id
          (updateData inp.form finalImageUrls) w1 with
      | (.error e, w2) => failed w2 e
      | (.ok _, w2) =>
        { world := w2, error := "", success := true, submitting := false,
          navigations := ["/notifications"] }

/-- The helper `getImageList(memorial)`: the list `imageUrls` when it is not
empty, else the single legacy `imageUrl`, else no image. -/
def getImageList (memorial : Fields) : List String :=
  match getField memorial "imageUrls" with
  | some (.strs (u :: us)) => u :: us
  | _ =>
    match getField memorial "imageUrl" with
    | some (.str u) => if u != "" then [u] else []
    | _ => []

/-- The property `currentUser.k` of the user object of the identity provider,
which `useAuth().currentUser` is: it carries `uid`, `displayName` and `email`;
any other property, `isAdmin` included, is `undefined`. -/
def userProperty (u : Upload.AuthUser) (k : String) : Option Value :=
  if k = "uid" then some (.str u.uid)
  else if k = "displayName" then some (match u.displayName with
                                       | some n => .str n
                                       | none => .null)
  else if k = "email" then some (match u.email with
                                 | some e => .str e
                                 | none => .null)
  else none

/-- The expression `data.k || ''` for a string field of a memorial. -/
def fieldOrEmpty (data : Fields) (k : String) : String :=
  match getField data k with
  | some (.str s) => s
  | _ => ""

/-- The page state left by `fetchMemorial`, with the navigations made. -/
structure Loaded where
  form : Upload.Form
  existingPhotos : List String
  error : String
  loading : Bool
  navigations : List String
  deriving DecidableEq, Repr

/-- The form state before the memorial is loaded. -/
def emptyForm : Upload.Form :=
  { fullName := "", familyHouse := "", dateOfPassing := "", biography := "",
    relationship := "" }

/-- The effect function `fetchMemorial()`, run when a user is signed in:
`getDocError` is the rejection, if any, of the `getDoc` call. -/
def fetchMemorial (currentUser : Upload.AuthUser) (id : String) (getDocError : Option String)
    (w : World) : Loaded × World :=
  let w1 := w.call (.getDoc "memorials" id)
  match getDocError with
  | some _ =>
    ({ form := emptyForm, existingPhotos := [], error := "Failed to load memorial details.",
       loading := false, navigations := [] }, w1)
  | none =>
    match w1.store.memorials.doc id with
    | some data =>
      if getField data "postedBy" != some (.str currentUser.uid)
          && !truthy (userProperty currentUser "isAdmin") then
        ({ form := emptyForm, existingPhotos := [], error := "", loading := false,
           navigations := ["/archive"] }, w1)
      else
        ({ form := { fullName := fieldOrEmpty data "fullName",
                     familyHouse := fieldOrEmpty data "familyHouse",
                     dateOfPassing := fieldOrEmpty data "dateOfPassing",
                     biography := fieldOrEmpty data "biography",
                     relationship := fieldOrEmpty data "relationship" },
           existingPhotos := getImageList data, error := "", loading := false,
           navigations := [] }, w1)
    | none =>
      ({ form := emptyForm, existingPhotos := [], error := "", loading := false,
         navigations := ["/archive"] }, w1)

end EditMemorial

/-! ## `MemorialDetail.jsx` -/

namespace MemorialDetail

/-- The page state `memorial`, as far as `handleMessageFamily` reads it:
`memorial.postedBy`, a user id by the schema, and `memorial.fullName`. -/
structure MemorialView where
  postedBy : String
  fullName : Value
  deriving DecidableEq, Repr

/-- What `handleMessageFamily` reads: the route parameter `id`, the signed-in
user and the loaded memorial, either of which may be missing. -/
structure Input where
  id : String
  currentUser : Option Upload.AuthUser
  memorial : Option MemorialView
  deriving DecidableEq, Repr

/-- Outcomes chosen by the environment for one run of `handleMessageFamily`:
the rejection, if any, of the query and of the `addDoc` call, and the id
generated for a new chat. -/
structure Env where
  getDocsError : Option String
  addDocError : Option String
  autoId : String
  deriving DecidableEq, Repr

/-- The page state left by `handleMessageFamily`, with the navigations made. -/
structure Result where
  world : World
  navigations : List String
  startingChat : Bool
  deriving DecidableEq, Repr

/-- The array `data.participants` of a chat document. -/
def participants (chat : Fields) : List String :=
  match getField chat "participants" with
  | some (.strs l) => l
  | _ => []

/-- The documents matched by
`query(chatsRef, where('participants', 'array-contains', uid))`. -/
def chatsOf (uid : String) (chats : Coll) : Coll :=
  chats.filter (fun e => decide (uid ∈ participants e.2))

/-- The scan `snapshot.docs.forEach(...)` for a chat that also holds the
poster: `existingChatId` is overwritten at every match. -/
def existingChatId (posterUid : String) (docs : Coll) : Option String :=
  docs.foldl (fun acc d => if posterUid ∈ participants d.2 then some d.1 else acc) none

/-- The document of a new chat.  The map `participantNames` is kept as one
field per key, named by its field path. -/
def newChat (user : Upload.AuthUser) (memorial : MemorialView) (id : String) : Fields :=
  [ ("participants", .strs [user.uid, memorial.postedBy]),
    ("participantNames." ++ user.uid, match Upload.nameOrEmail user with
                                      | some n => .str n
                                      | none => .null),
    ("participantNames." ++ memorial.postedBy, .str "Family Member"),
    ("memorialId", .str id),
    ("memorialName", memorial.fullName),
    ("lastMessage", .str ""),
    ("lastMessageAt", .serverTimestamp),
    ("createdAt", .serverTimestamp) ]

/-- The call `await addDoc(chatsRef, data)`. -/
def addChatDoc (fails : Option String) (autoId : String) (data : Fields) (w : World) :
    Except String Unit × World :=
  let w1 := w.call (.addDoc "chats")
  match fails with
  | some msg => (.error msg, w1)
  | none => (.ok (), { w1 with store := { w1.store with chats := w1.store.chats.create autoId data } })

/-- The handler `handleMessageFamily()`. -/
def handleMessageFamily (inp : Input) (env : Env) (w : World) : Result :=
  match inp.currentUser, inp.memorial with
  | some user, some memorial =>
    let posterUid := memorial.postedBy
    if posterUid = user.uid then { world := w, navigations := [], startingChat := false }
    else
      let w1 := w.call (.getDocs "chats")
      match env.getDocsError with
      | some _ => { world := w1, navigations := [], startingChat := false }
      | none =>
        let snapshot := chatsOf user.uid w1.store.chats
        match (existingChatId posterUid snapshot).filter (fun cid => cid != "") with
        | some cid =>
          { world := w1, navigations := ["/chat/" ++ cid], startingChat := false }
        | none =>
          match addChatDoc env.addDocError env.autoId (newChat user memorial inp.id) w1 with
          | (.error _, w2) => { world := w2, navigations := [], startingChat := false }
          | (.ok _, w2) =>
            { world := w2, navigations := ["/chat/" ++ env.autoId], startingChat := false }
  | _, _ => { world := w, navigations := [], startingChat := false }

/-- The world after a sequence of calls of `handleMessageFamily`, each run to
its end before the next starts. -/
def runCalls (calls : List (Input × Env)) (w : World) : World :=
  calls.foldl (fun acc c => (handleMessageFamily c.1 c.2 acc).world) w

/-- The chats whose participants include both users. -/
def chatsBetween (a b : String) (chats : Coll) : Coll :=
  chats.filter (fun e => decide (a ∈ participants e.2) && decide (b ∈ participants e.2))

/-- The store holds at most one chat per pair of distinct users. -/
def AtMostOnePerPair (chats : Coll) : Prop :=
  ∀ a b : String, a ≠ b → (chatsBetween a b chats).length ≤ 1

end MemorialDetail

/-! ## `Chat.jsx` -/

namespace Chat

/-- Whether an optional URL argument is truthy. -/
def present (url : Option String) : Bool :=
  match url with
  | some u => u != ""
  | none => false

/-- The page state read by the handlers: the chat object loaded by `fetchChat`
and the flag `sending`. -/
structure State where
  chat : Option Fields
  sending : Bool
  deriving DecidableEq, Repr

/-- Outcomes chosen by the environment for one run of `sendMessage`: the
rejection, if any, of each of its three store calls and the ids generated for
the message and for the notification. -/
structure SendEnv where
  addMessageError : Option String
  messageId : String
  updateChatError : Option String
  addNotificationError : Option String
  notificationId : String
  deriving DecidableEq, Repr

/-- What `sendMessage` leaves behind: the world, the alerts shown, the flag
`sending` and whether the input box was cleared. -/
structure SendResult where
  world : World
  alerts : List String
  sending : Bool
  cleared : Bool
  deriving DecidableEq, Repr

/-- The object `messageData`, with `audioUrl` and `imageUrl` added when given. -/
def messageData (user : Upload.AuthUser) (text : String) (audioUrl imageUrl : Option String) :
    Fields :=
  [ ("text", .str (jsTrim text)),
    ("senderId", .str user.uid),
    ("senderName", match Upload.nameOrEmail user with
                   | some n => .str n
                   | none => .null),
    ("createdAt", .serverTimestamp),
    ("status", .str "sent"),
    ("readBy", .strs []),
    ("deletedFor", .strs []),
    ("deletedForEveryone", .bool false) ] ++
  (if present audioUrl then [("audioUrl", .str (audioUrl.getD ""))] else []) ++
  (if present imageUrl then [("imageUrl", .str (imageUrl.getD ""))] else [])

/-- The text `lastMsg` stored on the chat. -/
def lastMessage (text : String) (audioUrl imageUrl : Option String) : String :=
  let lastMsg := jsTrim text
  let lastMsg := if present imageUrl && lastMsg == "" then "📷 Photo" else lastMsg
  if present audioUrl && lastMsg == "" then "🎙️ Voice Note" else lastMsg

/-- The call `await addDoc(messagesRef, messageData)`. -/
def addMessageDoc (fails : Option String) (chatId autoId : String) (data : Fields)
    (w : World) : Except String Unit × World :=
  let w1 := w.call (.addDoc (messagesPath chatId))
  match fails with
  | some msg => (.error msg, w1)
  | none =>
    let added := (w1.store.messagesOf chatId).create autoId data
    (.ok (), { w1 with store := w1.store.setMessages chatId added })

/-- The call `await updateDoc(doc(db, 'chats', chatId), payload)`; the store
rejects the update of a document that does not exist. -/
def updateChatDoc (fails : Option String) (chatId : String) (payload : Fields)
    (w : World) : Except String Unit × World :=
  let w1 := w.call (.updateDoc "chats" chatId)
  match fails with
  | some msg => (.error msg, w1)
  | none =>
    match w1.store.chats.doc chatId with
    | none => (.error notFoundMessage, w1)
    | some _ =>
      let updated := w1.store.chats.modify chatId (applyUpdate payload)
      (.ok (), { w1 with store := { w1.store with chats := updated } })

/-- The expression `chat?.participants?.find((p) => p !== currentUser.uid)`. -/
def recipientUid (chat : Option Fields) (uid : String) : Option String :=
  match chat with
  | none => none
  | some c =>
    match getField c "participants" with
    | some (.strs l) => l.find? (fun p => p != uid)
    | _ => none

/-- The notification written for the other participant. -/
def messageNotification (user : Upload.AuthUser) (chat : Option Fields) (chatId : String)
    (recipient : String) : Fields :=
  [ ("userId", .str recipient),
    ("type", .str "message"),
    ("memorialName", jsOr (getField (chat.getD []) "memorialName") (.str "Chat")),
    ("message", .str (strOrStr (Upload.nameOrEmail user) "Someone" ++
      " has sent you a message — click to view")),
    ("chatId", .str chatId),
    ("isRead", .bool false),
    ("createdAt", .serverTimestamp) ]

/-- The outcome of the `catch` and `finally` of `sendMessage` for a thrown error. -/
def sendFailed (w : World) (msg : String) : SendResult :=
  { world := w, alerts := ["Failed to send message: " ++ msg], sending := false,
    cleared := false }

/-- The function `sendMessage(text, audioUrl, imageUrl)`. -/
def sendMessage (user : Upload.AuthUser) (chatId : String) (st : State) (env : SendEnv)
    (text : String) (audioUrl imageUrl : Option String) (w : World) : SendResult :=
  if (jsTrim text == "" && !present audioUrl && !present imageUrl) || st.sending then
    { world := w, alerts := [], sending := st.sending, cleared := false }
  else
    match addMessageDoc env.addMessageError chatId env.messageId
        (messageData user text audioUrl imageUrl) w with
    | (.error e, w1) => sendFailed w1 e
    | (.ok _, w1) =>
      match updateChatDoc env.updateChatError chatId
          [("lastMessage", .str (lastMessage text audioUrl imageUrl)),
           ("lastMessageAt", .serverTimestamp)] w1 with
      | (.error e, w2) => sendFailed w2 e
      | (.ok _, w2) =>
        match (recipientUid st.chat user.uid).filter (fun r => r != "") with
        | none => { world := w2, alerts := [], sending := false, cleared := true }
        | some recipient =>
          match addNotificationDoc env.addNotificationError env.notificationId
              (messageNotification user st.chat chatId recipient) w2 with
          | (.error e, w3) => sendFailed w3 e
          | (.ok _, w3) => { world := w3, alerts := [], sending := false, cleared := true }

/-- Whether a message is matched by `where('senderId', '!=', uid)`: the field
exists, is not null and differs from `uid`. -/
def senderIsNot (uid : String) (d : Fields) : Bool :=
  match getField d "senderId" with
  | some (.str sender) => sender != uid
  | some .null => false
  | some _ => true
  | none => false

/-- The expression `data.readBy || []`. -/
def readBy (d : Fields) : List String :=
  match getField d "readBy" with
  | some (.strs l) => l
  | _ => []

/-- The payload of the update queued for a message not yet read by `uid`. -/
def readPayload (uid : String) (d : Fields) : Fields :=
  [("readBy", .strs (readBy d ++ [uid])), ("status", .str "read")]

/-- The updates queued by `snapshot.docs.forEach(...)`: one for every queried
message whose `readBy` does not include `uid`. -/
def readUpdates (uid : String) (docs : Coll) : Coll :=
  docs.filterMap (fun e => if uid ∈ readBy e.2 then none else some (e.1, readPayload uid e.2))

/-- The commit of a batch of updates of messages of one chat: every queued
update is merged into the document it refers to, or none is. -/
def commitUpdates (fails : Option String) (chatId : String) (updates : Coll) (w : World) :
    Except String Unit × World :=
  let w1 := w.call (.commit updates.length)
  match fails with
  | some msg => (.error msg, w1)
  | none =>
    let updated := (w1.store.messagesOf chatId).map (fun e =>
      match List.lookup e.1 updates with
      | some payload => (e.1, applyUpdate payload e.2)
      | none => e)
    (.ok (), { w1 with store := w1.store.setMessages chatId updated })

/-- Outcomes chosen by the environment for one run of `markAsRead`. -/
structure ReadEnv where
  getDocsError : Option String
  commitError : Option String
  deriving DecidableEq, Repr

/-- The effect that marks incoming messages as read: it returns at once
without a user or with no message on the page, and otherwise runs
`markAsRead()`, which queues all updates in one batch. -/
def markAsRead (currentUser : Option Upload.AuthUser) (chatId : String)
    (messages : List (String × Fields)) (env : ReadEnv) (w : World) : World :=
  match currentUser with
  | none => w
  | some user =>
    if messages.isEmpty then w
    else
      let w1 := w.call (.getDocs (messagesPath chatId))
      match env.getDocsError with
      | some _ => w1
      | none =>
        let snapshot := (w1.store.messagesOf chatId).filter (fun e => senderIsNot user.uid e.2)
        let updates := readUpdates user.uid snapshot
        if updates.isEmpty then w1
        else (commitUpdates env.commitError chatId updates w1).2

/-- The array `msg.deletedFor`, empty when the field is missing. -/
def deletedFor (d : Fields) : List String :=
  match getField d "deletedFor" with
  | some (.strs l) => l
  | _ => []

/-- The transform `arrayUnion(x)` applied to an array. -/
def arrayUnion (l : List String) (x : String) : List String :=
  if x ∈ l then l else l ++ [x]

/-- The call `await updateDoc(msgRef, ...)` on a message; `change` is the
effect of the payload on the stored document.  The store rejects the update of
a document that does not exist. -/
def updateMessageDoc (fails : Option String) (chatId msgId : String)
    (change : Fields → Fields) (w : World) : Except String Unit × World :=
  let w1 := w.call (.updateDoc (messagesPath chatId) msgId)
  match fails with
  | some msg => (.error msg, w1)
  | none =>
    match (w1.store.messagesOf chatId).doc msgId with
    | none => (.error notFoundMessage, w1)
    | some _ =>
      let updated := (w1.store.messagesOf chatId).modify msgId change
      (.ok (), { w1 with store := w1.store.setMessages chatId updated })

/-- What a delete handler leaves behind: the world and the alerts shown (the
context menu is closed in every case). -/
structure DeleteResult where
  world : World
  alerts : List String
  deriving DecidableEq, Repr

/-- The effect of the payload `{ deletedFor: arrayUnion(uid) }`. -/
def deleteForMeChange (uid : String) (d : Fields) : Fields :=
  setField "deletedFor" (.strs (arrayUnion (deletedFor d) uid)) d

/-- The handler `handleDeleteForMe(msgId)`. -/
def handleDeleteForMe (user : Upload.AuthUser) (chatId msgId : String)
    (fails : Option String) (w : World) : DeleteResult :=
  match updateMessageDoc fails chatId msgId (deleteForMeChange user.uid) w with
  | (.error _, w1) => { world := w1, alerts := ["Failed to delete message."] }
  | (.ok _, w1) => { world := w1, alerts := [] }

/-- The payload of the update of `handleDeleteForEveryone`. -/
def deleteForEveryonePayload : Fields :=
  [("deletedForEveryone", .bool true), ("text", .str ""), ("imageUrl", .null),
   ("audioUrl", .null)]

/-- The handler `handleDeleteForEveryone(msgId)`. -/
def handleDeleteForEveryone (chatId msgId : String) (fails : Option String) (w : World) :
    DeleteResult :=
  match updateMessageDoc fails chatId msgId (applyUpdate deleteForEveryonePayload) w with
  | (.error _, w1) => { world := w1, alerts := ["Failed to delete message."] }
  | (.ok _, w1) => { world := w1, alerts := [] }

/-- The page state `messages` delivered by the listener: the messages of the
chat as pairs of id and data, in the order of the subcollection. -/
def snapshotMessages (s : Store) (chatId : String) : List (String × Fields) :=
  s.messagesOf chatId

/-- The list `visibleMessages` for the user `uid`. -/
def visibleMessages (uid : String) (messages : List (String × Fields)) :
    List (String × Fields) :=
  messages.filter (fun msg => !(decide (uid ∈ deletedFor msg.2)))

/-- The body of a message bubble. -/
inductive Body where
  | tombstone
  | content (image : Option Value) (text : Option Value) (audio : Option Value)
  deriving DecidableEq, Repr

/-- What the page shows for one message. -/
structure Bubble where
  key : String
  isOwn : Bool
  senderName : Option Value
  body : Body
  time : Option Value
  ticks : Option Bool
  deriving DecidableEq, Repr

/-- The expression `msg.k && <element>`: the value when truthy. -/
def shown (d : Fields) (k : String) : Option Value :=
  if truthy (getField d k) then getField d k else none

/-- The element rendered for `msg` by `visibleMessages.map(...)` for the user
`uid`: the sender name for a message of somebody else, the tombstone or the
image, text and audio, the time, and the ticks of an own message that is not
a tombstone (`some true` when read). -/
def renderMessage (uid : String) (msg : String × Fields) : Bubble :=
  let isOwn := getField msg.2 "senderId" == some (.str uid)
  let isDeletedForEveryone := getField msg.2 "deletedForEveryone" == some (.bool true)
  { key := msg.1,
    isOwn := isOwn,
    senderName := if isOwn then none else getField msg.2 "senderName",
    body := if isDeletedForEveryone then .tombstone
            else .content (shown msg.2 "imageUrl") (shown msg.2 "text") (shown msg.2 "audioUrl"),
    time := getField msg.2 "createdAt",
    ticks := if isDeletedForEveryone || !isOwn then none
             else some (getField msg.2 "status" == some (.str "read")
                        || !(readBy msg.2).isEmpty) }

/-- In the words of the specification: a message authored by somebody else
that does not yet list the reader gets the reader's id added to its reader set
and the status `read`; every other message is left as it is. -/
def markedFor (uid : String) (e : String × Fields) : String × Fields :=
  if senderIsNot uid e.2 = true ∧ uid ∉ readBy e.2 then
    (e.1, applyUpdate (readPayload uid e.2) e.2)
  else e

end Chat

/-! ## Bulk deletion (`AdminDashboard.jsx`, `scripts/clear-test-data.js`) -/

/-- The top-level collection with the given name. -/
def Store.coll (s : Store) (name : String) : Coll :=
  if name = "users" then s.users
  else if name = "memorials" then s.memorials
  else if name = "notifications" then s.notifications
  else if name = "chats" then s.chats
  else []

/-- The store with the top-level collection of the given name replaced. -/
def Store.setColl (s : Store) (name : String) (c : Coll) : Store :=
  if name = "users" then { s with users := c }
  else if name = "memorials" then { s with memorials := c }
  else if name = "notifications" then { s with notifications := c }
  else if name = "chats" then { s with chats := c }
  else s

/-- The collection without the documents of the given ids. -/
def Coll.deleteIds (c : Coll) (ids : List String) : Coll :=
  c.filter (fun e => !(decide (e.1 ∈ ids)))

namespace BulkDelete

/-- The constant `batchSize` of both loops. -/
def batchSize : Nat := 500

/-- The loop `for (let i = 0; i < docs.length; i += batchSize)` of
`clearAllMemorials` and of `clearCollection`, from the index `i` on: a batch
that deletes `docs.slice(i, i + batchSize)` is committed, and a rejected commit
throws.  `commitError b` is the rejection, if any, of the commit of batch
number `b`; `deleted` is the counter kept by `clearCollection`. -/
def deleteLoop (commitError : Nat → Option String) (name : String) (docs : Coll)
    (i : Nat) (deleted : Nat) (w : World) : Except String Nat × World :=
  if i < docs.length then
    let chunk := (docs.drop i).take batchSize
    let w1 := w.call (.commitDeletes name (chunk.map Prod.fst))
    match commitError (i / batchSize) with
    | some e => (.error e, w1)
    | none =>
      let remaining := (w1.store.coll name).deleteIds (chunk.map Prod.fst)
      deleteLoop commitError name docs (i + batchSize) (deleted + chunk.length)
        { w1 with store := w1.store.setColl name remaining }
  else (.ok deleted, w)
termination_by docs.length - i
decreasing_by
  simp only [batchSize]
  omega

/-- Outcomes chosen by the environment for one run of a bulk deletion: the
answers to the two confirmation dialogs of the dashboard, the rejection, if
any, of the query and of the commit of each batch. -/
structure Env where
  confirm1 : Bool
  confirm2 : Bool
  getDocsError : Option String
  commitError : Nat → Option String

/-- What `clearAllMemorials` leaves behind. -/
structure Result where
  world : World
  alerts : List String
  deriving DecidableEq, Repr

/-- The handler `clearAllMemorials()` of the dashboard. -/
def clearAllMemorials (env : Env) (w : World) : Result :=
  if !env.confirm1 then { world := w, alerts := [] }
  else if !env.confirm2 then { world := w, alerts := [] }
  else
    let w1 := w.call (.getDocs "memorials")
    match env.getDocsError with
    | some e => { world := w1, alerts := ["Failed to clear: " ++ e] }
    | none =>
      match deleteLoop env.commitError "memorials" (w1.store.coll "memorials") 0 0 w1 with
      | (.error e, w2) => { world := w2, alerts := ["Failed to clear: " ++ e] }
      | (.ok _, w2) => { world := w2, alerts := [] }

/-- The function `clearCollection(collectionName)` of the script: it returns
the number of deleted documents, or throws. -/
def clearCollection (env : Env) (collectionName : String) (w : World) :
    Except String Nat × World :=
  let w1 := w.call (.getDocs collectionName)
  match env.getDocsError with
  | some e => (.error e, w1)
  | none =>
    let docs := w1.store.coll collectionName
    if docs.isEmpty then (.ok 0, w1)
    else deleteLoop env.commitError collectionName docs 0 0 w1

end BulkDelete

/-! ## `functions/index.js` -/

namespace Functions

/-- Outcomes chosen by the environment for one run of a trigger handler: the
rejection, if any, of the read of the chat document, of the read of the user
document and of the write to the mail queue, and the id generated for the
queued mail. -/
structure Env where
  getChatError : Option String
  getUserError : Option String
  addMailError : Option String
  mailId : String
  deriving DecidableEq, Repr

/-- The string a value yields inside a template literal. -/
def templ : Option Value → String
  | none => "undefined"
  | some .null => "null"
  | some (.bool b) => if b then "true" else "false"
  | some (.num n) => toString n
  | some (.str s) => s
  | some (.strs l) => String.intercalate "," l
  | some .serverTimestamp => "[object Object]"
  | some (.timestamp _) => "[object Object]"

/-- The document `{ to, message: { subject, html } }`: the nested fields are
kept under dotted keys, and the HTML body as the name of its template followed
by the values interpolated into it. -/
def mailDoc (recipient : Value) (subject : String) (html : List String) : Fields :=
  [("to", recipient), ("message.subject", .str subject), ("message.html", .strs html)]

/-- The error of a write whose data holds an undefined field. -/
def undefinedMessage : String := "Cannot use \"undefined\" as a Firestore value"

/-- The error of `.doc(id)` for an id that is not a non-empty string. -/
def invalidPathMessage : String := "Value for argument \"documentPath\" is not a valid resource path"

/-- The error of `participants.find(...)` on a value that is not an array. -/
def notAnArrayMessage : String := "participants.find is not a function"

/-- The call `await db.collection("mail").add({ to, message })`.  An undefined
`to` is refused by the client library before any request is made; otherwise
the request is sent and, unless rejected, a document with a generated id is
added to the queue. -/
def addMail (fails : Option String) (autoId : String) (recipient : Option Value) (subject : String)
    (html : List String) (w : World) : Except String Unit × World :=
  match recipient with
  | none => (.error undefinedMessage, w)
  | some v =>
    let w1 := w.call (.addDoc "mail")
    match fails with
    | some msg => (.error msg, w1)
    | none =>
      (.ok (), { w1 with store :=
        { w1.store with mail := w1.store.mail.create autoId (mailDoc v subject html) } })

/-- The reference `db.collection(name).doc(id)`: the id has to be a non-empty
string. -/
def docPath (id : Option Value) : Except String String :=
  match id with
  | some (.str s) => if s != "" then .ok s else .error invalidPathMessage
  | _ => .error invalidPathMessage

/-- The call `await db.collection(name).doc(id).get()`: the data of the
snapshot, `none` when its `exists` is false. -/
def getSnapshot (fails : Option String) (name id : String) (w : World) :
    Except String (Option Fields) × World :=
  let w1 := w.call (.getDoc name id)
  match fails with
  | some msg => (.error msg, w1)
  | none => (.ok ((w1.store.coll name).doc id), w1)

/-- The `catch` of a handler: a thrown error is logged and the handler
completes. -/
def caught (r : Except String Unit × World) : Except String Unit × World :=
  match r with
  | (.error _, w) => (.ok (), w)
  | (.ok u, w) => (.ok u, w)

/-- The subject of the welcome mail. -/
def welcomeSubject : String := "Your Account is Verified - Welcome to Kamgbunli Legacy"

/-- The condition `newData.isVerified === true && oldData.isVerified === false`. -/
def becameVerified (oldData newData : Fields) : Bool :=
  getField newData "isVerified" == some (.bool true) &&
  getField oldData "isVerified" == some (.bool false)

/-- The values interpolated into the welcome mail. -/
def welcomeHtml (newData : Fields) : List String :=
  let userName := jsOr (getField newData "displayName") (.str "Member")
  ["welcome", templ (some userName)]

/-- The handler `onUserVerified`, run on every update of a document of
`users`, with the data before and after the update. -/
def onUserVerified (oldData newData : Fields) (env : Env) (w : World) :
    Except String Unit × World :=
  if becameVerified oldData newData then
    let userEmail := getField newData "email"
    caught (addMail env.addMailError env.mailId userEmail welcomeSubject (welcomeHtml newData) w)
  else (.ok (), w)

/-- The expression `chatData.participants || []`, on which `find` is called:
an array is kept, a falsy value gives the empty array, and on any other value
the call of `find` throws. -/
def participantsOf (chatData : Fields) : Except String (List String) :=
  match getField chatData "participants" with
  | some (.strs l) => .ok l
  | v => if truthy v then .error notAnArrayMessage else .ok []

/-- The expression `participants.find((uid) => uid !== senderId)`. -/
def recipientOf (participants : List String) (senderId : Option Value) : Option String :=
  participants.find? (fun uid => some (Value.str uid) != senderId)

/-- The subject of the mail about a new message. -/
def messageSubject (messageData : Fields) : String :=
  let senderName := jsOr (getField messageData "senderName") (.str "A Community Member")
  "New Message from " ++ templ (some senderName) ++ " - Kamgbunli Legacy"

/-- The values interpolated into the mail about a new message. -/
def messageHtml (messageData : Fields) (chatId : String) (recipientData : Fields) :
    List String :=
  let recipientName := jsOr (getField recipientData "displayName") (.str "Family Member")
  let senderName := jsOr (getField messageData "senderName") (.str "A Community Member")
  ["message", templ (some recipientName), templ (some senderName),
   templ (getField messageData "text"), chatId]

/-- The `try` block of `onMessageCreated`. -/
def onMessageCreatedTry (messageData : Fields) (chatId : String) (env : Env) (w : World) :
    Except String Unit × World :=
  let senderId := getField messageData "senderId"
  match getSnapshot env.getChatError "chats" chatId w with
  | (.error e, w1) => (.error e, w1)
  | (.ok none, w1) => (.ok (), w1)
  | (.ok (some chatData), w1) =>
    match participantsOf chatData with
    | .error e => (.error e, w1)
    | .ok participants =>
      match (recipientOf participants senderId).filter (fun r => r != "") with
      | none => (.ok (), w1)
      | some recipientId =>
        match getSnapshot env.getUserError "users" recipientId w1 with
        | (.error e, w2) => (.error e, w2)
        | (.ok none, w2) => (.ok (), w2)
        | (.ok (some recipientData), w2) =>
          let recipientEmail := getField recipientData "email"
          if !truthy recipientEmail then (.ok (), w2)
          else
            addMail env.addMailError env.mailId recipientEmail (messageSubject messageData)
              (messageHtml messageData chatId recipientData) w2

/-- The handler `onMessageCreated`, run on the creation of a document of
`chats/{chatId}/messages`. -/
def onMessageCreated (messageData : Fields) (chatId : String) (env : Env) (w : World) :
    Except String Unit × World :=
  if !truthy (getField messageData "senderId") then (.ok (), w)
  else caught (onMessageCreatedTry messageData chatId env w)

/-- The subject of the mail about a received submission. -/
def receivedSubject (fullName : Option Value) : String :=
  "Submission Received: " ++ templ fullName ++ " - Kamgbunli Legacy"

/-- The values interpolated into the mail about a received submission. -/
def receivedHtml (memorialData userData : Fields) : List String :=
  let userName := jsOr (getField userData "displayName") (.str "Member")
  ["received", templ (some userName), templ (getField memorialData "fullName")]

/-- The `try` block of `onMemorialCreated`. -/
def onMemorialCreatedTry (memorialData : Fields) (env : Env) (w : World) :
    Except String Unit × World :=
  match docPath (getField memorialData "postedBy") with
  | .error e => (.error e, w)
  | .ok userId =>
    match getSnapshot env.getUserError "users" userId w with
    | (.error e, w1) => (.error e, w1)
    | (.ok none, w1) => (.ok (), w1)
    | (.ok (some userData), w1) =>
      let userEmail := getField userData "email"
      if !truthy userEmail then (.ok (), w1)
      else if getField memorialData "status" == some (.str "pending") then
        addMail env.addMailError env.mailId userEmail
          (receivedSubject (getField memorialData "fullName"))
          (receivedHtml memorialData userData) w1
      else (.ok (), w1)

/-- The handler `onMemorialCreated`, run on the creation of a document of
`memorials`. -/
def onMemorialCreated (memorialData : Fields) (env : Env) (w : World) :
    Except String Unit × World :=
  if !truthy (getField memorialData "postedBy") then (.ok (), w)
  else caught (onMemorialCreatedTry memorialData env w)

/-- The subject of the mail about a memorial that went live. -/
def liveSubject (fullName : Option Value) : String :=
  "Live Now: " ++ templ fullName ++ " - Kamgbunli Legacy"

/-- The values interpolated into the mail about a memorial that went live. -/
def liveHtml (newData : Fields) (memorialId : String) (userData : Fields) : List String :=
  let userName := jsOr (getField userData "displayName") (.str "Member")
  ["live", templ (some userName), templ (getField newData "fullName"), memorialId]

/-- The condition `oldData.isApproved !== true && newData.isApproved === true`. -/
def becameApproved (oldData newData : Fields) : Bool :=
  getField oldData "isApproved" != some (.bool true) &&
  getField newData "isApproved" == some (.bool true)

/-- The `try` block of `onMemorialUpdated`. -/
def onMemorialUpdatedTry (newData : Fields) (memorialId : String) (env : Env) (w : World) :
    Except String Unit × World :=
  match docPath (getField newData "postedBy") with
  | .error e => (.error e, w)
  | .ok userId =>
    match getSnapshot env.getUserError "users" userId w with
    | (.error e, w1) => (.error e, w1)
    | (.ok none, w1) => (.ok (), w1)
    | (.ok (some userData), w1) =>
      let userEmail := getField userData "email"
      if !truthy userEmail then (.ok (), w1)
      else
        addMail env.addMailError env.mailId userEmail
          (liveSubject (getField newData "fullName"))
          (liveHtml newData memorialId userData) w1

/-- The handler `onMemorialUpdated`, run on every update of a document of
`memorials`, with the data before and after the update. -/
def onMemorialUpdated (oldData newData : Fields) (memorialId : String) (env : Env)
    (w : World) : Except String Unit × World :=
  if becameApproved oldData newData then
    if !truthy (getField newData "postedBy") then (.ok (), w)
    else caught (onMemorialUpdatedTry newData memorialId env w)
  else (.ok (), w)

end Functions

/-! ## Accounts (`AuthContext.jsx`, `AdminDashboard.jsx`) -/

/-- The write `setDoc(ref, data)` under a given id: the document stored under
the id is replaced, or created when there is none. -/
def Coll.set (c : Coll) (id : String) (data : Fields) : Coll :=
  if (c.doc id).isSome then c.modify id (fun _ => data) else c.create id data

/-- The call `await setDoc(doc(db, 'users', uid), data)`. -/
def setUserDoc (fails : Option String) (uid : String) (data : Fields) (w : World) :
    Except String Unit × World :=
  let w1 := w.call (.setDoc "users" uid)
  match fails with
  | some msg => (.error msg, w1)
  | none => (.ok (), { w1 with store := { w1.store with users := w1.store.users.set uid data } })

/-- The call `await updateDoc(doc(db, 'users', id), payload)`; the store
rejects the update of a document that does not exist. -/
def updateUserDoc (fails : Option String) (id : String) (payload : Fields) (w : World) :
    Except String Unit × World :=
  let w1 := w.call (.updateDoc "users" id)
  match fails with
  | some msg => (.error msg, w1)
  | none =>
    match w1.store.users.doc id with
    | none => (.error notFoundMessage, w1)
    | some _ =>
      (.ok (), { w1 with store :=
        { w1.store with users := w1.store.users.modify id (applyUpdate payload) } })

namespace AuthContext

/-- The user of the identity provider, as far as the sign-in reads it; a
missing `email`, `displayName` or `phoneNumber` is `null`. -/
structure ProviderUser where
  uid : String
  email : Option String
  displayName : Option String
  phoneNumber : Option String
  deriving DecidableEq, Repr

/-- Outcomes chosen by the environment for one run of `signup`: the uid of
the created account or the rejection of its creation, the rejection, if any,
of the profile update and of the store write, and the time of
`new Date().toISOString()`. -/
structure SignupEnv where
  createUser : Except String String
  updateProfileError : Option String
  setDocError : Option String
  now : String

/-- The user document written by `signup`. -/
def signupDoc (uid email displayName location phoneNumber communityReference now : String) :
    Fields :=
  [ ("uid", .str uid),
    ("email", .str email),
    ("displayName", .str displayName),
    ("location", strOr location .null),
    ("phoneNumber", strOr phoneNumber .null),
    ("communityReference", strOr communityReference .null),
    ("role", .str "member"),
    ("isVerified", .bool false),
    ("isDisabled", .bool false),
    ("createdAt", .str now) ]

/-- The function `signup(email, password, displayName, location, phoneNumber,
communityReference)`; it returns the uid of the created account, and every
rejection is thrown to the caller. -/
def signup (env : SignupEnv)
    (email displayName location phoneNumber communityReference : String) (w : World) :
    Except String String × World :=
  match env.createUser with
  | .error e => (.error e, w)
  | .ok uid =>
    match env.updateProfileError with
    | some e => (.error e, w)
    | none =>
      match setUserDoc env.setDocError uid
          (signupDoc uid email displayName location phoneNumber communityReference env.now) w with
      | (.error e, w1) => (.error e, w1)
      | (.ok _, w1) => (.ok uid, w1)

/-- Outcomes chosen by the environment for one run of `signInWithGoogle`: the
user returned by the popup or its rejection, the rejection, if any, of the
store read and of the store write, and the time of `new Date().toISOString()`. -/
structure GoogleEnv where
  popup : Except String ProviderUser
  getDocError : Option String
  setDocError : Option String
  now : String

/-- A possibly `null` string as a value. -/
def optStr (a : Option String) : Value :=
  match a with
  | some s => .str s
  | none => .null

/-- The user document written by `signInWithGoogle` for a new user. -/
def googleDoc (user : ProviderUser) (now : String) : Fields :=
  [ ("uid", .str user.uid),
    ("email", optStr user.email),
    ("displayName", .str (strOrStr user.displayName "Google User")),
    ("location", .null),
    ("phoneNumber", match user.phoneNumber with
                    | some s => strOr s .null
                    | none => .null),
    ("communityReference", .str "Google Sign-In"),
    ("role", .str "member"),
    ("isVerified", .bool false),
    ("isDisabled", .bool false),
    ("createdAt", .str now) ]

/-- The function `signInWithGoogle()`: the profile is written only when the
read finds no document of the user. -/
def signInWithGoogle (env : GoogleEnv) (w : World) : Except String ProviderUser × World :=
  match env.popup with
  | .error e => (.error e, w)
  | .ok user =>
    let w1 := w.call (.getDoc "users" user.uid)
    match env.getDocError with
    | some e => (.error e, w1)
    | none =>
      if !(w1.store.users.doc user.uid).isSome then
        match setUserDoc env.setDocError user.uid (googleDoc user env.now) w1 with
        | (.error e, w2) => (.error e, w2)
        | (.ok _, w2) => (.ok user, w2)
      else (.ok user, w1)

end AuthContext

namespace AdminDashboard

/-- What `toggleUserVerification` leaves behind. -/
structure ToggleResult where
  world : World
  alerts : List String
  deriving DecidableEq, Repr

/-- The handler `toggleUserVerification(userId, currentStatus)`; the button of
a user row calls it with `user.isVerified`. -/
def toggleUserVerification (userId : String) (currentStatus : Option Value)
    (fails : Option String) (w : World) : ToggleResult :=
  match updateUserDoc fails userId [("isVerified", .bool (!truthy currentStatus))] w with
  | (.error e, w1) => { world := w1, alerts := ["Failed to update verification: " ++ e] }
  | (.ok _, w1) => { world := w1, alerts := [] }

end AdminDashboard

/-! ## The context menu of a message (`Chat.jsx`) -/

namespace Chat

/-- The page state `contextMenu`: the id of the message and whether it is the
user's own; the position on the screen is left out. -/
structure ContextMenu where
  msgId : String
  isOwn : Bool
  deriving DecidableEq, Repr

/-- The handler `handleMsgContextMenu(e, msgId, isOwn)` and, once the long
press has lasted, `handleMsgTouchStart(e, msgId, isOwn)`: both set the state
`contextMenu`. -/
def handleMsgContextMenu (msgId : String) (isOwn : Bool) : Option ContextMenu :=
  some { msgId := msgId, isOwn := isOwn }

/-- The props `onContextMenu` and `onTouchStart` of the bubble rendered for
`msg` for the user `uid`:
`!isDeletedForEveryone && handleMsgContextMenu(e, msg.id, isOwn)`.  The result
is the state `contextMenu` afterwards, `none` when no menu is opened. -/
def openContextMenu (uid : String) (msg : String × Fields) : Option ContextMenu :=
  let isOwn := getField msg.2 "senderId" == some (.str uid)
  let isDeletedForEveryone := getField msg.2 "deletedForEveryone" == some (.bool true)
  if !isDeletedForEveryone then handleMsgContextMenu msg.1 isOwn else none

/-- The buttons of the context menu. -/
inductive MenuButton where
  | deleteForMe
  | deleteForEveryone
  | cancel
  deriving DecidableEq, Repr

/-- The buttons rendered for the state `contextMenu`: "Delete for everyone"
only under `contextMenu.isOwn`. -/
def menuButtons (menu : Option ContextMenu) : List MenuButton :=
  match menu with
  | none => []
  | some m =>
    [.deleteForMe] ++ (if m.isOwn then [.deleteForEveryone] else []) ++ [.cancel]

/-- The `onClick` of a button of the context menu; `none` when the button is
not rendered. -/
def clickMenuButton (user : Upload.AuthUser) (chatId : String) (menu : Option ContextMenu)
    (b : MenuButton) (fails : Option String) (w : World) : Option DeleteResult :=
  match menu with
  | none => none
  | some m =>
    if b ∈ menuButtons (some m) then
      match b with
      | .deleteForMe => some (handleDeleteForMe user chatId m.msgId fails w)
      | .deleteForEveryone => some (handleDeleteForEveryone chatId m.msgId fails w)
      | .cancel => some { world := w, alerts := [] }
    else none

end Chat

/-! ## `Notifications.jsx` -/

namespace Notifications

/-- The call `await updateDoc(doc(db, 'notifications', id), payload)`; the
store rejects the update of a document that does not exist. -/
def updateNotificationDoc (fails : Option String) (id : String) (payload : Fields)
    (w : World) : Except String Unit × World :=
  let w1 := w.call (.updateDoc "notifications" id)
  match fails with
  | some msg => (.error msg, w1)
  | none =>
    match w1.store.notifications.doc id with
    | none => (.error notFoundMessage, w1)
    | some _ =>
      (.ok (), { w1 with store :=
        { w1.store with notifications := w1.store.notifications.modify id (applyUpdate payload) } })

/-- The function `markAsRead(notifId)`: a rejected update is logged only. -/
def markAsRead (notifId : String) (fails : Option String) (w : World) : World :=
  (updateNotificationDoc fails notifId [("isRead", .bool true)] w).2

/-- What a click on a notification leaves behind: the world and the
navigations. -/
structure ClickResult where
  world : World
  navigations : List String
  deriving DecidableEq, Repr

/-- The handler `handleNotificationClick(notif)`; the notification object is
kept as the pair of its id and its data. -/
def handleNotificationClick (notif : String × Fields) (fails : Option String) (w : World) :
    ClickResult :=
  let w1 := if !truthy (getField notif.2 "isRead") then markAsRead notif.1 fails w else w
  if getField notif.2 "type" == some (.str "message") && truthy (getField notif.2 "chatId") then
    { world := w1, navigations := ["/chat/" ++ Functions.templ (getField notif.2 "chatId")] }
  else if (getField notif.2 "type" == some (.str "approved") ||
           getField notif.2 "type" == some (.str "denied")) &&
          truthy (getField notif.2 "memorialId") then
    { world := w1,
      navigations := ["/memorial/" ++ Functions.templ (getField notif.2 "memorialId")] }
  else { world := w1, navigations := [] }

end Notifications

/-! ## Photo selection (`Upload.jsx`, `EditMemorial.jsx`) -/

/-- The method `arr.slice(0, end)` for an integer `end`: a negative `end`
counts from the end of the array. -/
def jsSliceFrom0 (l : List String) (e : Int) : List String :=
  if 0 ≤ e then l.take e.toNat else l.take (l.length - (-e).toNat)

/-- The method `arr.filter((_, i) => i !== index)`. -/
def removeAt (l : List String) (index : Nat) : List String :=
  (l.enum.filter (fun p => p.1 != index)).map Prod.snd

namespace Upload

/-- The handler `handlePhotoSelect(e)`, as a function from the state
`photoFiles` and the files of the event to the state afterwards; the previews
follow the files and are left out. -/
def handlePhotoSelect (photoFiles selectedFiles : List String) : List String :=
  let totalAllowed : Int := (MAX_PHOTOS : Int) - (photoFiles.length : Int)
  let newFiles := jsSliceFrom0 selectedFiles totalAllowed
  if newFiles.length == 0 then photoFiles else photoFiles ++ newFiles

/-- The handler `removePhoto(index)`. -/
def removePhoto (photoFiles : List String) (index : Nat) : List String :=
  removeAt photoFiles index

/-- What the user does with the photo field of the upload form. -/
inductive PhotoAction where
  | select (selectedFiles : List String)
  | remove (index : Nat)
  deriving DecidableEq, Repr

/-- The state `photoFiles` after one action. -/
def PhotoAction.run (a : PhotoAction) (photoFiles : List String) : List String :=
  match a with
  | .select selectedFiles => handlePhotoSelect photoFiles selectedFiles
  | .remove index => removePhoto photoFiles index

/-- The state `photoFiles` after a sequence of actions. -/
def runPhotoActions (actions : List PhotoAction) (photoFiles : List String) : List String :=
  actions.foldl (fun st a => a.run st) photoFiles

end Upload

namespace EditMemorial

/-- The constant `MAX_PHOTOS` of the edit page. -/
def MAX_PHOTOS : Nat := 3

/-- The photo state of the edit page: the URLs kept from the stored memorial
and the newly selected files. -/
structure Photos where
  existingPhotos : List String
  newPhotoFiles : List String
  deriving DecidableEq, Repr

/-- The handler `handlePhotoSelect(e)` of the edit page. -/
def handlePhotoSelect (st : Photos) (selectedFiles : List String) : Photos :=
  let totalCount := st.existingPhotos.length + st.newPhotoFiles.length
  let totalAllowed : Int := max 0 ((MAX_PHOTOS : Int) - (totalCount : Int))
  let addedFiles := jsSliceFrom0 selectedFiles totalAllowed
  if addedFiles.length == 0 then st
  else { st with newPhotoFiles := st.newPhotoFiles ++ addedFiles }

/-- The handler `removeExistingPhoto(index)`. -/
def removeExistingPhoto (st : Photos) (index : Nat) : Photos :=
  { st with existingPhotos := removeAt st.existingPhotos index }

/-- The handler `removeNewPhoto(index)`. -/
def removeNewPhoto (st : Photos) (index : Nat) : Photos :=
  { st with newPhotoFiles := removeAt st.newPhotoFiles index }

/-- What the user does with the photo field of the edit form. -/
inductive PhotoAction where
  | select (selectedFiles : List String)
  | removeExisting (index : Nat)
  | removeNew (index : Nat)
  deriving DecidableEq, Repr

/-- The photo state after one action. -/
def PhotoAction.run (a : PhotoAction) (st : Photos) : Photos :=
  match a with
  | .select selectedFiles => handlePhotoSelect st selectedFiles
  | .removeExisting index => removeExistingPhoto st index
  | .removeNew index => removeNewPhoto st index

/-- The photo state after a sequence of actions. -/
def runPhotoActions (actions : List PhotoAction) (st : Photos) : Photos :=
  actions.foldl (fun s a => a.run s) st

end EditMemorial

/-! ## `Archive.jsx` -/

namespace Archive

/-- The documents matched by the subscription
`query(collection(db, 'memorials'), where('isApproved', '==', true))`. -/
def approvedQuery (memorials : Coll) : Coll :=
  memorials.filter (fun e => getField e.2 "isApproved" == some (.bool true))

/-- The method `s.startsWith(p)`, on the characters of `s` and `p`. -/
def startsWith : List Char → List Char → Bool
  | _, [] => true
  | [], _ :: _ => false
  | c :: s, d :: p => c == d && startsWith s p

/-- The method `s.includes(p)`, on the characters of `s` and `p`. -/
def includes : List Char → List Char → Bool
  | [], p => p.isEmpty
  | c :: s, p => startsWith (c :: s) p || includes s p

/-- The expression `m.k?.toLowerCase().includes(lowerSearch)`; `false` also
stands for the `undefined` of a missing or null field.  `toLowerCase` is the
built-in method of strings. -/
def fieldIncludes (toLowerCase : String → String) (m : Fields) (k : String)
    (lowerSearch : String) : Bool :=
  match getField m k with
  | some (.str s) => includes (toLowerCase s).data lowerSearch.data
  | _ => false

/-- The callback of `memorials.filter(...)`: the year filter, then the search
filter. -/
def passesFilter (toLowerCase : String → String) (selectedYear debouncedSearch : String)
    (m : Fields) : Bool :=
  if selectedYear != "All" &&
      (match getField m "dateOfPassing" with
       | some (.str d) => d == "" || !startsWith d.data selectedYear.data
       | _ => true) then false
  else if jsTrim debouncedSearch != "" then
    let lowerSearch := toLowerCase debouncedSearch
    let matchesName := fieldIncludes toLowerCase m "fullName" lowerSearch
    let matchesHouse := fieldIncludes toLowerCase m "familyHouse" lowerSearch
    if !matchesName && !matchesHouse then false else true
  else true

/-- The expression `m.createdAt?.seconds || 0`. -/
def seconds (m : Fields) : Int :=
  match getField m "createdAt" with
  | some (.timestamp sec) => sec
  | _ => 0

/-- The expression `m.fullName || ''`. -/
def nameOrEmpty (m : Fields) : String :=
  match getField m "fullName" with
  | some (.str n) => n
  | _ => ""

/-- The comparator passed to `sort`; `localeCompare` is the built-in method of
strings. -/
def compareFn (localeCompare : String → String → Int) (sortOrder : String)
    (a b : Fields) : Int :=
  if sortOrder = "newest" then seconds b - seconds a
  else if sortOrder = "oldest" then seconds a - seconds b
  else if sortOrder = "az" then localeCompare (nameOrEmpty a) (nameOrEmpty b)
  else if sortOrder = "za" then localeCompare (nameOrEmpty b) (nameOrEmpty a)
  else 0

/-- The method `Array.prototype.sort(compareFn)`: a stable sort that keeps `a`
before `b` when `compareFn(a, b) <= 0`. -/
def jsSort (cmp : Fields → Fields → Int) (l : List Fields) : List Fields :=
  l.mergeSort (fun a b => decide (cmp a b ≤ 0))

/-- The list `filteredMemorials` shown by the archive. -/
def filteredMemorials (toLowerCase : String → String) (localeCompare : String → String → Int)
    (memorials : List Fields) (selectedYear debouncedSearch sortOrder : String) :
    List Fields :=
  jsSort (compareFn localeCompare sortOrder)
    (memorials.filter (passesFilter toLowerCase selectedYear debouncedSearch))

/-- In the words of the specification: the memorial has a date of passing,
and it starts with the selected year. -/
def HasPassingYear (m : Fields) (year : String) : Prop :=
  ∃ d suffix, getField m "dateOfPassing" = some (.str d) ∧ d ≠ "" ∧
    d.data = year.data ++ suffix

/-- In the words of the specification: the field `k` of the memorial is a
string that contains the search string, both taken in lower case. -/
def ContainsIgnoringCase (toLowerCase : String → String) (m : Fields) (k : String)
    (search : String) : Prop :=
  ∃ s before after, getField m k = some (.str s) ∧
    (toLowerCase s).data = before ++ (toLowerCase search).data ++ after

end Archive

/-! ## Histories of a memorial store -/

/-- One run of a handler that writes to the memorials collection. -/
inductive Op where
  | submit (inp : Upload.Input) (env : Upload.Env)
  | approve (env : AdminDashboard.Env) (st : AdminDashboard.State) (memorialId : String)
  | reject (env : AdminDashboard.Env) (st : AdminDashboard.State) (memorialId : String)
  | edit (inp : EditMemorial.Input) (env : EditMemorial.Env)

/-- The world after one handler run. -/
def Op.run (o : Op) (w : World) : World :=
  match o with
  | .submit inp env => (Upload.handleSubmit inp env w).world
  | .approve env st memorialId => (AdminDashboard.approveMemorial env st memorialId w).world
  | .reject env st memorialId => (AdminDashboard.rejectMemorial env st memorialId w).world
  | .edit inp env => (EditMemorial.handleSubmit inp env w).world

/-- The world after a finite sequence of handler runs, first to last. -/
def runOps (ops : List Op) (w : World) : World :=
  ops.foldl (fun acc o => o.run acc) w

/-- The invariant of a memorial document: `isApproved === true` implies
`status === 'approved'`. -/
def FlagImpliesStatus (d : Fields) : Prop :=
  getField d "isApproved" = some (.bool true) → getField d "status" = some (.str "approved")

instance (d : Fields) : Decidable (FlagImpliesStatus d) := by
  unfold FlagImpliesStatus
  infer_instance

/-! ## Concrete data -/

namespace Sample

/-- A store with one admin, one member and no memorial. -/
def store0 : Store :=
  { users := [ ("admin1", [("uid", .str "admin1"), ("email", .str "admin@example.org"),
                            ("role", .str "admin")]),
               ("alice", [("uid", .str "alice"), ("email", .str "alice@example.org"),
                          ("role", .str "member")]) ],
    memorials := [],
    notifications := [] }

/-- The world before any call. -/
def world0 : World := { store := store0, log := [] }

/-- A member who submits. -/
def alice : Upload.AuthUser :=
  { uid := "alice", displayName := some "Alice", email := some "alice@example.org" }

/-- The profile of the member. -/
def aliceProfile : Fields :=
  [("uid", .str "alice"), ("email", .str "alice@example.org"), ("role", .str "member")]

/-- A filled-in form. -/
def form0 : Upload.Form :=
  { fullName := "Ibrahim K.", familyHouse := "", dateOfPassing := "2021-03-04",
    biography := "A life of service.", relationship := "Son" }

/-- A submission by the member with two photos and a document. -/
def input0 : Upload.Input :=
  { form := form0, photoFiles := ["a.jpg", "b.jpg"], legacyDocFile := some "will.pdf",
    currentUser := alice, userProfile := some aliceProfile }

/-- An OK answer of the upload endpoint. -/
def okResponse (url : String) : FetchResult :=
  .resolved { ok := true, status := 200, secureUrl := url, errorMessage := none }

/-- A non-OK answer of the upload endpoint. -/
def badResponse : FetchResult :=
  .resolved { ok := false, status := 500, secureUrl := "", errorMessage := none }

/-- An environment in which every call succeeds. -/
def envOk : Upload.Env :=
  { photoFetch := fun i => okResponse ("https://cdn/photo" ++ toString i),
    docFetch := okResponse "https://cdn/doc",
    memorialId := "m1",
    notificationId := fun i => "n" ++ toString i,
    setDocError := none, getDocsError := none, commitError := none }

/-- The world after the member's submission. -/
def world1 : World := (Upload.handleSubmit input0 envOk world0).world

/-- The dashboard state of the admin after the submission: the snapshot of
the pending memorial and no custom message. -/
def adminState1 : AdminDashboard.State :=
  { memorials := world1.store.memorials.map AdminDashboard.snapshotObject,
    customMessages := [] }

/-- An environment of the dashboard in which every call succeeds. -/
def adminEnvOk : AdminDashboard.Env :=
  { confirm := true, updateDocError := none, addDocError := none, autoId := "n9" }

/-- An environment in which only the batch commit is rejected. -/
def envCommitFails : Upload.Env :=
  { envOk with commitError := some "resource-exhausted" }

/-- An environment in which the upload endpoint answers the document upload
with a non-OK response. -/
def envDocFails : Upload.Env :=
  { envOk with docFetch := badResponse }

/-- An environment in which the upload of the second photo gets a non-OK
response. -/
def envPhotoFails : Upload.Env :=
  { envOk with photoFetch := fun i => if i = 1 then badResponse else okResponse "https://cdn/p" }

/-- The submission with the relationship left blank. -/
def inputBlank : Upload.Input :=
  { input0 with form := { form0 with relationship := "  " } }

/-- The dashboard state of the admin with a custom message typed for the
sample memorial. -/
def adminState2 : AdminDashboard.State :=
  { adminState1 with customMessages := [("m1", "  Accepted, with our condolences. ")] }

/-- The sample memorial as the dashboard holds it. -/
def localMemorial1 : Fields :=
  AdminDashboard.snapshotObject
    ("m1", Upload.memorialData input0 ["https://cdn/photo0", "https://cdn/photo1"]
      (some "https://cdn/doc"))

/-- An edit of the sample memorial by its poster, adding one photo. -/
def editInput : EditMemorial.Input :=
  { id := "m1", form := { form0 with biography := "A life of service and kindness." },
    existingPhotos := ["https://cdn/photo0", "https://cdn/photo1"],
    newPhotoFiles := ["c.jpg"] }

/-- An environment of the edit page in which every call succeeds. -/
def editEnvOk : EditMemorial.Env :=
  { compressError := fun _ => none,
    photoFetch := fun _ => okResponse "https://cdn/photo2",
    updateDocError := none }

/-- A history: the member submits, the admin approves, the member edits, the
admin rejects. -/
def history : List Op :=
  [ .submit input0 envOk,
    .approve adminEnvOk adminState1 "m1",
    .edit editInput editEnvOk,
    .reject adminEnvOk adminState1 "m1" ]

/-- The admin of the sample store, as the identity provider knows them. -/
def adminUser : Upload.AuthUser :=
  { uid := "admin1", displayName := some "Admin", email := some "admin@example.org" }

/-- The profile document of the admin. -/
def adminProfile : Fields :=
  [("uid", .str "admin1"), ("email", .str "admin@example.org"), ("role", .str "admin")]

/-- A lower-casing of the letters A to Z, standing in for `toLowerCase`. -/
def asciiLower (s : String) : String :=
  String.mk (s.data.map Char.toLower)

/-- The comparison of strings by code points, standing in for `localeCompare`. -/
def codePointCompare (a b : String) : Int :=
  if a < b then -1 else if b < a then 1 else 0

/-- Three archive objects. -/
def archiveObjects : List Fields :=
  [ [("id", .str "m1"), ("fullName", .str "Ibrahim K."), ("familyHouse", .null),
     ("dateOfPassing", .str "2021-03-04"), ("createdAt", .timestamp 300)],
    [("id", .str "m2"), ("fullName", .str "Ali"), ("familyHouse", .str "Kamgbunli House"),
     ("dateOfPassing", .null), ("createdAt", .timestamp 100)],
    [("id", .str "m3"), ("fullName", .str "Zainab"), ("familyHouse", .null),
     ("dateOfPassing", .str "2021-11-30")] ]

/-- The archive object of the memorial named Zainab. -/
def zainab : Fields :=
  [("id", .str "m3"), ("fullName", .str "Zainab"), ("familyHouse", .null),
   ("dateOfPassing", .str "2021-11-30")]

/-- A visitor of the sample memorial. -/
def bob : Upload.AuthUser :=
  { uid := "bob", displayName := some "Bob", email := some "bob@example.org" }

/-- The sample memorial as the detail page holds it. -/
def memorialView : MemorialDetail.MemorialView :=
  { postedBy := "alice", fullName := .str "Ibrahim K." }

/-- The visitor on the detail page of the sample memorial. -/
def detailInput : MemorialDetail.Input :=
  { id := "m1", currentUser := some bob, memorial := some memorialView }

/-- An environment of the detail page in which every call succeeds. -/
def detailEnvOk : MemorialDetail.Env :=
  { getDocsError := none, addDocError := none, autoId := "c1" }

/-- A world whose store holds one chat, between the poster and a third user. -/
def chatWorld : World :=
  { store := { store0 with
      chats := [("c0", [("participants", .strs ["carol", "alice"]),
                        ("memorialId", .str "m1"), ("lastMessage", .str "")])] },
    log := [] }

/-- The chat between the visitor and the poster, as stored. -/
def chatDoc : Fields :=
  [("participants", .strs ["bob", "alice"]), ("memorialId", .str "m1"),
   ("memorialName", .str "Ibrahim K."), ("lastMessage", .str "")]

/-- A message of the poster to the visitor, not yet read. -/
def messageFromAlice : Fields :=
  [("text", .str "Thank you for your kind words."), ("senderId", .str "alice"),
   ("senderName", .str "Alice"), ("createdAt", .timestamp 500), ("status", .str "sent"),
   ("readBy", .strs []), ("deletedFor", .strs []), ("deletedForEveryone", .bool false)]

/-- A message of the visitor, already read by the poster. -/
def messageFromBob : Fields :=
  [("text", .str "Inna lillahi wa inna ilayhi rajiun."), ("senderId", .str "bob"),
   ("senderName", .str "Bob"), ("createdAt", .timestamp 400), ("status", .str "read"),
   ("readBy", .strs ["alice"]), ("deletedFor", .strs []), ("deletedForEveryone", .bool false)]

/-- A world whose store holds the chat `c1` with two messages. -/
def messageWorld : World :=
  { store := { store0 with
      chats := [("c1", chatDoc)],
      messages := [("c1", [("x1", messageFromBob), ("x2", messageFromAlice)])] },
    log := [] }

/-- The state of the chat page of the visitor. -/
def chatState : Chat.State :=
  { chat := some (("id", .str "c1") :: chatDoc), sending := false }

/-- An environment of `sendMessage` in which every call succeeds. -/
def sendEnvOk : Chat.SendEnv :=
  { addMessageError := none, messageId := "x3", updateChatError := none,
    addNotificationError := none, notificationId := "n7" }

/-- An environment of `markAsRead` in which every call succeeds. -/
def readEnvOk : Chat.ReadEnv :=
  { getDocsError := none, commitError := none }

/-- A chat with `n` messages of the poster that the visitor has not read. -/
def unreadMessages (n : Nat) : Coll :=
  (List.range n).map (fun i => ("u" ++ toString i, messageFromAlice))

/-- A world whose store holds the chat `c1` with 501 unread messages. -/
def manyUnreadWorld : World :=
  { store := { store0 with
      chats := [("c1", chatDoc)],
      messages := [("c1", unreadMessages 501)] },
    log := [] }

/-- A store with 1201 memorials. -/
def bulkWorld : World :=
  { store := { store0 with
      memorials := (List.range 1201).map (fun i => ("m" ++ toString i, [])) },
    log := [] }

/-- An environment of the bulk deletion in which the dialogs are confirmed and
every call succeeds. -/
def bulkEnvOk : BulkDelete.Env :=
  { confirm1 := true, confirm2 := true, getDocsError := none, commitError := fun _ => none }

/-- An environment of the trigger handlers in which every call succeeds. -/
def triggerEnvOk : Functions.Env :=
  { getChatError := none, getUserError := none, addMailError := none, mailId := "mail1" }

/-- The memorial document written by the member's submission. -/
def memorial1 : Fields :=
  Upload.memorialData input0 ["https://cdn/photo0", "https://cdn/photo1"] (some "https://cdn/doc")

/-- The memorial document after its approval. -/
def memorial1Approved : Fields :=
  applyUpdate AdminDashboard.approvePayload memorial1

/-- The profile document of the visitor. -/
def bobProfile : Fields :=
  [("uid", .str "bob"), ("email", .str "bob@example.org"), ("displayName", .str "Bob"),
   ("role", .str "member"), ("isVerified", .bool true)]

/-- A world whose store holds the visitor's profile and the chat `c1` with two
messages. -/
def mailWorld : World :=
  { store := { messageWorld.store with users := messageWorld.store.users ++ [("bob", bobProfile)] },
    log := [] }

/-- A user of the identity provider whose account carries no email. -/
def googleUser : AuthContext.ProviderUser :=
  { uid := "g1", email := none, displayName := some "Gina", phoneNumber := none }

/-- The profile document written at the first Google sign-in of that user. -/
def googleProfile : Fields :=
  AuthContext.googleDoc googleUser "2024-05-01T10:00:00.000Z"

/-- The same profile document after the admin verified the user. -/
def googleProfileVerified : Fields :=
  applyUpdate [("isVerified", .bool true)] googleProfile

/-- An environment of the dashboard in which only the notification write is
rejected. -/
def adminEnvNotifyFails : AdminDashboard.Env :=
  { adminEnvOk with addDocError := some "unavailable" }

/-- An environment of `sendMessage` in which only the notification write is
rejected. -/
def sendEnvNotifyFails : Chat.SendEnv :=
  { sendEnvOk with addNotificationError := some "unavailable" }

/-- The profile document of the visitor before the admin verified him. -/
def bobUnverified : Fields :=
  [("uid", .str "bob"), ("email", .str "bob@example.org"), ("displayName", .str "Bob"),
   ("role", .str "member"), ("isVerified", .bool false)]

end Sample

/-! # Properties -/

/-! ## Documents and collections -/

theorem getField_setField_same (k : String) (v : Value) (d : Fields) :
    getField (setField k v d) k = some v := by
  induction d with
  | nil => simp [setField, getField, List.lookup]
  | cons e rest ih =>
    obtain ⟨k0, v0⟩ := e
    by_cases h : k0 = k
    · simp [setField, h, getField, List.lookup]
    · have hne : (k == k0) = false := by
        simpa using fun h2 => h h2.symm
      simp only [setField, h, if_false, getField, List.lookup, hne]
      exact ih

theorem getField_setField_other (k j : String) (v : Value) (d : Fields) (hjk : j ≠ k) :
    getField (setField k v d) j = getField d j := by
  induction d with
  | nil =>
    have hne : (j == k) = false := by simpa using hjk
    simp [setField, getField, List.lookup, hne]
  | cons e rest ih =>
    obtain ⟨k0, v0⟩ := e
    by_cases h : k0 = k
    · subst h
      have hne : (j == k0) = false := by simpa using hjk
      simp [setField, getField, List.lookup, hne]
    · simp only [setField, h, if_false, getField, List.lookup]
      cases hj : (j == k0) with
      | true => rfl
      | false => exact ih

theorem getField_applyUpdate_other (payload : Fields) (d : Fields) (j : String)
    (hj : ∀ e ∈ payload, j ≠ e.1) :
    getField (applyUpdate payload d) j = getField d j := by
  induction payload generalizing d with
  | nil => rfl
  | cons e rest ih =>
    have h1 : j ≠ e.1 := hj e (List.mem_cons_self _ _)
    have h2 : ∀ x ∈ rest, j ≠ x.1 := fun x hx => hj x (List.mem_cons_of_mem _ hx)
    show getField (applyUpdate rest (setField e.1 e.2 d)) j = getField d j
    rw [ih _ h2, getField_setField_other _ _ _ _ h1]

theorem Coll.doc_cons (i : String) (d : Fields) (rest : Coll) (j : String) :
    Coll.doc ((i, d) :: rest) j = if j = i then some d else Coll.doc rest j := by
  unfold Coll.doc
  by_cases h : j = i
  · subst h
    simp [List.lookup]
  · have hne : (j == i) = false := by simpa using h
    simp [List.lookup, hne, h]

theorem Coll.modify_cons (i : String) (d : Fields) (rest : Coll) (id : String)
    (f : Fields → Fields) :
    Coll.modify ((i, d) :: rest) id f
      = (if i = id then (i, f d) else (i, d)) :: Coll.modify rest id f := by
  simp [Coll.modify]

theorem Coll.doc_modify (c : Coll) (id j : String) (f : Fields → Fields) :
    (c.modify id f).doc j = (c.doc j).map (fun d => if j = id then f d else d) := by
  induction c with
  | nil => rfl
  | cons e rest ih =>
    obtain ⟨i, d⟩ := e
    rw [Coll.modify_cons]
    by_cases hi : i = id
    · rw [if_pos hi, Coll.doc_cons, Coll.doc_cons]
      by_cases hj : j = i
      · simp [hj, hi]
      · simp [hj, ih]
    · rw [if_neg hi, Coll.doc_cons, Coll.doc_cons]
      by_cases hj : j = i
      · subst hj
        simp [hi]
      · simp [hj, ih]

theorem updateMemorialDoc_ok (fails : Option String) (id : String) (payload : Fields)
    (w : World) (h : (updateMemorialDoc fails id payload w).1 = .ok ()) :
    fails = none ∧ (∃ d0, w.store.memorials.doc id = some d0) ∧
      (updateMemorialDoc fails id payload w).2.store.memorials
        = w.store.memorials.modify id (applyUpdate payload) ∧
      (updateMemorialDoc fails id payload w).2.store.notifications = w.store.notifications ∧
      (updateMemorialDoc fails id payload w).2.log = w.log ++ [.updateDoc "memorials" id] := by
  unfold updateMemorialDoc at h ⊢
  cases fails with
  | some msg => simp at h
  | none =>
    simp only [World.call] at h ⊢
    cases hd : w.store.memorials.doc id with
    | none => simp [hd] at h
    | some d0 => simp

theorem updateMemorialDoc_error (fails : Option String) (id : String) (payload : Fields)
    (w : World) (e : String) (h : (updateMemorialDoc fails id payload w).1 = .error e) :
    (updateMemorialDoc fails id payload w).2.store = w.store ∧
      (updateMemorialDoc fails id payload w).2.log = w.log ++ [.updateDoc "memorials" id] := by
  unfold updateMemorialDoc at h ⊢
  cases fails with
  | some msg => simp [World.call]
  | none =>
    simp only [World.call] at h ⊢
    cases hd : w.store.memorials.doc id with
    | none => simp
    | some d0 => simp [hd] at h

theorem updateMemorialDoc_ok_eq (fails : Option String) (id : String) (payload : Fields)
    (w : World) (h : (updateMemorialDoc fails id payload w).1 = .ok ()) :
    updateMemorialDoc fails id payload w =
      (.ok (), { store := { w.store with
                   memorials := w.store.memorials.modify id (applyUpdate payload) },
                 log := w.log ++ [.updateDoc "memorials" id] }) := by
  unfold updateMemorialDoc at h ⊢
  cases fails with
  | some msg => simp at h
  | none =>
    simp only [World.call] at h ⊢
    cases hd : w.store.memorials.doc id with
    | none => simp [hd] at h
    | some d0 => rfl

/-! ## Admin transitions -/

namespace AdminDashboard

theorem notifyPoster_memorials (env : Env) (st : State) (memorial : Option Fields)
    (memorialId type dflt : String) (w : World) :
    (notifyPoster env st memorial memorialId type dflt w).2.1.store.memorials
      = w.store.memorials := by
  unfold notifyPoster
  cases memorial with
  | none => rfl
  | some m =>
    simp only
    split
    · unfold addNotificationDoc
      cases env.addDocError <;> rfl
    · rfl

theorem notifyPoster_memorials_of_eq (env : Env) (st : State) (memorial : Option Fields)
    (memorialId type dflt : String) (w : World) (n : Except String Unit × World × State)
    (h : notifyPoster env st memorial memorialId type dflt w = n) :
    n.2.1.store.memorials = w.store.memorials := by
  rw [← h]
  exact notifyPoster_memorials env st memorial memorialId type dflt w

theorem approveMemorial_memorials (env : Env) (st : State) (memorialId : String) (w : World)
    (hu : (updateMemorialDoc env.updateDocError memorialId approvePayload w).1 = .ok ()) :
    (approveMemorial env st memorialId w).world.store.memorials
      = w.store.memorials.modify memorialId (applyUpdate approvePayload) := by
  have h2 := (updateMemorialDoc_ok _ _ _ _ hu).2.2.1
  unfold approveMemorial
  generalize hr : updateMemorialDoc env.updateDocError memorialId approvePayload w = r at hu h2
  obtain ⟨res, w1⟩ := r
  cases res with
  | error e => simp at hu
  | ok u =>
    simp only
    generalize hn : notifyPoster env _ (findMemorial st memorialId) memorialId "approved"
      approvedDefault w1 = n
    have h3 := notifyPoster_memorials_of_eq _ _ _ _ _ _ _ _ hn
    obtain ⟨res2, w2, st2⟩ := n
    simp only at h2 h3
    cases res2 <;> simp only [h3, h2]

theorem rejectMemorial_memorials (env : Env) (st : State) (memorialId : String) (w : World)
    (hc : env.confirm = true)
    (hu : (updateMemorialDoc env.updateDocError memorialId rejectPayload w).1 = .ok ()) :
    (rejectMemorial env st memorialId w).world.store.memorials
      = w.store.memorials.modify memorialId (applyUpdate rejectPayload) := by
  have h2 := (updateMemorialDoc_ok _ _ _ _ hu).2.2.1
  unfold rejectMemorial
  simp only [hc, Bool.not_true, Bool.false_eq_true, if_false]
  generalize hr : updateMemorialDoc env.updateDocError memorialId rejectPayload w = r at hu h2
  obtain ⟨res, w1⟩ := r
  cases res with
  | error e => simp at hu
  | ok u =>
    simp only
    generalize hn : notifyPoster env st (findMemorial st memorialId) memorialId "denied"
      deniedDefault w1 = n
    have h3 := notifyPoster_memorials_of_eq _ _ _ _ _ _ _ _ hn
    obtain ⟨res2, w2, st2⟩ := n
    simp only at h2 h3
    cases res2 <;> simp only [h3, h2]

theorem approveMemorial_error (env : Env) (st : State) (memorialId : String) (w : World) (e : String)
    (hu : (updateMemorialDoc env.updateDocError memorialId approvePayload w).1 = .error e) :
    (approveMemorial env st memorialId w).world.store.memorials = w.store.memorials := by
  have h1 := (updateMemorialDoc_error _ _ _ _ e hu).1
  unfold approveMemorial
  generalize updateMemorialDoc env.updateDocError memorialId approvePayload w = r at hu h1
  obtain ⟨res, w1⟩ := r
  cases res with
  | error e1 => exact congrArg Store.memorials h1
  | ok u => simp at hu

theorem rejectMemorial_error (env : Env) (st : State) (memorialId : String) (w : World)
    (e : String)
    (hu : (updateMemorialDoc env.updateDocError memorialId rejectPayload w).1 = .error e) :
    (rejectMemorial env st memorialId w).world.store.memorials = w.store.memorials := by
  have h1 := (updateMemorialDoc_error _ _ _ _ e hu).1
  unfold rejectMemorial
  split
  · rfl
  · generalize updateMemorialDoc env.updateDocError memorialId rejectPayload w = r at hu h1
    obtain ⟨res, w1⟩ := r
    cases res with
    | error e1 => exact congrArg Store.memorials h1
    | ok u => simp at hu

/-- C1: after an admin transition (approveMemorial, or rejectMemorial once
confirmed) whose status update succeeds, the memorial document has
`isApproved === true` if and only if `status === 'approved'`. -/
theorem C1_transition_keeps_flag_in_sync (t : Transition) (env : Env) (st : State)
    (memorialId : String) (w : World)
    (hc : t = .reject → env.confirm = true)
    (hu : (updateMemorialDoc env.updateDocError memorialId t.payload w).1 = .ok ()) :
    ∃ d, (runTransition t env st memorialId w).world.store.memorials.doc memorialId = some d ∧
      (getField d "isApproved" = some (.bool true)
        ↔ getField d "status" = some (.str "approved")) := by
  obtain ⟨d0, hd0⟩ := (updateMemorialDoc_ok _ _ _ _ hu).2.1
  cases t with
  | approve =>
    refine ⟨applyUpdate approvePayload d0, ?_, ?_⟩
    · show (approveMemorial env st memorialId w).world.store.memorials.doc memorialId = _
      rw [approveMemorial_memorials env st memorialId w hu, Coll.doc_modify, hd0]
      simp
    · have h1 : getField (applyUpdate approvePayload d0) "isApproved" = some (.bool true) := by
        show getField (setField "status" _ (setField "isApproved" _ d0)) "isApproved" = _
        rw [getField_setField_other _ _ _ _ (by decide), getField_setField_same]
      have h2 : getField (applyUpdate approvePayload d0) "status" = some (.str "approved") := by
        show getField (setField "status" _ (setField "isApproved" _ d0)) "status" = _
        rw [getField_setField_same]
      simp [h1, h2]
  | reject =>
    refine ⟨applyUpdate rejectPayload d0, ?_, ?_⟩
    · show (rejectMemorial env st memorialId w).world.store.memorials.doc memorialId = _
      rw [rejectMemorial_memorials env st memorialId w (hc rfl) hu, Coll.doc_modify, hd0]
      simp
    · have h1 : getField (applyUpdate rejectPayload d0) "isApproved" = some (.bool false) := by
        show getField (setField "status" _ (setField "isApproved" _ d0)) "isApproved" = _
        rw [getField_setField_other _ _ _ _ (by decide), getField_setField_same]
      have h2 : getField (applyUpdate rejectPayload d0) "status" = some (.str "rejected") := by
        show getField (setField "status" _ (setField "isApproved" _ d0)) "status" = _
        rw [getField_setField_same]
      simp [h1, h2]

theorem updateMemorialDoc_log (fails : Option String) (id : String) (payload : Fields)
    (w : World) :
    (updateMemorialDoc fails id payload w).2.log = w.log ++ [.updateDoc "memorials" id] := by
  unfold updateMemorialDoc
  cases fails with
  | some msg => rfl
  | none =>
    simp only [World.call]
    cases w.store.memorials.doc id <;> rfl

/-- What `notifyPoster` does when the memorial is in the local list with a
poster and the `addDoc` call is not rejected. -/
theorem notifyPoster_written (env : Env) (st : State) (m : Fields)
    (memorialId type dflt : String) (w : World)
    (hp : truthy (getField m "postedBy") = true) (ha : env.addDocError = none) :
    notifyPoster env st (some m) memorialId type dflt w =
      (.ok (),
        { store := { w.store with notifications := w.store.notifications ++
            [(env.autoId, posterNotification m memorialId type (adminMsg st memorialId) dflt)] },
          log := w.log ++ [.addDoc "notifications"] },
        clearCustomMessage st memorialId) := by
  simp [notifyPoster, hp, addNotificationDoc, ha, World.call, Coll.create]

/-- The notifications and the calls of `notifyPoster` in general. -/
theorem notifyPoster_cases (env : Env) (st : State) (memorial : Option Fields)
    (memorialId type dflt : String) (w : World) :
    ((notifyPoster env st memorial memorialId type dflt w).2.1.log = w.log ∧
      (notifyPoster env st memorial memorialId type dflt w).2.1.store = w.store) ∨
    ((notifyPoster env st memorial memorialId type dflt w).2.1.log
        = w.log ++ [.addDoc "notifications"] ∧
      (env.addDocError ≠ none →
        (notifyPoster env st memorial memorialId type dflt w).2.1.store = w.store)) := by
  unfold notifyPoster
  cases memorial with
  | none => exact Or.inl ⟨rfl, rfl⟩
  | some m =>
    simp only
    split
    · right
      unfold addNotificationDoc
      cases h : env.addDocError with
      | none => exact ⟨rfl, fun hne => absurd rfl hne⟩
      | some e => exact ⟨rfl, fun _ => rfl⟩
    · exact Or.inl ⟨rfl, rfl⟩

theorem posterNotification_fields (m : Fields) (memorialId type : String)
    (msg : Option String) (dflt : String) (hp : truthy (getField m "postedBy") = true) :
    getField (posterNotification m memorialId type msg dflt) "userId" = getField m "postedBy" ∧
      getField (posterNotification m memorialId type msg dflt) "type" = some (.str type) ∧
      getField (posterNotification m memorialId type msg dflt) "isRead" = some (.bool false) ∧
      getField (posterNotification m memorialId type msg dflt) "message"
        = some (.str (strOrStr msg dflt)) := by
  refine ⟨?_, by rfl, by rfl, by rfl⟩
  cases h : getField m "postedBy" with
  | none => simp [h, truthy] at hp
  | some v => simp [posterNotification, getField, List.lookup] at h ⊢; simp [h]

theorem notifyPoster_cases_of_eq (env : Env) (st : State) (memorial : Option Fields)
    (memorialId type dflt : String) (w : World) (n : Except String Unit × World × State)
    (h : notifyPoster env st memorial memorialId type dflt w = n) :
    (n.2.1.log = w.log ∧ n.2.1.store = w.store) ∨
    (n.2.1.log = w.log ++ [.addDoc "notifications"] ∧
      (env.addDocError ≠ none → n.2.1.store = w.store)) := by
  rw [← h]
  exact notifyPoster_cases env st memorial memorialId type dflt w

/-- C8: when approveMemorial (respectively rejectMemorial, once confirmed)
succeeds, that is when neither its status update nor its notification write is
rejected, on a memorial of the dashboard list that has a poster, it adds
exactly one notification: userId the memorial's postedBy, type 'approved'
(respectively 'denied'), isRead false, and as message the admin's custom
message for that memorial, trimmed, if it is not blank, otherwise the canned
default text. -/
theorem C8_transition_notifies_poster (t : Transition) (env : Env) (st : State)
    (memorialId : String) (w : World) (m : Fields)
    (hc : t = .reject → env.confirm = true)
    (hm : findMemorial st memorialId = some m)
    (hp : truthy (getField m "postedBy") = true)
    (hu : (updateMemorialDoc env.updateDocError memorialId t.payload w).1 = .ok ())
    (ha : env.addDocError = none) :
    ∃ n, (runTransition t env st memorialId w).world.store.notifications
          = w.store.notifications ++ [(env.autoId, n)] ∧
      (runTransition t env st memorialId w).alerts = [] ∧
      getField n "userId" = getField m "postedBy" ∧
      getField n "type" = some (.str (match t with
                                      | .approve => "approved"
                                      | .reject => "denied")) ∧
      getField n "isRead" = some (.bool false) ∧
      getField n "message" = some (.str
        (match List.lookup memorialId st.customMessages with
         | some custom =>
           if jsTrim custom ≠ "" then jsTrim custom
           else (match t with
                 | .approve => approvedDefault
                 | .reject => deniedDefault)
         | none => (match t with
                    | .approve => approvedDefault
                    | .reject => deniedDefault))) := by
  have hmsg : ∀ dflt : String, strOrStr (adminMsg st memorialId) dflt =
      (match List.lookup memorialId st.customMessages with
       | some custom => if jsTrim custom ≠ "" then jsTrim custom else dflt
       | none => dflt) := by
    intro dflt
    unfold adminMsg strOrStr
    cases List.lookup memorialId st.customMessages <;> simp
  have hue := updateMemorialDoc_ok_eq _ _ _ _ hu
  cases t with
  | approve =>
    obtain ⟨f1, f2, f3, f4⟩ := posterNotification_fields m memorialId "approved"
      (adminMsg st memorialId) approvedDefault hp
    refine ⟨posterNotification m memorialId "approved" (adminMsg st memorialId)
      approvedDefault, ?_, ?_, f1, f2, f3, ?_⟩
    · show (approveMemorial env st memorialId w).world.store.notifications = _
      unfold approveMemorial
      simp only [Transition.payload] at hue
      rw [hm, hue]
      simp only
      rw [notifyPoster_written _ _ _ _ _ _ _ hp ha]
      rfl
    · show (approveMemorial env st memorialId w).alerts = _
      unfold approveMemorial
      simp only [Transition.payload] at hue
      rw [hm, hue]
      simp only
      rw [notifyPoster_written _ _ _ _ _ _ _ hp ha]
    · rw [f4, hmsg]
  | reject =>
    obtain ⟨f1, f2, f3, f4⟩ := posterNotification_fields m memorialId "denied"
      (adminMsg st memorialId) deniedDefault hp
    refine ⟨posterNotification m memorialId "denied" (adminMsg st memorialId)
      deniedDefault, ?_, ?_, f1, f2, f3, ?_⟩
    · show (rejectMemorial env st memorialId w).world.store.notifications = _
      unfold rejectMemorial
      simp only [Transition.payload] at hue
      simp only [hc rfl, Bool.not_true, Bool.false_eq_true, if_false]
      rw [hm, hue]
      simp only
      rw [notifyPoster_written _ _ _ _ _ _ _ hp ha]
    · show (rejectMemorial env st memorialId w).alerts = _
      unfold rejectMemorial
      simp only [hc rfl, Bool.not_true, Bool.false_eq_true, if_false]
      generalize updateMemorialDoc env.updateDocError memorialId rejectPayload w = r
      obtain ⟨res, w1⟩ := r
      cases res with
      | error e => rfl
      | ok u =>
        simp only
        generalize notifyPoster env st (findMemorial st memorialId) memorialId "denied"
          deniedDefault w1 = r2
        obtain ⟨res2, w2, st2⟩ := r2
        cases res2 <;> rfl
    · rw [f4, hmsg]

/-- Witness of C8: the approval of the sample memorial with a custom message. -/
theorem C8_transition_notifies_poster_witness :
    ∃ n, (runTransition .approve Sample.adminEnvOk Sample.adminState2 "m1"
          Sample.world1).world.store.notifications
          = Sample.world1.store.notifications ++ [(Sample.adminEnvOk.autoId, n)] ∧
      (runTransition .approve Sample.adminEnvOk Sample.adminState2 "m1" Sample.world1).alerts
        = [] ∧
      getField n "userId" = getField Sample.localMemorial1 "postedBy" ∧
      getField n "type" = some (.str (match Transition.approve with
                                      | .approve => "approved"
                                      | .reject => "denied")) ∧
      getField n "isRead" = some (.bool false) ∧
      getField n "message" = some (.str
        (match List.lookup "m1" Sample.adminState2.customMessages with
         | some custom =>
           if jsTrim custom ≠ "" then jsTrim custom
           else (match Transition.approve with
                 | .approve => approvedDefault
                 | .reject => deniedDefault)
         | none => (match Transition.approve with
                    | .approve => approvedDefault
                    | .reject => deniedDefault))) :=
  C8_transition_notifies_poster .approve Sample.adminEnvOk Sample.adminState2 "m1"
    Sample.world1 Sample.localMemorial1 (by decide) (by rfl) (by rfl) (by rfl) (by rfl)

/-- C9: in approveMemorial the notification write is attempted only after
the status update has succeeded; when the update has succeeded the memorial
is left with status 'approved' and isApproved true, also when the notification
write is rejected (which then writes no notification); and when the status
update fails no notification write is attempted and the store is unchanged. -/
theorem C9_approval_survives_notification_failure (env : Env) (st : State)
    (memorialId : String) (w : World) :
    ((approveMemorial env st memorialId w).world.log
        = w.log ++ [.updateDoc "memorials" memorialId] ∨
      ((approveMemorial env st memorialId w).world.log
          = w.log ++ [.updateDoc "memorials" memorialId, .addDoc "notifications"] ∧
        (updateMemorialDoc env.updateDocError memorialId approvePayload w).1 = .ok ())) ∧
    ((updateMemorialDoc env.updateDocError memorialId approvePayload w).1 = .ok () →
      (∃ d, (approveMemorial env st memorialId w).world.store.memorials.doc memorialId = some d ∧
        getField d "status" = some (.str "approved") ∧
        getField d "isApproved" = some (.bool true)) ∧
      (∀ e, env.addDocError = some e →
        (approveMemorial env st memorialId w).world.store.notifications
          = w.store.notifications)) ∧
    (∀ e, (updateMemorialDoc env.updateDocError memorialId approvePayload w).1 = .error e →
      (approveMemorial env st memorialId w).world.store = w.store ∧
      (approveMemorial env st memorialId w).world.log
        = w.log ++ [.updateDoc "memorials" memorialId]) := by
  have hlog := updateMemorialDoc_log env.updateDocError memorialId approvePayload w
  refine ⟨?_, ?_, ?_⟩
  · unfold approveMemorial
    generalize updateMemorialDoc env.updateDocError memorialId approvePayload w = r at hlog
    obtain ⟨res, w1⟩ := r
    cases res with
    | error e => exact Or.inl hlog
    | ok u =>
      simp only at hlog ⊢
      generalize hn : notifyPoster env _ (findMemorial st memorialId) memorialId "approved"
        approvedDefault w1 = n
      have hc := notifyPoster_cases_of_eq _ _ _ _ _ _ _ _ hn
      obtain ⟨res2, w2, st2⟩ := n
      simp only at hc
      rcases hc with ⟨h1, _⟩ | ⟨h1, _⟩
      · left
        cases res2 <;> simp only [h1, hlog]
      · right
        cases res2 <;> simp [h1, hlog]
  · intro hu
    obtain ⟨_, ⟨d0, hd0⟩, _, hnot, _⟩ := updateMemorialDoc_ok _ _ _ _ hu
    refine ⟨⟨applyUpdate approvePayload d0, ?_, ?_, ?_⟩, ?_⟩
    · rw [approveMemorial_memorials env st memorialId w hu, Coll.doc_modify, hd0]
      simp
    · show getField (setField "status" _ (setField "isApproved" _ d0)) "status" = _
      rw [getField_setField_same]
    · show getField (setField "status" _ (setField "isApproved" _ d0)) "isApproved" = _
      rw [getField_setField_other _ _ _ _ (by decide), getField_setField_same]
    · intro e he
      unfold approveMemorial
      generalize updateMemorialDoc env.updateDocError memorialId approvePayload w = r at hnot
      obtain ⟨res, w1⟩ := r
      cases res with
      | error e1 => exact congrArg Store.notifications rfl |>.trans hnot
      | ok u =>
        simp only at hnot ⊢
        generalize hn : notifyPoster env _ (findMemorial st memorialId) memorialId "approved"
          approvedDefault w1 = n
        have hc := notifyPoster_cases_of_eq _ _ _ _ _ _ _ _ hn
        obtain ⟨res2, w2, st2⟩ := n
        simp only at hc
        have hne : env.addDocError ≠ none := by rw [he]; simp
        have hst : w2.store = w1.store := by
          rcases hc with ⟨_, h2⟩ | ⟨_, h2⟩
          · exact h2
          · exact h2 hne
        cases res2 <;> simp only [hst, hnot]
  · intro e he
    obtain ⟨h1, h2⟩ := updateMemorialDoc_error _ _ _ _ e he
    unfold approveMemorial
    generalize updateMemorialDoc env.updateDocError memorialId approvePayload w = r at he h1 h2
    obtain ⟨res, w1⟩ := r
    cases res with
    | error e1 => exact ⟨h1, h2⟩
    | ok u => simp at he

/-- Witness of C1: the approval of the sample memorial. -/
theorem C1_transition_keeps_flag_in_sync_witness :
    ∃ d, (runTransition .approve Sample.adminEnvOk Sample.adminState1 "m1"
        Sample.world1).world.store.memorials.doc "m1" = some d ∧
      (getField d "isApproved" = some (.bool true)
        ↔ getField d "status" = some (.str "approved")) :=
  C1_transition_keeps_flag_in_sync .approve Sample.adminEnvOk Sample.adminState1 "m1"
    Sample.world1 (by decide) (by rfl)

end AdminDashboard

/-! ## Submission -/

namespace Upload

theorem uploadPhotos_world (env : Env) (files : List String) :
    ∀ (i : Nat) (urls : List String) (w : World),
      (uploadPhotos env i files urls w).2.store = w.store ∧
      ∃ extra, (uploadPhotos env i files urls w).2.log = w.log ++ extra ∧
        ∀ c ∈ extra, c.isUpload = true := by
  induction files with
  | nil =>
    intro i urls w
    exact ⟨rfl, [], by simp [uploadPhotos], by simp⟩
  | cons file rest ih =>
    intro i urls w
    unfold uploadPhotos
    cases hu : uploadToCloudinary (env.photoFetch i) with
    | error e =>
      refine ⟨rfl, [.upload "wolo_memorials" file], rfl, ?_⟩
      intro c hc
      simp only [List.mem_singleton] at hc
      subst hc
      rfl
    | ok url =>
      obtain ⟨h1, extra, h2, h3⟩ :=
        ih (i + 1) (urls ++ [url]) (w.call (.upload "wolo_memorials" file))
      refine ⟨h1, .upload "wolo_memorials" file :: extra, ?_, ?_⟩
      · show (uploadPhotos env (i + 1) rest (urls ++ [url])
            (w.call (.upload "wolo_memorials" file))).2.log = _
        rw [h2]
        simp [World.call]
      · intro c hc
        rcases List.mem_cons.mp hc with hc | hc
        · subst hc
          rfl
        · exact h3 c hc

theorem uploadPhotos_fails (env : Env) (files : List String) :
    ∀ (i : Nat) (urls : List String) (w : World),
      (∃ j, j < files.length ∧ ∃ e, uploadToCloudinary (env.photoFetch (i + j)) = .error e) →
      ∃ e, (uploadPhotos env i files urls w).1 = .error e := by
  induction files with
  | nil =>
    intro i urls w h
    obtain ⟨j, hj, _⟩ := h
    simp at hj
  | cons file rest ih =>
    intro i urls w h
    obtain ⟨j, hj, e, he⟩ := h
    unfold uploadPhotos
    cases hu : uploadToCloudinary (env.photoFetch i) with
    | error e0 => exact ⟨e0, rfl⟩
    | ok url =>
      cases j with
      | zero =>
        rw [Nat.add_zero, hu] at he
        cases he
      | succ k =>
        apply ih (i + 1) (urls ++ [url]) (w.call (.upload "wolo_memorials" file))
        refine ⟨k, ?_, e, ?_⟩
        · simpa using hj
        · rw [← he]
          congr 2
          omega

theorem uploadDocument_world (env : Env) (file : Option String) (w : World) :
    (uploadDocument env file w).2.store = w.store ∧
      ∃ extra, (uploadDocument env file w).2.log = w.log ++ extra ∧
        ∀ c ∈ extra, c.isUpload = true := by
  unfold uploadDocument
  cases file with
  | none => exact ⟨rfl, [], by simp, by simp⟩
  | some f =>
    have hx : ∀ c ∈ [Call.upload "wolo_documents" f], c.isUpload = true := by
      intro c hc
      simp only [List.mem_singleton] at hc
      subst hc
      rfl
    cases env.docFetch with
    | rejected msg => exact ⟨rfl, [.upload "wolo_documents" f], rfl, hx⟩
    | resolved docRes =>
      simp only
      split <;> exact ⟨rfl, [.upload "wolo_documents" f], rfl, hx⟩

theorem foldl_create (writes : Coll) :
    ∀ c : Coll, writes.foldl (fun c e => c.create e.1 e.2) c = c ++ writes := by
  induction writes with
  | nil => intro c; simp
  | cons e rest ih =>
    intro c
    rw [List.foldl_cons, ih]
    simp [Coll.create]

/-- The calls made by the inner `try` block of `handleSubmit` on the world `w`. -/
theorem saveMemorial_log (inp : Input) (env : Env) (data : Fields) (w : World) :
    (saveMemorial inp env data w).2.log =
      w.log ++ (Call.setDoc "memorials" env.memorialId ::
        (if env.setDocError.isNone && !AuthContext.isAdmin inp.userProfile then
          Call.getDocs "users" ::
            (if env.getDocsError.isNone && !(adminDocs w.store.users).isEmpty then
              [Call.commit (adminDocs w.store.users).length] else [])
         else [])) := by
  unfold saveMemorial setMemorialDoc notifyAdmins commitNotifications
  cases env.setDocError <;> cases AuthContext.isAdmin inp.userProfile <;>
    cases env.getDocsError <;> cases h : (adminDocs w.store.users).isEmpty <;>
    cases env.commitError <;> simp [World.call, h, adminBatch]

theorem saveMemorial_users (inp : Input) (env : Env) (data : Fields) (w : World) :
    (saveMemorial inp env data w).2.store.users = w.store.users := by
  unfold saveMemorial setMemorialDoc notifyAdmins commitNotifications
  cases env.setDocError <;> cases AuthContext.isAdmin inp.userProfile <;>
    cases env.getDocsError <;> cases h : (adminDocs w.store.users).isEmpty <;>
    cases env.commitError <;> simp [World.call, h]

/-- The memorial is created exactly when the `setDoc` call is not rejected. -/
theorem saveMemorial_memorials (inp : Input) (env : Env) (data : Fields) (w : World) :
    (saveMemorial inp env data w).2.store.memorials =
      if env.setDocError.isNone then w.store.memorials.create env.memorialId data
      else w.store.memorials := by
  unfold saveMemorial setMemorialDoc notifyAdmins commitNotifications
  cases env.setDocError <;> cases AuthContext.isAdmin inp.userProfile <;>
    cases env.getDocsError <;> cases h : (adminDocs w.store.users).isEmpty <;>
    cases env.commitError <;> simp [World.call, h]

/-- The notifications are written exactly when the memorial write, the admin
query and the batch commit all succeed for a submitter who is not an admin. -/
theorem saveMemorial_notifications (inp : Input) (env : Env) (data : Fields) (w : World) :
    (saveMemorial inp env data w).2.store.notifications =
      if env.setDocError.isNone && !AuthContext.isAdmin inp.userProfile &&
          env.getDocsError.isNone && env.commitError.isNone then
        w.store.notifications ++ adminBatch inp env (adminDocs w.store.users)
      else w.store.notifications := by
  unfold saveMemorial setMemorialDoc notifyAdmins commitNotifications
  by_cases h : adminDocs w.store.users = []
  · cases env.setDocError <;> cases AuthContext.isAdmin inp.userProfile <;>
      cases env.getDocsError <;> cases env.commitError <;>
      simp [World.call, h, foldl_create, adminBatch]
  · have h2 : (adminDocs w.store.users).isEmpty = false := by
      simpa [List.isEmpty_iff] using h
    cases env.setDocError <;> cases AuthContext.isAdmin inp.userProfile <;>
      cases env.getDocsError <;> cases env.commitError <;>
      simp [World.call, h2, foldl_create]

/-- The inner `try` block completes without throwing exactly when no call it
makes is rejected. -/
theorem saveMemorial_ok (inp : Input) (env : Env) (data : Fields) (w : World) :
    (saveMemorial inp env data w).1 = .ok () ↔
      env.setDocError = none ∧
        (AuthContext.isAdmin inp.userProfile = false →
          env.getDocsError = none ∧
            ((adminDocs w.store.users).isEmpty = false → env.commitError = none)) := by
  unfold saveMemorial setMemorialDoc notifyAdmins commitNotifications
  cases env.setDocError <;> cases AuthContext.isAdmin inp.userProfile <;>
    cases env.getDocsError <;> cases h : (adminDocs w.store.users).isEmpty <;>
    cases env.commitError <;> simp [World.call, h]

/-- The three ways a run of `handleSubmit` ends: validation error, upload
failure, or the inner `try` block run after uploads that touched no store. -/
theorem handleSubmit_shape (inp : Input) (env : Env) (w : World) :
    ((jsTrim inp.form.fullName = "" ∨ jsTrim inp.form.relationship = "") ∧
      (handleSubmit inp env w).world = w ∧ (handleSubmit inp env w).success = false ∧
      (handleSubmit inp env w).error ≠ "") ∨
    (jsTrim inp.form.fullName ≠ "" ∧ jsTrim inp.form.relationship ≠ "" ∧
      (∃ w1 e, handleSubmit inp env w = failed w1 [] e ∧ w1.store = w.store ∧
        ∃ extra, w1.log = w.log ++ extra ∧ ∀ c ∈ extra, c.isUpload = true)) ∨
    (jsTrim inp.form.fullName ≠ "" ∧ jsTrim inp.form.relationship ≠ "" ∧
      (∃ urls, (uploadPhotos env 0 inp.photoFiles [] w).1 = .ok urls) ∧
      (∃ urls docUrl w2, w2.store = w.store ∧
        (∃ extra, w2.log = w.log ++ extra ∧ ∀ c ∈ extra, c.isUpload = true) ∧
        (handleSubmit inp env w).world
          = (saveMemorial inp env (memorialData inp urls docUrl) w2).2 ∧
        ((handleSubmit inp env w).success = true ↔
          (saveMemorial inp env (memorialData inp urls docUrl) w2).1 = .ok ()))) := by
  unfold handleSubmit
  by_cases h1 : jsTrim inp.form.fullName = ""
  · left
    simp [h1]
  by_cases h2 : jsTrim inp.form.relationship = ""
  · left
    simp [h1, h2]
  right
  simp only [beq_iff_eq, h1, h2, if_false]
  obtain ⟨hp1, xp, hp2, hp3⟩ := uploadPhotos_world env inp.photoFiles 0 [] w
  generalize uploadPhotos env 0 inp.photoFiles [] w = rp at hp1 hp2 hp3
  obtain ⟨resp, w1⟩ := rp
  cases resp with
  | error e =>
    left
    exact ⟨h1, h2, w1, e, rfl, hp1, xp, hp2, hp3⟩
  | ok urls =>
    obtain ⟨hd1, xd, hd2, hd3⟩ := uploadDocument_world env inp.legacyDocFile w1
    simp only
    generalize uploadDocument env inp.legacyDocFile w1 = rd at hd1 hd2 hd3
    obtain ⟨resd, w2⟩ := rd
    have hlog : ∃ extra, w2.log = w.log ++ extra ∧ ∀ c ∈ extra, c.isUpload = true := by
      refine ⟨xp ++ xd, ?_, ?_⟩
      · simp only at hd2 hp2
        rw [hd2, hp2, List.append_assoc]
      · intro c hc
        rcases List.mem_append.mp hc with hc | hc
        · exact hp3 c hc
        · exact hd3 c hc
    cases resd with
    | error e =>
      left
      exact ⟨h1, h2, w2, e, rfl, hd1.trans hp1, hlog⟩
    | ok docUrl =>
      right
      refine ⟨h1, h2, ⟨urls, rfl⟩, urls, docUrl, w2, hd1.trans hp1, hlog, ?_⟩
      simp only
      generalize saveMemorial inp env (memorialData inp urls docUrl) w2 = rs
      obtain ⟨ress, w3⟩ := rs
      cases ress <;> simp [failed]

theorem jsTrim_of_whitespace (s : String) (h : ∀ c ∈ s.data, isJsWhitespace c = true) :
    jsTrim s = "" := by
  unfold jsTrim
  have h1 : s.data.dropWhile isJsWhitespace = [] := List.dropWhile_eq_nil_iff.mpr h
  rw [h1]
  rfl

theorem not_isStoreWrite_of_isUpload (c : Call) (h : c.isUpload = true) :
    c.isStoreWrite = false := by
  cases c <;> simp_all [Call.isUpload, Call.isStoreWrite]

theorem adminBatch_docs (inp : Input) (env : Env) (admins : Coll) :
    (adminBatch inp env admins).map Prod.snd = admins.map (fun a => adminAlert inp env a.1) := by
  unfold adminBatch
  rw [List.map_map]
  have h2 : (Prod.snd ∘ fun p : Nat × String × Fields =>
      (env.notificationId p.1, adminAlert inp env p.2.1))
      = (fun p : String × Fields => adminAlert inp env p.1) ∘ Prod.snd := rfl
  rw [h2, ← List.map_map, List.map_snd_zip _ _ (by simp)]

/-- C3: whenever `Upload.handleSubmit` writes to the memorials collection, it
creates one document, with status 'pending' and isApproved false when the
submitter is not an admin, and with status 'approved' and isApproved true
when the submitter is an admin. -/
theorem C3_submission_status_follows_role (inp : Input) (env : Env) (w : World)
    (hw : (handleSubmit inp env w).world.store.memorials ≠ w.store.memorials) :
    ∃ d, (handleSubmit inp env w).world.store.memorials
          = w.store.memorials.create env.memorialId d ∧
      (AuthContext.isAdmin inp.userProfile = false →
        getField d "status" = some (.str "pending") ∧
          getField d "isApproved" = some (.bool false)) ∧
      (AuthContext.isAdmin inp.userProfile = true →
        getField d "status" = some (.str "approved") ∧
          getField d "isApproved" = some (.bool true)) := by
  rcases handleSubmit_shape inp env w with h | h | h
  · exact absurd (by rw [h.2.1]) hw
  · obtain ⟨_, _, w1, e, h1, h2, _⟩ := h
    exact absurd (by rw [h1]; exact congrArg Store.memorials h2) hw
  · obtain ⟨_, _, _, urls, docUrl, w2, h1, _, h2, _⟩ := h
    rw [h2, saveMemorial_memorials, h1] at hw ⊢
    cases hs : env.setDocError.isNone with
    | false => simp [hs] at hw
    | true =>
      refine ⟨memorialData inp urls docUrl, by simp, ?_, ?_⟩
      · intro ha
        simp [memorialData, getField, List.lookup, ha]
      · intro ha
        simp [memorialData, getField, List.lookup, ha]

/-- Witness of C3: the sample submission by a member. -/
theorem C3_submission_status_follows_role_witness :
    ∃ d, (handleSubmit Sample.input0 Sample.envOk Sample.world0).world.store.memorials
          = Sample.world0.store.memorials.create Sample.envOk.memorialId d ∧
      (AuthContext.isAdmin Sample.input0.userProfile = false →
        getField d "status" = some (.str "pending") ∧
          getField d "isApproved" = some (.bool false)) ∧
      (AuthContext.isAdmin Sample.input0.userProfile = true →
        getField d "status" = some (.str "approved") ∧
          getField d "isApproved" = some (.bool true)) :=
  C3_submission_status_follows_role Sample.input0 Sample.envOk Sample.world0 (by decide)

/-- Counterexample to C4 as stated: the memorial write of a member's
submission succeeds, there is a user whose role is 'admin', and the rejected
batch commit leaves no notification written. -/
theorem C4_commit_failure_writes_no_alert :
    (handleSubmit Sample.input0 Sample.envCommitFails Sample.world0).world.store.memorials
        = Sample.world0.store.memorials.create "m1"
            (memorialData Sample.input0 ["https://cdn/photo0", "https://cdn/photo1"]
              (some "https://cdn/doc")) ∧
      AuthContext.isAdmin Sample.input0.userProfile = false ∧
      (adminDocs Sample.world0.store.users).map Prod.fst = ["admin1"] ∧
      (handleSubmit Sample.input0 Sample.envCommitFails Sample.world0).world.store.notifications
        = [] := by
  refine ⟨by rfl, by rfl, by rfl, by rfl⟩

/-- C4, amended: on a submission whose memorial write succeeds, an admin's
submission writes no notification and makes no further store call; a
submission by a user who is not an admin queries the users whose role is
'admin' and, when the query and the batch commit both succeed, adds exactly
one notification per such user (userId that user's id, type 'admin_alert',
isRead false, memorialId the new memorial's id), all in a single batch commit;
when the query or the commit is rejected no notification is written. -/
theorem C4_admin_fanout_when_commit_succeeds (inp : Input) (env : Env) (w : World)
    (hw : (handleSubmit inp env w).world.store.memorials ≠ w.store.memorials) :
    (AuthContext.isAdmin inp.userProfile = true →
      (handleSubmit inp env w).world.store.notifications = w.store.notifications ∧
      ∃ uploads, (∀ c ∈ uploads, c.isUpload = true) ∧
        (handleSubmit inp env w).world.log
          = w.log ++ uploads ++ [Call.setDoc "memorials" env.memorialId]) ∧
    (AuthContext.isAdmin inp.userProfile = false →
      env.getDocsError = none → env.commitError = none →
      ∃ added : Coll,
        (handleSubmit inp env w).world.store.notifications = w.store.notifications ++ added ∧
        added.map (fun n => getField n.2 "userId")
          = (adminDocs w.store.users).map (fun a => some (.str a.1)) ∧
        (∀ n ∈ added, getField n.2 "type" = some (.str "admin_alert") ∧
          getField n.2 "isRead" = some (.bool false) ∧
          getField n.2 "memorialId" = some (.str env.memorialId)) ∧
        ∃ uploads, (∀ c ∈ uploads, c.isUpload = true) ∧
          (handleSubmit inp env w).world.log
            = w.log ++ uploads ++ (Call.setDoc "memorials" env.memorialId ::
                Call.getDocs "users" ::
                  (if (adminDocs w.store.users).isEmpty then []
                   else [Call.commit (adminDocs w.store.users).length]))) ∧
    (AuthContext.isAdmin inp.userProfile = false →
      (env.getDocsError ≠ none ∨ env.commitError ≠ none) →
      (handleSubmit inp env w).world.store.notifications = w.store.notifications) := by
  rcases handleSubmit_shape inp env w with h | h | h
  · exact absurd (by rw [h.2.1]) hw
  · obtain ⟨_, _, w1, e, h1, h2, _⟩ := h
    exact absurd (by rw [h1]; exact congrArg Store.memorials h2) hw
  · obtain ⟨_, _, _, urls, docUrl, w2, h1, ⟨uploads, hl1, hl2⟩, h2, _⟩ := h
    have hset : env.setDocError.isNone = true := by
      rw [h2, saveMemorial_memorials, h1] at hw
      cases hs : env.setDocError.isNone with
      | false => simp [hs] at hw
      | true => rfl
    rw [h2, saveMemorial_notifications, saveMemorial_log, h1, hl1, hset]
    refine ⟨?_, ?_, ?_⟩
    · intro ha
      refine ⟨by simp [ha], uploads, hl2, by simp [ha]⟩
    · intro ha hq hc
      refine ⟨adminBatch inp env (adminDocs w.store.users), by simp [ha, hq, hc], ?_, ?_,
        uploads, hl2, ?_⟩
      · have h3 := congrArg (List.map (fun d : Fields => getField d "userId"))
          (adminBatch_docs inp env (adminDocs w.store.users))
        simp only [List.map_map] at h3
        exact h3
      · intro n hn
        have h3 : n.2 ∈ (adminBatch inp env (adminDocs w.store.users)).map Prod.snd :=
          List.mem_map_of_mem _ hn
        rw [adminBatch_docs] at h3
        obtain ⟨a, _, ha2⟩ := List.mem_map.mp h3
        rw [← ha2]
        refine ⟨by rfl, by rfl, by rfl⟩
      · cases hE : (adminDocs w.store.users).isEmpty <;> simp [ha, hq, hE]
    · intro ha hf
      rcases hf with hf | hf
      · cases hq : env.getDocsError with
        | none => exact absurd hq hf
        | some e => simp [ha]
      · cases hc : env.commitError with
        | none => exact absurd hc hf
        | some e => simp [ha]

/-- Witness of C4 (amended): the sample submission by a member. -/
theorem C4_admin_fanout_when_commit_succeeds_witness :
    (handleSubmit Sample.input0 Sample.envOk Sample.world0).world.store.memorials
        ≠ Sample.world0.store.memorials ∧
    ∃ added : Coll,
      (handleSubmit Sample.input0 Sample.envOk Sample.world0).world.store.notifications
        = Sample.world0.store.notifications ++ added ∧
      added.map (fun n => getField n.2 "userId")
        = (adminDocs Sample.world0.store.users).map (fun a => some (.str a.1)) ∧
      (∀ n ∈ added, getField n.2 "type" = some (.str "admin_alert") ∧
        getField n.2 "isRead" = some (.bool false) ∧
        getField n.2 "memorialId" = some (.str Sample.envOk.memorialId)) ∧
      ∃ uploads, (∀ c ∈ uploads, c.isUpload = true) ∧
        (handleSubmit Sample.input0 Sample.envOk Sample.world0).world.log
          = Sample.world0.log ++ uploads ++
            (Call.setDoc "memorials" Sample.envOk.memorialId ::
              Call.getDocs "users" ::
                (if (adminDocs Sample.world0.store.users).isEmpty then []
                 else [Call.commit (adminDocs Sample.world0.store.users).length])) :=
  ⟨by decide,
    (C4_admin_fanout_when_commit_succeeds Sample.input0 Sample.envOk Sample.world0
      (by decide)).2.1 (by rfl) (by rfl) (by rfl)⟩

/-- C5: if the upload of any selected photo fails, whatever the number of
photos and the position of the failing one, `handleSubmit` leaves the store
unchanged (no memorial, no notification), attempts no store write and does
not report success. -/
theorem C5_failed_photo_upload_writes_nothing (inp : Input) (env : Env) (w : World)
    (k : Nat) (e : String) (hk : k < inp.photoFiles.length)
    (hf : uploadToCloudinary (env.photoFetch k) = .error e) :
    (handleSubmit inp env w).world.store = w.store ∧
      (handleSubmit inp env w).success = false ∧
      ∃ extra, (handleSubmit inp env w).world.log = w.log ++ extra ∧
        ∀ c ∈ extra, c.isStoreWrite = false := by
  rcases handleSubmit_shape inp env w with h | h | h
  · obtain ⟨_, h1, h2, _⟩ := h
    exact ⟨by rw [h1], h2, [], by rw [h1]; simp, by simp⟩
  · obtain ⟨_, _, w1, e1, h1, h2, extra, h3, h4⟩ := h
    rw [h1]
    exact ⟨h2, rfl, extra, h3, fun c hc => not_isStoreWrite_of_isUpload c (h4 c hc)⟩
  · obtain ⟨_, _, ⟨urls, hu⟩, _⟩ := h
    obtain ⟨e2, he2⟩ := uploadPhotos_fails env inp.photoFiles 0 [] w
      ⟨k, hk, e, by rw [Nat.zero_add]; exact hf⟩
    rw [hu] at he2
    cases he2

/-- Witness of C5: the second of two photos fails. -/
theorem C5_failed_photo_upload_writes_nothing_witness :
    (handleSubmit Sample.input0 Sample.envPhotoFails Sample.world0).world.store
        = Sample.world0.store ∧
      (handleSubmit Sample.input0 Sample.envPhotoFails Sample.world0).success = false ∧
      ∃ extra, (handleSubmit Sample.input0 Sample.envPhotoFails Sample.world0).world.log
          = Sample.world0.log ++ extra ∧
        ∀ c ∈ extra, c.isStoreWrite = false :=
  C5_failed_photo_upload_writes_nothing Sample.input0 Sample.envPhotoFails Sample.world0
    1 "Upload failed (500)" (by decide) (by rfl)

/-- C6, the code at a failing input: the upload endpoint answers the document
upload with a non-OK response, and `handleSubmit` still writes the memorial
(with `legacyDocumentUrl` null) and reports success. -/
theorem C6_document_upload_failure_still_writes :
    (handleSubmit Sample.input0 Sample.envDocFails Sample.world0).success = true ∧
      (handleSubmit Sample.input0 Sample.envDocFails Sample.world0).error = "" ∧
      (handleSubmit Sample.input0 Sample.envDocFails Sample.world0).world.store.memorials
        = [("m1", memorialData Sample.input0 ["https://cdn/photo0", "https://cdn/photo1"]
            none)] ∧
      getField (memorialData Sample.input0 ["https://cdn/photo0", "https://cdn/photo1"] none)
        "legacyDocumentUrl" = some .null ∧
      Call.setDoc "memorials" "m1"
        ∈ (handleSubmit Sample.input0 Sample.envDocFails Sample.world0).world.log := by
  refine ⟨by rfl, by rfl, by rfl, by rfl, by decide⟩

/-- C7: if the full name or the relationship is empty or consists only of
white space, `handleSubmit` sets an inline error and makes no remote call at
all: no upload and no store write is attempted, and the store is unchanged. -/
theorem C7_blank_required_field_attempts_nothing (inp : Input) (env : Env) (w : World)
    (h : (∀ c ∈ inp.form.fullName.data, isJsWhitespace c = true) ∨
      (∀ c ∈ inp.form.relationship.data, isJsWhitespace c = true)) :
    (handleSubmit inp env w).error ≠ "" ∧
      (handleSubmit inp env w).world.log = w.log ∧
      (handleSubmit inp env w).world.store = w.store ∧
      (handleSubmit inp env w).success = false := by
  have hb : jsTrim inp.form.fullName = "" ∨ jsTrim inp.form.relationship = "" :=
    h.imp (jsTrim_of_whitespace _) (jsTrim_of_whitespace _)
  rcases handleSubmit_shape inp env w with h1 | h1 | h1
  · obtain ⟨_, h2, h3, h4⟩ := h1
    exact ⟨h4, by rw [h2], by rw [h2], h3⟩
  · exact absurd hb (not_or.mpr ⟨h1.1, h1.2.1⟩)
  · exact absurd hb (not_or.mpr ⟨h1.1, h1.2.1⟩)

/-- Witness of C7: the relationship consists of two spaces. -/
theorem C7_blank_required_field_attempts_nothing_witness :
    (handleSubmit Sample.inputBlank Sample.envOk Sample.world0).error ≠ "" ∧
      (handleSubmit Sample.inputBlank Sample.envOk Sample.world0).world.log
        = Sample.world0.log ∧
      (handleSubmit Sample.inputBlank Sample.envOk Sample.world0).world.store
        = Sample.world0.store ∧
      (handleSubmit Sample.inputBlank Sample.envOk Sample.world0).success = false :=
  C7_blank_required_field_attempts_nothing Sample.inputBlank Sample.envOk Sample.world0
    (Or.inr (by decide))

end Upload

/-! ## Edits -/

namespace EditMemorial

theorem uploadPhotos_store (env : Env) (files : List String) :
    ∀ (i : Nat) (urls : List String) (w : World),
      (uploadPhotos env i files urls w).2.store = w.store := by
  induction files with
  | nil => intro i urls w; rfl
  | cons file rest ih =>
    intro i urls w
    unfold uploadPhotos
    cases env.compressError i with
    | some e => rfl
    | none =>
      simp only
      cases uploadToCloudinary (env.photoFetch i) with
      | error e => rfl
      | ok url => exact ih _ _ _

/-- The only write of `handleSubmit` to the memorials collection is the field
merge of `updateData` into the document with the route id. -/
theorem handleSubmit_memorials (inp : Input) (env : Env) (w : World) :
    (handleSubmit inp env w).world.store.memorials = w.store.memorials ∨
    ∃ finalImageUrls, (handleSubmit inp env w).world.store.memorials
      = w.store.memorials.modify inp.id (applyUpdate (updateData inp.form finalImageUrls)) := by
  unfold handleSubmit
  split
  · exact Or.inl rfl
  · have hp := uploadPhotos_store env inp.newPhotoFiles 0 inp.existingPhotos w
    generalize uploadPhotos env 0 inp.newPhotoFiles inp.existingPhotos w = rp at hp
    obtain ⟨resp, w1⟩ := rp
    cases resp with
    | error e => exact Or.inl (congrArg Store.memorials hp)
    | ok urls =>
      simp only at hp ⊢
      cases hu : (updateMemorialDoc env.updateDocError inp.id
          (updateData inp.form urls) w1).1 with
      | error e =>
        left
        have h1 := (updateMemorialDoc_error _ _ _ _ e hu).1
        generalize updateMemorialDoc env.updateDocError inp.id
          (updateData inp.form urls) w1 = r at hu h1
        obtain ⟨res, w2⟩ := r
        cases res with
        | error e1 => exact congrArg Store.memorials (h1.trans hp)
        | ok u => simp at hu
      | ok u =>
        right
        refine ⟨urls, ?_⟩
        rw [updateMemorialDoc_ok_eq _ _ _ _ hu, hp]

theorem updateData_keys (form : Upload.Form) (finalImageUrls : List String) :
    (updateData form finalImageUrls).map Prod.fst
      = ["fullName", "familyHouse", "dateOfPassing", "biography", "relationship",
         "imageUrls", "imageUrl"] := rfl

theorem getField_updateData_other (form : Upload.Form) (urls : List String) (d : Fields)
    (j : String)
    (hj : j ∉ ["fullName", "familyHouse", "dateOfPassing", "biography", "relationship",
         "imageUrls", "imageUrl"]) :
    getField (applyUpdate (updateData form urls) d) j = getField d j := by
  apply getField_applyUpdate_other
  intro e he hje
  apply hj
  rw [← updateData_keys form urls, hje]
  exact List.mem_map_of_mem _ he

/-- C10: the update issued by `EditMemorial.handleSubmit` is a field merge
whose payload holds exactly fullName, familyHouse, dateOfPassing, biography,
relationship, imageUrls and imageUrl; so for every stored memorial and every
form input, status, isApproved, postedBy, createdAt and candlesLit are the
same after the handler as before. -/
theorem C10_edit_keeps_status_and_approval (inp : Input) (env : Env) (w : World) :
    (∀ finalImageUrls, (updateData inp.form finalImageUrls).map Prod.fst
      = ["fullName", "familyHouse", "dateOfPassing", "biography", "relationship",
         "imageUrls", "imageUrl"]) ∧
    ((handleSubmit inp env w).world.store.memorials = w.store.memorials ∨
      ∃ finalImageUrls, (handleSubmit inp env w).world.store.memorials
        = w.store.memorials.modify inp.id
            (applyUpdate (updateData inp.form finalImageUrls))) ∧
    (∀ (j : String) (d0 : Fields), w.store.memorials.doc j = some d0 →
      ∃ d1, (handleSubmit inp env w).world.store.memorials.doc j = some d1 ∧
        getField d1 "status" = getField d0 "status" ∧
        getField d1 "isApproved" = getField d0 "isApproved" ∧
        getField d1 "postedBy" = getField d0 "postedBy" ∧
        getField d1 "createdAt" = getField d0 "createdAt" ∧
        getField d1 "candlesLit" = getField d0 "candlesLit") := by
  refine ⟨fun _ => rfl, handleSubmit_memorials inp env w, ?_⟩
  intro j d0 hd0
  rcases handleSubmit_memorials inp env w with h | ⟨urls, h⟩
  · exact ⟨d0, by rw [h, hd0], rfl, rfl, rfl, rfl, rfl⟩
  · rw [h, Coll.doc_modify, hd0]
    by_cases hj : j = inp.id
    · refine ⟨applyUpdate (updateData inp.form urls) d0, by simp [hj], ?_, ?_, ?_, ?_, ?_⟩ <;>
        exact getField_updateData_other _ _ _ _ (by decide)
    · exact ⟨d0, by simp [hj], rfl, rfl, rfl, rfl, rfl⟩

end EditMemorial

/-! ## Loading a memorial for editing -/

namespace EditMemorial

theorem truthy_userProperty_isAdmin (u : Upload.AuthUser) :
    truthy (userProperty u "isAdmin") = false := by
  have h : userProperty u "isAdmin" = none := by
    unfold userProperty
    simp
  rw [h]
  rfl

/-- For an existing memorial, `fetchMemorial` redirects to the archive exactly
when the signed-in user is not the poster, whatever their role. -/
theorem fetchMemorial_redirects_iff (currentUser : Upload.AuthUser) (id : String) (w : World)
    (data : Fields) (hd : w.store.memorials.doc id = some data) :
    (fetchMemorial currentUser id none w).1.navigations = ["/archive"] ↔
      getField data "postedBy" ≠ some (.str currentUser.uid) := by
  unfold fetchMemorial
  simp only [World.call, hd, truthy_userProperty_isAdmin]
  by_cases h : getField data "postedBy" = some (.str currentUser.uid)
  · simp [h]
  · simp [h]

/-- C11, the code at a failing input: an admin who is not the poster of the
sample memorial opens its edit page and is redirected to the archive. -/
theorem C11_admin_who_is_not_poster_is_redirected :
    AuthContext.isAdmin (some Sample.adminProfile) = true ∧
      (∃ data, Sample.world1.store.memorials.doc "m1" = some data ∧
        getField data "postedBy" = some (.str "alice")) ∧
      Sample.adminUser.uid ≠ "alice" ∧
      (fetchMemorial Sample.adminUser "m1" none Sample.world1).1.navigations
        = ["/archive"] ∧
      (fetchMemorial Sample.adminUser "m1" none Sample.world1).1.form = emptyForm := by
  refine ⟨by rfl, ⟨_, by rfl, by rfl⟩, by decide, by rfl, by rfl⟩

end EditMemorial

/-! ## Starting a chat -/

namespace MemorialDetail

theorem existingChatId_step (posterUid : String) (docs : Coll) :
    ∀ acc : Option String,
      docs.foldl (fun acc d => if posterUid ∈ participants d.2 then some d.1 else acc) acc = acc ∨
      ∃ d ∈ docs, posterUid ∈ participants d.2 ∧
        docs.foldl (fun acc d => if posterUid ∈ participants d.2 then some d.1 else acc) acc
          = some d.1 := by
  induction docs with
  | nil => intro acc; exact Or.inl rfl
  | cons d rest ih =>
    intro acc
    rw [List.foldl_cons]
    by_cases hd : posterUid ∈ participants d.2
    · rw [if_pos hd]
      rcases ih (some d.1) with h | ⟨x, hx, hp, h⟩
      · exact Or.inr ⟨d, List.mem_cons_self _ _, hd, h⟩
      · exact Or.inr ⟨x, List.mem_cons_of_mem _ hx, hp, h⟩
    · rw [if_neg hd]
      rcases ih acc with h | ⟨x, hx, hp, h⟩
      · exact Or.inl h
      · exact Or.inr ⟨x, List.mem_cons_of_mem _ hx, hp, h⟩

theorem existingChatId_isSome (posterUid : String) (docs : Coll) :
    ∀ acc : Option String, (∃ d ∈ docs, posterUid ∈ participants d.2) →
      ∃ d ∈ docs, posterUid ∈ participants d.2 ∧
        docs.foldl (fun acc d => if posterUid ∈ participants d.2 then some d.1 else acc) acc
          = some d.1 := by
  induction docs with
  | nil =>
    intro acc h
    obtain ⟨d, hd, _⟩ := h
    simp at hd
  | cons d rest ih =>
    intro acc h
    rw [List.foldl_cons]
    by_cases hr : ∃ x ∈ rest, posterUid ∈ participants x.2
    · obtain ⟨x, hx, hp, h2⟩ := ih (if posterUid ∈ participants d.2 then some d.1 else acc) hr
      exact ⟨x, List.mem_cons_of_mem _ hx, hp, h2⟩
    · obtain ⟨x, hx, hp⟩ := h
      rcases List.mem_cons.mp hx with hx | hx
      · subst hx
        rw [if_pos hp]
        rcases existingChatId_step posterUid rest (some x.1) with h2 | ⟨y, hy, hyp, _⟩
        · exact ⟨x, List.mem_cons_self _ _, hp, h2⟩
        · exact absurd ⟨y, hy, hyp⟩ hr
      · exact absurd ⟨x, hx, hp⟩ hr

theorem existingChatId_append (posterUid : String) (docs : Coll) (d : String × Fields)
    (hd : posterUid ∈ participants d.2) :
    existingChatId posterUid (docs ++ [d]) = some d.1 := by
  unfold existingChatId
  rw [List.foldl_append]
  simp [hd]

theorem participants_newChat (user : Upload.AuthUser) (memorial : MemorialView) (id : String) :
    participants (newChat user memorial id) = [user.uid, memorial.postedBy] := by
  simp [participants, newChat, getField, List.lookup]

theorem mem_chatsOf (uid : String) (chats : Coll) (e : String × Fields) :
    e ∈ chatsOf uid chats ↔ e ∈ chats ∧ uid ∈ participants e.2 := by
  unfold chatsOf
  simp [List.mem_filter]

/-- The chats after one run of `handleMessageFamily`: unchanged, or one chat
created for a pair of distinct users that had none. -/
theorem handleMessageFamily_chats (inp : Input) (env : Env) (w : World)
    (hids : ∀ e ∈ w.store.chats, e.1 ≠ "") :
    (handleMessageFamily inp env w).world.store.chats = w.store.chats ∨
    ∃ user memorial, inp.currentUser = some user ∧ inp.memorial = some memorial ∧
      memorial.postedBy ≠ user.uid ∧ env.getDocsError = none ∧ env.addDocError = none ∧
      (∀ e ∈ w.store.chats,
        ¬ (user.uid ∈ participants e.2 ∧ memorial.postedBy ∈ participants e.2)) ∧
      (handleMessageFamily inp env w).world.store.chats
        = w.store.chats ++ [(env.autoId, newChat user memorial inp.id)] ∧
      (handleMessageFamily inp env w).navigations = ["/chat/" ++ env.autoId] := by
  unfold handleMessageFamily
  cases hu : inp.currentUser with
  | none => exact Or.inl rfl
  | some user =>
    cases hm : inp.memorial with
    | none => exact Or.inl rfl
    | some memorial =>
      simp only
      by_cases hp : memorial.postedBy = user.uid
      · rw [if_pos hp]
        exact Or.inl rfl
      · rw [if_neg hp]
        cases hq : env.getDocsError with
        | some e => exact Or.inl rfl
        | none =>
          simp only [World.call]
          rcases existingChatId_step memorial.postedBy (chatsOf user.uid w.store.chats) none
            with h | ⟨d, hd, hdp, h⟩
          · have hex : existingChatId memorial.postedBy (chatsOf user.uid w.store.chats)
                = none := h
            have hnone : ∀ e ∈ w.store.chats,
                ¬ (user.uid ∈ participants e.2 ∧ memorial.postedBy ∈ participants e.2) := by
              intro e he hboth
              obtain ⟨x, _, _, hx⟩ := existingChatId_isSome memorial.postedBy
                (chatsOf user.uid w.store.chats) none
                ⟨e, (mem_chatsOf _ _ _).mpr ⟨he, hboth.1⟩, hboth.2⟩
              rw [h] at hx
              cases hx
            rw [hex]
            simp only [Option.filter, addChatDoc, World.call]
            cases ha : env.addDocError with
            | some e => exact Or.inl rfl
            | none =>
              right
              refine ⟨user, memorial, ?_, ?_, hp, ?_, ?_, hnone, ?_, ?_⟩ <;>
                first | rfl | trivial
          · have hex : existingChatId memorial.postedBy (chatsOf user.uid w.store.chats)
                = some d.1 := h
            have hne : d.1 ≠ "" := hids d ((mem_chatsOf _ _ _).mp hd).1
            rw [hex]
            left
            simp only [Option.filter, bne_iff_ne, ne_eq, hne, not_false_eq_true, decide_True,
              if_true]

theorem chatsBetween_symm_nil (a b : String) (chats : Coll)
    (h : ∀ e ∈ chats, ¬ (a ∈ participants e.2 ∧ b ∈ participants e.2)) :
    chatsBetween a b chats = [] ∧ chatsBetween b a chats = [] := by
  unfold chatsBetween
  constructor
  · apply List.filter_eq_nil_iff.mpr
    intro e he
    have := h e he
    simp only [Bool.and_eq_true, decide_eq_true_eq]
    exact this
  · apply List.filter_eq_nil_iff.mpr
    intro e he
    have := h e he
    simp only [Bool.and_eq_true, decide_eq_true_eq]
    exact fun hh => this ⟨hh.2, hh.1⟩

theorem atMostOnePerPair_create (chats : Coll) (user : Upload.AuthUser)
    (memorial : MemorialView) (id autoId : String)
    (hinv : AtMostOnePerPair chats)
    (hnone : ∀ e ∈ chats,
      ¬ (user.uid ∈ participants e.2 ∧ memorial.postedBy ∈ participants e.2)) :
    AtMostOnePerPair (chats ++ [(autoId, newChat user memorial id)]) := by
  intro a b hab
  obtain ⟨h1, h2⟩ := chatsBetween_symm_nil _ _ chats hnone
  unfold chatsBetween at h1 h2 ⊢
  rw [List.filter_append, List.length_append]
  by_cases hboth : a ∈ participants (newChat user memorial id) ∧
      b ∈ participants (newChat user memorial id)
  · rw [participants_newChat] at hboth
    simp only [List.mem_cons, List.mem_singleton, List.not_mem_nil, or_false] at hboth
    have hz : (List.filter (fun e => decide (a ∈ participants e.2) &&
        decide (b ∈ participants e.2)) chats) = [] := by
      rcases hboth with ⟨ha | ha, hb | hb⟩
      · exact absurd (ha.trans hb.symm) hab
      · rw [ha, hb]; exact h1
      · rw [ha, hb]; exact h2
      · exact absurd (ha.trans hb.symm) hab
    rw [hz]
    simp only [List.length_nil, Nat.zero_add]
    exact List.length_filter_le _ _
  · have hz : (List.filter (fun e => decide (a ∈ participants e.2) &&
        decide (b ∈ participants e.2)) [(autoId, newChat user memorial id)]) = [] := by
      apply List.filter_eq_nil_iff.mpr
      intro e he
      simp only [List.mem_singleton] at he
      subst he
      simpa using hboth
    rw [hz]
    exact hinv a b hab

theorem runCalls_invariant (calls : List (Input × Env)) :
    ∀ w : World, (∀ e ∈ w.store.chats, e.1 ≠ "") → AtMostOnePerPair w.store.chats →
      (∀ c ∈ calls, c.2.autoId ≠ "") →
      (∀ e ∈ (runCalls calls w).store.chats, e.1 ≠ "") ∧
        AtMostOnePerPair (runCalls calls w).store.chats := by
  induction calls with
  | nil => intro w h1 h2 _; exact ⟨h1, h2⟩
  | cons c rest ih =>
    intro w h1 h2 h3
    have hc : c.2.autoId ≠ "" := h3 c (List.mem_cons_self _ _)
    have hrest : ∀ x ∈ rest, x.2.autoId ≠ "" := fun x hx => h3 x (List.mem_cons_of_mem _ hx)
    show (∀ e ∈ (runCalls rest (handleMessageFamily c.1 c.2 w).world).store.chats, e.1 ≠ "") ∧
      AtMostOnePerPair (runCalls rest (handleMessageFamily c.1 c.2 w).world).store.chats
    apply ih _ _ _ hrest
    · rcases handleMessageFamily_chats c.1 c.2 w h1 with h | ⟨u, m, _, _, _, _, _, _, h, _⟩
      · rw [h]; exact h1
      · rw [h]
        intro e he
        rcases List.mem_append.mp he with he | he
        · exact h1 e he
        · simp only [List.mem_singleton] at he
          rw [he]
          exact hc
    · rcases handleMessageFamily_chats c.1 c.2 w h1 with h | ⟨u, m, _, _, _, _, _, hn, h, _⟩
      · rw [h]; exact h2
      · rw [h]
        exact atMostOnePerPair_create _ _ _ _ _ h2 hn

/-- With the guards passed, both calls accepted and no chat of the pair in
the store, `handleMessageFamily` creates the chat and navigates to it. -/
theorem handleMessageFamily_creates (inp : Input) (env : Env) (w : World)
    (user : Upload.AuthUser) (memorial : MemorialView)
    (hu : inp.currentUser = some user) (hm : inp.memorial = some memorial)
    (hp : memorial.postedBy ≠ user.uid)
    (hq : env.getDocsError = none) (ha : env.addDocError = none)
    (hnone : ∀ e ∈ w.store.chats,
      ¬ (user.uid ∈ participants e.2 ∧ memorial.postedBy ∈ participants e.2)) :
    (handleMessageFamily inp env w).world.store.chats
        = w.store.chats ++ [(env.autoId, newChat user memorial inp.id)] ∧
      (handleMessageFamily inp env w).navigations = ["/chat/" ++ env.autoId] := by
  have hex : existingChatId memorial.postedBy (chatsOf user.uid w.store.chats) = none := by
    rcases existingChatId_step memorial.postedBy (chatsOf user.uid w.store.chats) none
      with h | ⟨d, hd, hdp, _⟩
    · exact h
    · obtain ⟨hd1, hd2⟩ := (mem_chatsOf _ _ _).mp hd
      exact absurd ⟨hd2, hdp⟩ (hnone d hd1)
  unfold handleMessageFamily
  rw [hu, hm]
  simp only [if_neg hp, hq, World.call, hex, Option.filter, addChatDoc, ha, Coll.create]
  refine ⟨?_, ?_⟩ <;> first | rfl | trivial

/-- With the guards passed, the query accepted and a chat of the pair in the
store, `handleMessageFamily` creates nothing and navigates to such a chat. -/
theorem handleMessageFamily_existing (inp : Input) (env : Env) (w : World)
    (user : Upload.AuthUser) (memorial : MemorialView)
    (hu : inp.currentUser = some user) (hm : inp.memorial = some memorial)
    (hp : memorial.postedBy ≠ user.uid) (hq : env.getDocsError = none)
    (hids : ∀ e ∈ w.store.chats, e.1 ≠ "")
    (hsome : ∃ e ∈ w.store.chats,
      user.uid ∈ participants e.2 ∧ memorial.postedBy ∈ participants e.2) :
    (handleMessageFamily inp env w).world.store.chats = w.store.chats ∧
      ∃ e ∈ w.store.chats, user.uid ∈ participants e.2 ∧
        memorial.postedBy ∈ participants e.2 ∧
        (handleMessageFamily inp env w).navigations = ["/chat/" ++ e.1] := by
  obtain ⟨e, he, h1, h2⟩ := hsome
  obtain ⟨d, hd, hdp, hex⟩ := existingChatId_isSome memorial.postedBy
    (chatsOf user.uid w.store.chats) none ⟨e, (mem_chatsOf _ _ _).mpr ⟨he, h1⟩, h2⟩
  obtain ⟨hd1, hd2⟩ := (mem_chatsOf _ _ _).mp hd
  have hne : d.1 ≠ "" := hids d hd1
  have hex2 : existingChatId memorial.postedBy (chatsOf user.uid w.store.chats)
      = some d.1 := hex
  unfold handleMessageFamily
  rw [hu, hm]
  simp only [if_neg hp, hq, World.call, hex2, Option.filter, bne_iff_ne, ne_eq, hne,
    not_false_eq_true, decide_True, if_true]
  refine ⟨?_, d, hd1, hd2, hdp, ?_⟩ <;> first | rfl | trivial

/-- C14: for a signed-in user on the page of a memorial posted by someone
else, with the chat query and the chat write accepted, `handleMessageFamily`
creates a new chat document if and only if no existing chat whose participants
include the current user also includes the memorial's poster, and otherwise
navigates to such a chat; consequently a store that holds at most one chat per
pair of users still does after any sequence of calls run one after another,
and a second call for the same pair navigates to the chat created by the first
and creates nothing. -/
theorem C14_chat_created_only_when_none_exists (inp : Input) (env : Env) (w : World)
    (user : Upload.AuthUser) (memorial : MemorialView)
    (hu : inp.currentUser = some user) (hm : inp.memorial = some memorial)
    (hp : memorial.postedBy ≠ user.uid)
    (hq : env.getDocsError = none) (ha : env.addDocError = none) (hid : env.autoId ≠ "")
    (hids : ∀ e ∈ w.store.chats, e.1 ≠ "") :
    ((handleMessageFamily inp env w).world.store.chats
        = w.store.chats ++ [(env.autoId, newChat user memorial inp.id)] ↔
      ¬ ∃ e ∈ w.store.chats,
        user.uid ∈ participants e.2 ∧ memorial.postedBy ∈ participants e.2) ∧
    ((∃ e ∈ w.store.chats,
        user.uid ∈ participants e.2 ∧ memorial.postedBy ∈ participants e.2) →
      (handleMessageFamily inp env w).world.store.chats = w.store.chats ∧
      ∃ e ∈ w.store.chats, user.uid ∈ participants e.2 ∧
        memorial.postedBy ∈ participants e.2 ∧
        (handleMessageFamily inp env w).navigations = ["/chat/" ++ e.1]) ∧
    (AtMostOnePerPair w.store.chats →
      ∀ calls : List (Input × Env), (∀ c ∈ calls, c.2.autoId ≠ "") →
        AtMostOnePerPair (runCalls calls w).store.chats) ∧
    ((¬ ∃ e ∈ w.store.chats,
        user.uid ∈ participants e.2 ∧ memorial.postedBy ∈ participants e.2) →
      ∀ env2 : Env, env2.getDocsError = none →
        (handleMessageFamily inp env2 (handleMessageFamily inp env w).world).world.store.chats
          = (handleMessageFamily inp env w).world.store.chats ∧
        (handleMessageFamily inp env2 (handleMessageFamily inp env w).world).navigations
          = ["/chat/" ++ env.autoId]) := by
  refine ⟨⟨?_, ?_⟩, ?_, ?_, ?_⟩
  · intro hcreated hsome
    have h := (handleMessageFamily_existing inp env w user memorial hu hm hp hq hids hsome).1
    rw [h] at hcreated
    have hlen := congrArg List.length hcreated
    simp at hlen
  · intro hnone
    exact (handleMessageFamily_creates inp env w user memorial hu hm hp hq ha
      (fun e he hboth => hnone ⟨e, he, hboth⟩)).1
  · exact handleMessageFamily_existing inp env w user memorial hu hm hp hq hids
  · intro hinv calls hcalls
    exact (runCalls_invariant calls w hids hinv hcalls).2
  · intro hnone env2 hq2
    obtain ⟨h1, _⟩ := handleMessageFamily_creates inp env w user memorial hu hm hp hq ha
      (fun e he hboth => hnone ⟨e, he, hboth⟩)
    have hnew : user.uid ∈ participants (newChat user memorial inp.id) ∧
        memorial.postedBy ∈ participants (newChat user memorial inp.id) := by
      rw [participants_newChat]
      simp
    have hex : existingChatId memorial.postedBy
        (chatsOf user.uid (handleMessageFamily inp env w).world.store.chats)
        = some env.autoId := by
      rw [h1]
      have hs : chatsOf user.uid (w.store.chats ++ [(env.autoId, newChat user memorial inp.id)])
          = chatsOf user.uid w.store.chats ++ [(env.autoId, newChat user memorial inp.id)] := by
        unfold chatsOf
        rw [List.filter_append]
        simp [hnew.1]
      rw [hs]
      exact existingChatId_append _ _ (env.autoId, newChat user memorial inp.id) hnew.2
    generalize (handleMessageFamily inp env w).world = w1 at hex ⊢
    unfold handleMessageFamily
    rw [hu, hm]
    simp only [if_neg hp, hq2, World.call, hex, Option.filter, bne_iff_ne, ne_eq, hid,
      not_false_eq_true, decide_True, if_true]
    refine ⟨?_, ?_⟩ <;> first | rfl | trivial

/-- Witness of C14: a visitor of the sample memorial, in a store holding one
chat of the poster with a third user. -/
theorem C14_chat_created_only_when_none_exists_witness :
    ((handleMessageFamily Sample.detailInput Sample.detailEnvOk
          Sample.chatWorld).world.store.chats
        = Sample.chatWorld.store.chats ++
            [(Sample.detailEnvOk.autoId,
              newChat Sample.bob Sample.memorialView Sample.detailInput.id)] ↔
      ¬ ∃ e ∈ Sample.chatWorld.store.chats,
        Sample.bob.uid ∈ participants e.2 ∧
          Sample.memorialView.postedBy ∈ participants e.2) ∧
    (AtMostOnePerPair Sample.chatWorld.store.chats →
      ∀ calls : List (Input × Env), (∀ c ∈ calls, c.2.autoId ≠ "") →
        AtMostOnePerPair (runCalls calls Sample.chatWorld).store.chats) :=
  have h := C14_chat_created_only_when_none_exists Sample.detailInput Sample.detailEnvOk
    Sample.chatWorld Sample.bob Sample.memorialView rfl rfl (by decide) rfl rfl
    (by decide) (by decide)
  ⟨h.1, h.2.2.1⟩

end MemorialDetail

/-! ## Chat -/

theorem lookup_setMessagesEntry (chatId : String) (c : Coll) (l : List (String × Coll)) :
    List.lookup chatId (setMessagesEntry chatId c l) = some c := by
  induction l with
  | nil => simp [setMessagesEntry, List.lookup]
  | cons e rest ih =>
    obtain ⟨k, v⟩ := e
    by_cases h : k = chatId
    · simp [setMessagesEntry, h, List.lookup]
    · have hne : (chatId == k) = false := by
        simpa using fun h2 => h h2.symm
      simp only [setMessagesEntry, h, if_false, List.lookup, hne]
      exact ih

theorem Store.messagesOf_setMessages (s : Store) (chatId : String) (c : Coll) :
    (s.setMessages chatId c).messagesOf chatId = c := by
  unfold Store.messagesOf Store.setMessages
  simp [lookup_setMessagesEntry]

namespace Chat

theorem updateChatDoc_facts (fails : Option String) (chatId : String) (payload : Fields)
    (w : World) :
    (updateChatDoc fails chatId payload w).2.log = w.log ++ [.updateDoc "chats" chatId] ∧
      (updateChatDoc fails chatId payload w).2.store.messages = w.store.messages := by
  unfold updateChatDoc
  cases fails with
  | some msg => exact ⟨rfl, rfl⟩
  | none =>
    simp only [World.call]
    cases w.store.chats.doc chatId <;> exact ⟨rfl, rfl⟩

theorem addNotificationDoc_facts (fails : Option String) (autoId : String) (data : Fields)
    (w : World) :
    (addNotificationDoc fails autoId data w).2.log = w.log ++ [.addDoc "notifications"] ∧
      (addNotificationDoc fails autoId data w).2.store.messages = w.store.messages := by
  unfold addNotificationDoc
  cases fails <;> exact ⟨rfl, rfl⟩

theorem addMessageDoc_facts (fails : Option String) (chatId autoId : String) (data : Fields)
    (w : World) :
    (addMessageDoc fails chatId autoId data w).2.log
        = w.log ++ [Call.addDoc (messagesPath chatId)] ∧
      (fails = none →
        (addMessageDoc fails chatId autoId data w).1 = .ok () ∧
        (addMessageDoc fails chatId autoId data w).2.store.messagesOf chatId
          = w.store.messagesOf chatId ++ [(autoId, data)]) ∧
      (∀ e, fails = some e →
        (addMessageDoc fails chatId autoId data w).1 = .error e ∧
        (addMessageDoc fails chatId autoId data w).2.store = w.store) := by
  unfold addMessageDoc
  cases fails with
  | some msg =>
    refine ⟨rfl, fun h => (by cases h), ?_⟩
    intro e he
    cases he
    exact ⟨rfl, rfl⟩
  | none =>
    refine ⟨rfl, fun _ => ⟨rfl, ?_⟩, fun e he => (by cases he)⟩
    exact Store.messagesOf_setMessages _ _ _

/-- After the message write has succeeded, the rest of `sendMessage` only
appends calls to the log and leaves the messages alone. -/
theorem sendMessage_after_write (user : Upload.AuthUser) (chatId : String) (st : State)
    (env : SendEnv) (text : String) (audioUrl imageUrl : Option String) (w : World)
    (hg : ((jsTrim text == "" && !present audioUrl && !present imageUrl) || st.sending)
      = false) :
    (∃ rest, (sendMessage user chatId st env text audioUrl imageUrl w).world.log
        = w.log ++ Call.addDoc (messagesPath chatId) :: rest) ∧
    (env.addMessageError = none →
      (sendMessage user chatId st env text audioUrl imageUrl w).world.store.messagesOf chatId
        = w.store.messagesOf chatId ++
            [(env.messageId, messageData user text audioUrl imageUrl)]) ∧
    (env.addMessageError ≠ none →
      (sendMessage user chatId st env text audioUrl imageUrl w).world.store = w.store) := by
  unfold sendMessage
  rw [hg]
  simp only [Bool.false_eq_true, if_false]
  obtain ⟨hlog1, hok1, herr1⟩ := addMessageDoc_facts env.addMessageError chatId env.messageId
    (messageData user text audioUrl imageUrl) w
  generalize addMessageDoc env.addMessageError chatId env.messageId
    (messageData user text audioUrl imageUrl) w = r1 at hlog1 hok1 herr1
  obtain ⟨res1, w1⟩ := r1
  simp only at hlog1 hok1 herr1
  cases res1 with
  | error e =>
    have hsome : env.addMessageError ≠ none := by
      intro hnone
      have := (hok1 hnone).1
      cases this
    refine ⟨⟨[], hlog1⟩, fun h => absurd h hsome, fun _ => ?_⟩
    cases hf : env.addMessageError with
    | none => exact absurd hf hsome
    | some e1 => exact (herr1 e1 hf).2
  | ok u1 =>
    have hnone : env.addMessageError = none := by
      cases hf : env.addMessageError with
      | none => rfl
      | some e1 =>
        have := (herr1 e1 hf).1
        cases this
    have hmsg1 := (hok1 hnone).2
    simp only
    obtain ⟨hl2, hm2⟩ := updateChatDoc_facts env.updateChatError chatId
      [("lastMessage", .str (lastMessage text audioUrl imageUrl)),
       ("lastMessageAt", .serverTimestamp)] w1
    generalize updateChatDoc env.updateChatError chatId
      [("lastMessage", .str (lastMessage text audioUrl imageUrl)),
       ("lastMessageAt", .serverTimestamp)] w1 = r2 at hl2 hm2
    obtain ⟨res2, w2⟩ := r2
    simp only at hl2 hm2
    have hmsg2 : w2.store.messagesOf chatId = w1.store.messagesOf chatId := by
      unfold Store.messagesOf
      rw [hm2]
    cases res2 with
    | error e =>
      refine ⟨⟨[.updateDoc "chats" chatId], ?_⟩, fun _ => ?_, fun h => absurd hnone h⟩
      · show w2.log = _
        rw [hl2, hlog1]
        simp
      · show w2.store.messagesOf chatId = _
        rw [hmsg2, hmsg1]
    | ok u =>
      simp only
      cases (recipientUid st.chat user.uid).filter (fun r => r != "") with
      | none =>
        refine ⟨⟨[.updateDoc "chats" chatId], ?_⟩, fun _ => ?_, fun h => absurd hnone h⟩
        · show w2.log = _
          rw [hl2, hlog1]
          simp
        · show w2.store.messagesOf chatId = _
          rw [hmsg2, hmsg1]
      | some recipient =>
        simp only
        obtain ⟨hl3, hm3⟩ := addNotificationDoc_facts env.addNotificationError
          env.notificationId (messageNotification user st.chat chatId recipient) w2
        generalize addNotificationDoc env.addNotificationError env.notificationId
          (messageNotification user st.chat chatId recipient) w2 = r3 at hl3 hm3
        obtain ⟨res3, w3⟩ := r3
        simp only at hl3 hm3
        have hmsg3 : w3.store.messagesOf chatId = w2.store.messagesOf chatId := by
          unfold Store.messagesOf
          rw [hm3]
        have hfin : (∃ rest, w3.log = w.log ++ Call.addDoc (messagesPath chatId) :: rest) ∧
            w3.store.messagesOf chatId = w.store.messagesOf chatId ++
              [(env.messageId, messageData user text audioUrl imageUrl)] := by
          refine ⟨⟨[.updateDoc "chats" chatId, .addDoc "notifications"], ?_⟩, ?_⟩
          · rw [hl3, hl2, hlog1]
            simp
          · rw [hmsg3, hmsg2, hmsg1]
        cases res3 with
        | error e => exact ⟨hfin.1, fun _ => hfin.2, fun h => absurd hnone h⟩
        | ok u3 => exact ⟨hfin.1, fun _ => hfin.2, fun h => absurd hnone h⟩

/-- C15: `sendMessage` issues the write of a message document if and only if
at least one of the text (non-empty after trimming), the audio URL and the
image URL is present and no send is in progress; unless that write is
rejected, exactly this one message is added to the chat, and the message has
status 'sent', an empty readBy, an empty deletedFor, deletedForEveryone false
and senderId equal to the current user's id. -/
theorem C15_message_written_iff_content (user : Upload.AuthUser) (chatId : String)
    (st : State) (env : SendEnv) (text : String) (audioUrl imageUrl : Option String)
    (w : World) :
    (∃ extra, (sendMessage user chatId st env text audioUrl imageUrl w).world.log
        = w.log ++ extra ∧
      (Call.addDoc (messagesPath chatId) ∈ extra ↔
        (jsTrim text ≠ "" ∨ present audioUrl = true ∨ present imageUrl = true) ∧
          st.sending = false)) ∧
    ((jsTrim text ≠ "" ∨ present audioUrl = true ∨ present imageUrl = true) ∧
        st.sending = false ∧ env.addMessageError = none →
      (sendMessage user chatId st env text audioUrl imageUrl w).world.store.messagesOf chatId
        = w.store.messagesOf chatId ++
            [(env.messageId, messageData user text audioUrl imageUrl)]) ∧
    (¬ ((jsTrim text ≠ "" ∨ present audioUrl = true ∨ present imageUrl = true) ∧
        st.sending = false ∧ env.addMessageError = none) →
      (sendMessage user chatId st env text audioUrl imageUrl w).world.store = w.store) ∧
    (getField (messageData user text audioUrl imageUrl) "status" = some (.str "sent") ∧
      getField (messageData user text audioUrl imageUrl) "readBy" = some (.strs []) ∧
      getField (messageData user text audioUrl imageUrl) "deletedFor" = some (.strs []) ∧
      getField (messageData user text audioUrl imageUrl) "deletedForEveryone"
        = some (.bool false) ∧
      getField (messageData user text audioUrl imageUrl) "senderId"
        = some (.str user.uid)) := by
  have hcond : ((jsTrim text == "" && !present audioUrl && !present imageUrl) || st.sending)
      = false ↔
      (jsTrim text ≠ "" ∨ present audioUrl = true ∨ present imageUrl = true) ∧
        st.sending = false := by
    cases h1 : (jsTrim text == "") <;> cases present audioUrl <;> cases present imageUrl <;>
      cases st.sending <;> simp_all
  refine ⟨?_, ?_, ?_, ⟨by rfl, by rfl, by rfl, by rfl, by rfl⟩⟩
  · by_cases hg : ((jsTrim text == "" && !present audioUrl && !present imageUrl)
        || st.sending) = false
    · obtain ⟨⟨rest, hrest⟩, _, _⟩ :=
        sendMessage_after_write user chatId st env text audioUrl imageUrl w hg
      refine ⟨Call.addDoc (messagesPath chatId) :: rest, hrest, ?_⟩
      constructor
      · intro _
        exact hcond.mp hg
      · intro _
        exact List.mem_cons_self _ _
    · refine ⟨[], ?_, ?_⟩
      · have hg2 : ((jsTrim text == "" && !present audioUrl && !present imageUrl)
            || st.sending) = true := by
          generalize ((jsTrim text == "" && !present audioUrl && !present imageUrl)
            || st.sending) = b at hg
          cases b
          · exact absurd rfl hg
          · rfl
        unfold sendMessage
        rw [hg2]
        simp
      · constructor
        · intro h
          simp at h
        · intro h
          exact absurd (hcond.mpr h) hg
  · rintro ⟨h1, h2, h3⟩
    exact (sendMessage_after_write user chatId st env text audioUrl imageUrl w
      (hcond.mpr ⟨h1, h2⟩)).2.1 h3
  · intro hn
    by_cases hg : ((jsTrim text == "" && !present audioUrl && !present imageUrl)
        || st.sending) = false
    · have hc := hcond.mp hg
      have he : env.addMessageError ≠ none := fun h => hn ⟨hc.1, hc.2, h⟩
      exact (sendMessage_after_write user chatId st env text audioUrl imageUrl w hg).2.2 he
    · have hg2 : ((jsTrim text == "" && !present audioUrl && !present imageUrl)
          || st.sending) = true := by
          generalize ((jsTrim text == "" && !present audioUrl && !present imageUrl)
            || st.sending) = b at hg
          cases b
          · exact absurd rfl hg
          · rfl
      unfold sendMessage
      rw [hg2]
      simp

theorem lookup_eq_none_of_not_mem (k : String) (l : Coll) (h : k ∉ l.map Prod.fst) :
    List.lookup k l = none := by
  induction l with
  | nil => rfl
  | cons x rest ih =>
    obtain ⟨i, d⟩ := x
    simp only [List.map_cons, List.mem_cons, not_or] at h
    have hne : (k == i) = false := by simpa using h.1
    simp only [List.lookup, hne]
    exact ih h.2

theorem lookup_filterMap_of_nodup (f : String × Fields → Option (String × Fields))
    (hkey : ∀ e p, f e = some p → p.1 = e.1) (l : Coll) (hnd : (l.map Prod.fst).Nodup) :
    ∀ e ∈ l, List.lookup e.1 (l.filterMap f) = (f e).map Prod.snd := by
  induction l with
  | nil => intro e he; simp at he
  | cons x rest ih =>
    simp only [List.map_cons, List.nodup_cons] at hnd
    obtain ⟨hx, hrest⟩ := hnd
    have hkeys : ∀ k, k ∉ rest.map Prod.fst → k ∉ (rest.filterMap f).map Prod.fst := by
      intro k hk hmem
      obtain ⟨p, hp, hpk⟩ := List.mem_map.mp hmem
      obtain ⟨e0, he0, hfe⟩ := List.mem_filterMap.mp hp
      apply hk
      rw [← hpk, hkey e0 p hfe]
      exact List.mem_map_of_mem _ he0
    intro e he
    rcases List.mem_cons.mp he with he | he
    · subst he
      cases hf : f e with
      | none =>
        rw [List.filterMap_cons_none hf]
        simp only [Option.map_none']
        exact lookup_eq_none_of_not_mem _ _ (hkeys _ hx)
      | some p =>
        rw [List.filterMap_cons_some hf]
        have hp := hkey e p hf
        obtain ⟨p1, p2⟩ := p
        simp only at hp
        subst hp
        simp [List.lookup]
    · have hne : e.1 ≠ x.1 := by
        intro heq
        apply hx
        rw [← heq]
        exact List.mem_map_of_mem _ he
      cases hf : f x with
      | none =>
        rw [List.filterMap_cons_none hf]
        exact ih hrest e he
      | some p =>
        rw [List.filterMap_cons_some hf]
        have hp := hkey x p hf
        obtain ⟨p1, p2⟩ := p
        simp only at hp
        have hne2 : (e.1 == p1) = false := by
          rw [hp]
          simpa using hne
        simp only [List.lookup, hne2]
        exact ih hrest e he

theorem readBy_applyUpdate (uid : String) (d : Fields) :
    readBy (applyUpdate (readPayload uid d) d) = readBy d ++ [uid] ∧
      getField (applyUpdate (readPayload uid d) d) "status" = some (.str "read") ∧
      senderIsNot uid (applyUpdate (readPayload uid d) d) = senderIsNot uid d := by
  have h1 : getField (applyUpdate (readPayload uid d) d) "readBy"
      = some (.strs (readBy d ++ [uid])) := by
    show getField (setField "status" _ (setField "readBy" _ d)) "readBy" = _
    rw [getField_setField_other _ _ _ _ (by decide), getField_setField_same]
  have h2 : getField (applyUpdate (readPayload uid d) d) "status" = some (.str "read") := by
    show getField (setField "status" _ (setField "readBy" _ d)) "status" = _
    rw [getField_setField_same]
  have h3 : getField (applyUpdate (readPayload uid d) d) "senderId" = getField d "senderId" := by
    show getField (setField "status" _ (setField "readBy" _ d)) "senderId" = _
    rw [getField_setField_other _ _ _ _ (by decide),
      getField_setField_other _ _ _ _ (by decide)]
  refine ⟨?_, h2, ?_⟩
  · generalize readBy d ++ [uid] = l at h1 ⊢
    unfold readBy
    rw [h1]
  · unfold senderIsNot
    rw [h3]

/-- The updates queued by `markAsRead` for the messages of a chat. -/
theorem readUpdates_filter (uid : String) (msgs : Coll) :
    readUpdates uid (msgs.filter (fun e => senderIsNot uid e.2))
      = msgs.filterMap (fun e =>
          if senderIsNot uid e.2 = true then
            (if uid ∈ readBy e.2 then none else some (e.1, readPayload uid e.2))
          else none) := by
  unfold readUpdates
  rw [List.filterMap_filter]

theorem lookup_readUpdates (uid : String) (msgs : Coll)
    (hids : (msgs.map Prod.fst).Nodup) (e : String × Fields) (he : e ∈ msgs) :
    (match List.lookup e.1 (readUpdates uid (msgs.filter (fun e => senderIsNot uid e.2))) with
      | some payload => (e.1, applyUpdate payload e.2)
      | none => e) = markedFor uid e := by
  rw [readUpdates_filter, lookup_filterMap_of_nodup _ _ msgs hids e he]
  · unfold markedFor
    by_cases h1 : senderIsNot uid e.2 = true
    · by_cases h2 : uid ∈ readBy e.2
      · simp [h1, h2]
      · simp [h1, h2]
    · simp [h1]
  · intro x p hx
    by_cases h1 : senderIsNot uid x.2 = true
    · by_cases h2 : uid ∈ readBy x.2
      · simp [h1, h2] at hx
      · simp only [h1, h2, if_true, if_false, Option.some.injEq] at hx
        rw [← hx]
    · simp [h1] at hx

/-- The messages of the chat after a run of `markAsRead` in which neither
call is rejected. -/
theorem markAsRead_messages (user : Upload.AuthUser) (chatId : String)
    (messages : List (String × Fields)) (env : ReadEnv) (w : World)
    (hmsgs : messages ≠ []) (hq : env.getDocsError = none) (hc : env.commitError = none)
    (hids : ((w.store.messagesOf chatId).map Prod.fst).Nodup) :
    (markAsRead (some user) chatId messages env w).store.messagesOf chatId
      = (w.store.messagesOf chatId).map (markedFor user.uid) := by
  have hmap : (w.store.messagesOf chatId).map (fun e =>
      match List.lookup e.1 (readUpdates user.uid
        ((w.store.messagesOf chatId).filter (fun e => senderIsNot user.uid e.2))) with
      | some payload => (e.1, applyUpdate payload e.2)
      | none => e) = (w.store.messagesOf chatId).map (markedFor user.uid) := by
    apply List.map_congr_left
    intro e he
    exact lookup_readUpdates user.uid _ hids e he
  have hne : messages.isEmpty = false := by
    cases messages with
    | nil => exact absurd rfl hmsgs
    | cons _ _ => rfl
  unfold markAsRead
  simp only [hne, hq, World.call, Bool.false_eq_true, if_false]
  split
  · rename_i hempty
    rw [← hmap]
    have hnil := List.isEmpty_iff.mp hempty
    rw [hnil]
    simp
  · unfold commitUpdates
    simp only [hc, World.call]
    rw [Store.messagesOf_setMessages]
    exact hmap

theorem markedFor_read (uid : String) (e : String × Fields)
    (hinv : uid ∈ readBy e.2 → getField e.2 "status" = some (.str "read"))
    (hs : senderIsNot uid (markedFor uid e).2 = true) :
    uid ∈ readBy (markedFor uid e).2 ∧
      getField (markedFor uid e).2 "status" = some (.str "read") := by
  unfold markedFor at hs ⊢
  by_cases h : senderIsNot uid e.2 = true ∧ uid ∉ readBy e.2
  · rw [if_pos h]
    obtain ⟨h1, h2, _⟩ := readBy_applyUpdate uid e.2
    refine ⟨?_, h2⟩
    show uid ∈ readBy (applyUpdate (readPayload uid e.2) e.2)
    rw [h1]
    simp
  · rw [if_neg h] at hs ⊢
    have hin : uid ∈ readBy e.2 := by
      by_contra hnot
      exact h ⟨hs, hnot⟩
    exact ⟨hin, hinv hin⟩

theorem markedFor_count (uid : String) (e : String × Fields)
    (h : (readBy e.2).count uid ≤ 1) : (readBy (markedFor uid e).2).count uid ≤ 1 := by
  unfold markedFor
  by_cases hc : senderIsNot uid e.2 = true ∧ uid ∉ readBy e.2
  · rw [if_pos hc]
    show (readBy (applyUpdate (readPayload uid e.2) e.2)).count uid ≤ 1
    rw [(readBy_applyUpdate uid e.2).1, List.count_append,
      List.count_eq_zero_of_not_mem hc.2]
    simp
  · rw [if_neg hc]
    exact h

/-- A run of `markAsRead` on messages that are all read, or the reader's own,
queues no update and leaves the store unchanged. -/
theorem markAsRead_nothing_to_do (currentUser : Option Upload.AuthUser) (chatId : String)
    (messages : List (String × Fields)) (env : ReadEnv) (w : World)
    (hall : ∀ user, currentUser = some user → ∀ e ∈ w.store.messagesOf chatId,
      senderIsNot user.uid e.2 = true → user.uid ∈ readBy e.2) :
    (markAsRead currentUser chatId messages env w).store = w.store := by
  unfold markAsRead
  cases hu : currentUser with
  | none => rfl
  | some user =>
    simp only
    split
    · rfl
    · cases env.getDocsError with
      | some e => rfl
      | none =>
        simp only [World.call]
        have hnil : readUpdates user.uid
            ((w.store.messagesOf chatId).filter (fun e => senderIsNot user.uid e.2)) = [] := by
          unfold readUpdates
          apply List.filterMap_eq_nil_iff.mpr
          intro e he
          obtain ⟨he1, he2⟩ := List.mem_filter.mp he
          simp [hall user hu e he1 he2]
        rw [hnil]
        rfl

/-- C16: for a signed-in reader with the chat open, when neither call of
`markAsRead` is rejected, every message authored by somebody else ends with the
reader's id in readBy and status 'read'; messages that already contained the
reader's id and the reader's own messages are left unchanged; a second run
changes nothing, and the reader's id is never added twice.  Message ids are
distinct, and a stored message that lists the reader already has status 'read',
as every message written by the application has. -/
theorem C16_markAsRead_marks_and_is_idempotent (user : Upload.AuthUser) (chatId : String)
    (messages : List (String × Fields)) (env : ReadEnv) (w : World)
    (hmsgs : messages ≠ []) (hq : env.getDocsError = none) (hc : env.commitError = none)
    (hids : ((w.store.messagesOf chatId).map Prod.fst).Nodup)
    (hinv : ∀ e ∈ w.store.messagesOf chatId,
      user.uid ∈ readBy e.2 → getField e.2 "status" = some (.str "read")) :
    (∀ e ∈ (markAsRead (some user) chatId messages env w).store.messagesOf chatId,
      senderIsNot user.uid e.2 = true →
        user.uid ∈ readBy e.2 ∧ getField e.2 "status" = some (.str "read")) ∧
    ((markAsRead (some user) chatId messages env w).store.messagesOf chatId
      = (w.store.messagesOf chatId).map (markedFor user.uid)) ∧
    (∀ e ∈ w.store.messagesOf chatId,
      (user.uid ∈ readBy e.2 ∨ senderIsNot user.uid e.2 = false) →
        markedFor user.uid e = e) ∧
    (∀ (messages2 : List (String × Fields)) (env2 : ReadEnv),
      (markAsRead (some user) chatId messages2 env2
          (markAsRead (some user) chatId messages env w)).store
        = (markAsRead (some user) chatId messages env w).store) ∧
    ((∀ e ∈ w.store.messagesOf chatId, (readBy e.2).count user.uid ≤ 1) →
      ∀ e ∈ (markAsRead (some user) chatId messages env w).store.messagesOf chatId,
        (readBy e.2).count user.uid ≤ 1) := by
  have hm := markAsRead_messages user chatId messages env w hmsgs hq hc hids
  have hread : ∀ e ∈ (markAsRead (some user) chatId messages env w).store.messagesOf chatId,
      senderIsNot user.uid e.2 = true →
        user.uid ∈ readBy e.2 ∧ getField e.2 "status" = some (.str "read") := by
    intro e he hs
    rw [hm] at he
    obtain ⟨e0, he0, rfl⟩ := List.mem_map.mp he
    exact markedFor_read user.uid e0 (hinv e0 he0) hs
  refine ⟨hread, hm, ?_, ?_, ?_⟩
  · intro e _ h
    unfold markedFor
    rw [if_neg]
    rintro ⟨h1, h2⟩
    rcases h with h | h
    · exact h2 h
    · rw [h] at h1
      cases h1
  · intro messages2 env2
    apply markAsRead_nothing_to_do
    intro u hu e he hs
    cases hu
    exact (hread e he hs).1
  · intro hcount e he
    rw [hm] at he
    obtain ⟨e0, he0, rfl⟩ := List.mem_map.mp he
    exact markedFor_count user.uid e0 (hcount e0 he0)

/-- Witness of C16: the visitor opens the sample chat. -/
theorem C16_markAsRead_marks_and_is_idempotent_witness :
    (∀ e ∈ (markAsRead (some Sample.bob) "c1" (snapshotMessages Sample.messageWorld.store "c1")
          Sample.readEnvOk Sample.messageWorld).store.messagesOf "c1",
      senderIsNot Sample.bob.uid e.2 = true →
        Sample.bob.uid ∈ readBy e.2 ∧ getField e.2 "status" = some (.str "read")) ∧
    ((markAsRead (some Sample.bob) "c1" (snapshotMessages Sample.messageWorld.store "c1")
          Sample.readEnvOk Sample.messageWorld).store.messagesOf "c1"
      = (Sample.messageWorld.store.messagesOf "c1").map (markedFor Sample.bob.uid)) :=
  have h := C16_markAsRead_marks_and_is_idempotent Sample.bob "c1"
    (snapshotMessages Sample.messageWorld.store "c1") Sample.readEnvOk Sample.messageWorld
    (by decide) rfl rfl (by decide) (by decide)
  ⟨h.1, h.2.1⟩

/-- The calls of `markAsRead`: the query and, when there is anything to
update, one single commit holding every update. -/
theorem markAsRead_log (user : Upload.AuthUser) (chatId : String)
    (messages : List (String × Fields)) (env : ReadEnv) (w : World)
    (hmsgs : messages ≠ []) (hq : env.getDocsError = none) :
    (markAsRead (some user) chatId messages env w).log
      = w.log ++ Call.getDocs (messagesPath chatId) ::
          (if (readUpdates user.uid ((w.store.messagesOf chatId).filter
                (fun e => senderIsNot user.uid e.2))).isEmpty then []
           else [Call.commit (readUpdates user.uid ((w.store.messagesOf chatId).filter
                (fun e => senderIsNot user.uid e.2))).length]) := by
  have hne : messages.isEmpty = false := by
    cases messages with
    | nil => exact absurd rfl hmsgs
    | cons _ _ => rfl
  unfold markAsRead
  simp only [hne, hq, World.call, Bool.false_eq_true, if_false]
  split
  · rfl
  · unfold commitUpdates
    simp only [World.call]
    cases env.commitError <;> simp

theorem readUpdates_unreadMessages (l : List Nat) :
    (readUpdates "bob"
      ((l.map (fun i => ("u" ++ toString i, Sample.messageFromAlice))).filter
        (fun e => senderIsNot "bob" e.2))).length = l.length := by
  induction l with
  | nil => rfl
  | cons i rest ih =>
    have h1 : senderIsNot "bob" Sample.messageFromAlice = true := by rfl
    have h2 : "bob" ∉ readBy Sample.messageFromAlice := by decide
    simp only [List.map_cons, List.filter_cons, h1, if_true, readUpdates,
      List.filterMap_cons, h2, if_false, List.length_cons] at ih ⊢
    rw [ih]

/-- C17, the code at a failing input: with 501 unread messages from the other
participant, `markAsRead` queues all 501 updates in one batch and commits it
once; the updates are not split into batches of at most 500. -/
theorem C17_markAsRead_commits_one_batch_of_501 :
    (Sample.manyUnreadWorld.store.messagesOf "c1").length = 501 ∧
      (markAsRead (some Sample.bob) "c1" (snapshotMessages Sample.manyUnreadWorld.store "c1")
          Sample.readEnvOk Sample.manyUnreadWorld).log
        = [Call.getDocs (messagesPath "c1"), Call.commit 501] := by
  have hmsgs : Sample.manyUnreadWorld.store.messagesOf "c1" = Sample.unreadMessages 501 := by
    simp [Store.messagesOf, Sample.manyUnreadWorld, List.lookup]
  have hlen : (readUpdates Sample.bob.uid ((Sample.manyUnreadWorld.store.messagesOf "c1").filter
      (fun e => senderIsNot Sample.bob.uid e.2))).length = 501 := by
    rw [hmsgs]
    have h := readUpdates_unreadMessages (List.range 501)
    rw [List.length_range] at h
    exact h
  constructor
  · rw [hmsgs]
    simp [Sample.unreadMessages]
  · rw [markAsRead_log Sample.bob "c1" _ Sample.readEnvOk Sample.manyUnreadWorld
      (by
        show Sample.manyUnreadWorld.store.messagesOf "c1" ≠ []
        intro h
        have := congrArg List.length h
        rw [hmsgs] at this
        simp [Sample.unreadMessages] at this) rfl]
    have hne : (readUpdates Sample.bob.uid ((Sample.manyUnreadWorld.store.messagesOf "c1").filter
        (fun e => senderIsNot Sample.bob.uid e.2))).isEmpty = false := by
      cases hl : readUpdates Sample.bob.uid
          ((Sample.manyUnreadWorld.store.messagesOf "c1").filter
            (fun e => senderIsNot Sample.bob.uid e.2)) with
      | nil =>
        rw [hl] at hlen
        simp at hlen
      | cons _ _ => rfl
    rw [hne, hlen]
    rfl

/-! ### Deleting messages -/

theorem updateMessageDoc_ok (chatId msgId : String) (change : Fields → Fields) (w : World)
    (d0 : Fields) (hd : (w.store.messagesOf chatId).doc msgId = some d0) :
    updateMessageDoc none chatId msgId change w =
      (.ok (), { store := w.store.setMessages chatId
                   ((w.store.messagesOf chatId).modify msgId change),
                 log := w.log ++ [.updateDoc (messagesPath chatId) msgId] }) := by
  unfold updateMessageDoc
  simp only [World.call, hd]

/-- The messages after an update of one message: unchanged, or changed in the
document with the given id. -/
theorem updateMessageDoc_messages (fails : Option String) (chatId msgId : String)
    (change : Fields → Fields) (w : World) :
    (updateMessageDoc fails chatId msgId change w).2.store.messagesOf chatId
        = w.store.messagesOf chatId ∨
    (updateMessageDoc fails chatId msgId change w).2.store.messagesOf chatId
        = (w.store.messagesOf chatId).modify msgId change := by
  unfold updateMessageDoc
  cases fails with
  | some e => exact Or.inl rfl
  | none =>
    simp only [World.call]
    cases (w.store.messagesOf chatId).doc msgId with
    | none => exact Or.inl rfl
    | some d0 =>
      right
      exact Store.messagesOf_setMessages _ _ _

theorem handleDeleteForMe_messages (user : Upload.AuthUser) (chatId msgId : String)
    (fails : Option String) (w : World) :
    (handleDeleteForMe user chatId msgId fails w).world.store.messagesOf chatId
        = w.store.messagesOf chatId ∨
    (handleDeleteForMe user chatId msgId fails w).world.store.messagesOf chatId
        = (w.store.messagesOf chatId).modify msgId (deleteForMeChange user.uid) := by
  have h := updateMessageDoc_messages fails chatId msgId (deleteForMeChange user.uid) w
  unfold handleDeleteForMe
  generalize updateMessageDoc fails chatId msgId (deleteForMeChange user.uid) w = r at h
  obtain ⟨res, w1⟩ := r
  cases res <;> exact h

theorem setField_filter_other (k : String) (v : Value) (d : Fields) :
    (setField k v d).filter (fun f => f.1 != k) = d.filter (fun f => f.1 != k) := by
  induction d with
  | nil => simp [setField]
  | cons e rest ih =>
    obtain ⟨k0, v0⟩ := e
    by_cases h : k0 = k
    · simp [setField, h]
    · simp only [setField, h, if_false, List.filter_cons]
      rw [ih]

theorem deletedFor_change (x : String) (d : Fields) :
    deletedFor (deleteForMeChange x d) = arrayUnion (deletedFor d) x := by
  have h : getField (deleteForMeChange x d) "deletedFor"
      = some (.strs (arrayUnion (deletedFor d) x)) := getField_setField_same _ _ _
  generalize arrayUnion (deletedFor d) x = l at h ⊢
  unfold deletedFor
  rw [h]

theorem getField_change (x : String) (d : Fields) (k : String) (hk : k ≠ "deletedFor") :
    getField (deleteForMeChange x d) k = getField d k :=
  getField_setField_other _ _ _ _ hk

theorem renderMessage_change (x y : String) (e : String × Fields) :
    renderMessage y (e.1, deleteForMeChange x e.2) = renderMessage y e := by
  unfold renderMessage shown readBy
  simp only [getField_change x e.2 _ (by decide : "senderId" ≠ "deletedFor"),
    getField_change x e.2 _ (by decide : "deletedForEveryone" ≠ "deletedFor"),
    getField_change x e.2 _ (by decide : "senderName" ≠ "deletedFor"),
    getField_change x e.2 _ (by decide : "imageUrl" ≠ "deletedFor"),
    getField_change x e.2 _ (by decide : "text" ≠ "deletedFor"),
    getField_change x e.2 _ (by decide : "audioUrl" ≠ "deletedFor"),
    getField_change x e.2 _ (by decide : "createdAt" ≠ "deletedFor"),
    getField_change x e.2 _ (by decide : "status" ≠ "deletedFor"),
    getField_change x e.2 _ (by decide : "readBy" ≠ "deletedFor")]

theorem mem_arrayUnion (l : List String) (x y : String) :
    y ∈ arrayUnion l x ↔ y ∈ l ∨ y = x := by
  unfold arrayUnion
  by_cases h : x ∈ l
  · rw [if_pos h]
    constructor
    · exact Or.inl
    · rintro (h1 | h1)
      · exact h1
      · rw [h1]; exact h
  · rw [if_neg h]
    simp

/-- What another user sees is the same for a message before and after a
"delete for me". -/
theorem visibleMessages_modify (x y msgId : String) (hxy : x ≠ y)
    (msgs : List (String × Fields)) :
    visibleMessages y (Coll.modify msgs msgId (deleteForMeChange x))
      = (visibleMessages y msgs).map
          (fun e => if e.1 = msgId then (e.1, deleteForMeChange x e.2) else e) := by
  unfold visibleMessages Coll.modify
  rw [List.filter_map]
  congr 1
  apply List.filter_congr
  intro e _
  simp only [Function.comp]
  by_cases h : e.1 = msgId
  · simp only [h, if_true, deletedFor_change, mem_arrayUnion]
    have : ¬ y = x := fun hh => hxy hh.symm
    simp [this]
  · simp only [h, if_false]

/-- C19: a "delete for me" by user X never affects what another user Y sees:
the messages visible to Y, what the page shows for each of them and all their
fields other than `deletedFor` are the same before and after
`handleDeleteForMe` performed by X; when the update succeeds, the message is
no longer in X's visible list and is still stored. -/
theorem C19_delete_for_me_is_private (x : Upload.AuthUser) (y : String)
    (chatId msgId : String) (fails : Option String) (w : World) (hxy : x.uid ≠ y) :
    ((visibleMessages y (snapshotMessages
          (handleDeleteForMe x chatId msgId fails w).world.store chatId)).map (renderMessage y)
      = (visibleMessages y (snapshotMessages w.store chatId)).map (renderMessage y)) ∧
    ((visibleMessages y (snapshotMessages
          (handleDeleteForMe x chatId msgId fails w).world.store chatId)).map
        (fun m => (m.1, m.2.filter (fun f => f.1 != "deletedFor")))
      = (visibleMessages y (snapshotMessages w.store chatId)).map
        (fun m => (m.1, m.2.filter (fun f => f.1 != "deletedFor")))) ∧
    (fails = none → ∀ d0, (w.store.messagesOf chatId).doc msgId = some d0 →
      (∀ m ∈ visibleMessages x.uid (snapshotMessages
          (handleDeleteForMe x chatId msgId fails w).world.store chatId), m.1 ≠ msgId) ∧
      (∃ d1, ((handleDeleteForMe x chatId msgId fails w).world.store.messagesOf chatId).doc
          msgId = some d1) ∧
      ((handleDeleteForMe x chatId msgId fails w).world.store.messagesOf chatId).map Prod.fst
        = (w.store.messagesOf chatId).map Prod.fst) := by
  unfold snapshotMessages
  refine ⟨?_, ?_, ?_⟩
  · rcases handleDeleteForMe_messages x chatId msgId fails w with h | h
    · rw [h]
    · rw [h, visibleMessages_modify x.uid y msgId hxy, List.map_map]
      apply List.map_congr_left
      intro e _
      simp only [Function.comp]
      by_cases he : e.1 = msgId
      · rw [if_pos he]
        exact renderMessage_change x.uid y e
      · rw [if_neg he]
  · rcases handleDeleteForMe_messages x chatId msgId fails w with h | h
    · rw [h]
    · rw [h, visibleMessages_modify x.uid y msgId hxy, List.map_map]
      apply List.map_congr_left
      intro e _
      simp only [Function.comp]
      by_cases he : e.1 = msgId
      · rw [if_pos he]
        simp only [deleteForMeChange, setField_filter_other]
      · rw [if_neg he]
  · intro hf d0 hd0
    have hafter : (handleDeleteForMe x chatId msgId fails w).world.store.messagesOf chatId
        = (w.store.messagesOf chatId).modify msgId (deleteForMeChange x.uid) := by
      unfold handleDeleteForMe
      rw [hf, updateMessageDoc_ok chatId msgId _ w d0 hd0]
      exact Store.messagesOf_setMessages _ _ _
    rw [hafter]
    refine ⟨?_, ?_, ?_⟩
    · intro m hm hid
      unfold visibleMessages Coll.modify at hm
      obtain ⟨hm1, hm2⟩ := List.mem_filter.mp hm
      obtain ⟨e, _, he⟩ := List.mem_map.mp hm1
      by_cases hcase : e.1 = msgId
      · rw [if_pos hcase] at he
        rw [← he] at hm2
        simp only [deletedFor_change, mem_arrayUnion, or_true, decide_True, Bool.not_true,
          Bool.false_eq_true] at hm2
      · rw [if_neg hcase] at he
        rw [← he] at hid
        exact hcase hid
    · rw [Coll.doc_modify, hd0]
      exact ⟨_, rfl⟩
    · unfold Coll.modify
      rw [List.map_map]
      apply List.map_congr_left
      intro e _
      simp only [Function.comp]
      split <;> rfl

/-- Witness of C19: the visitor deletes for himself the poster's message. -/
theorem C19_delete_for_me_is_private_witness :
    (visibleMessages "alice" (snapshotMessages
          (handleDeleteForMe Sample.bob "c1" "x2" none Sample.messageWorld).world.store
          "c1")).map (renderMessage "alice")
      = (visibleMessages "alice" (snapshotMessages Sample.messageWorld.store "c1")).map
          (renderMessage "alice") :=
  (C19_delete_for_me_is_private Sample.bob "alice" "c1" "x2" none Sample.messageWorld
    (by decide)).1

theorem getField_deleteForEveryone_other (d : Fields) (k : String)
    (hk : k ∉ ["deletedForEveryone", "text", "imageUrl", "audioUrl"]) :
    getField (applyUpdate deleteForEveryonePayload d) k = getField d k := by
  apply getField_applyUpdate_other
  intro e he hke
  apply hk
  have : e.1 ∈ deleteForEveryonePayload.map Prod.fst := List.mem_map_of_mem _ he
  rw [hke]
  exact this

/-- C20: when the update of `handleDeleteForEveryone` succeeds, the message
has deletedForEveryone true, text equal to the empty string, and imageUrl and
audioUrl null, while its senderId, createdAt, status, readBy and deletedFor
are unchanged and no document is removed; every viewer, the sender included,
is shown the tombstone instead of the content, without ticks. -/
theorem C20_delete_for_everyone_leaves_tombstone (chatId msgId : String) (w : World)
    (d0 : Fields) (hd : (w.store.messagesOf chatId).doc msgId = some d0) :
    ∃ d1, ((handleDeleteForEveryone chatId msgId none w).world.store.messagesOf chatId).doc
        msgId = some d1 ∧
      getField d1 "deletedForEveryone" = some (.bool true) ∧
      getField d1 "text" = some (.str "") ∧
      getField d1 "imageUrl" = some .null ∧
      getField d1 "audioUrl" = some .null ∧
      getField d1 "senderId" = getField d0 "senderId" ∧
      getField d1 "createdAt" = getField d0 "createdAt" ∧
      getField d1 "status" = getField d0 "status" ∧
      getField d1 "readBy" = getField d0 "readBy" ∧
      getField d1 "deletedFor" = getField d0 "deletedFor" ∧
      ((handleDeleteForEveryone chatId msgId none w).world.store.messagesOf chatId).map Prod.fst
        = (w.store.messagesOf chatId).map Prod.fst ∧
      (∀ viewer : String, (renderMessage viewer (msgId, d1)).body = .tombstone ∧
        (renderMessage viewer (msgId, d1)).ticks = none) := by
  have hafter : (handleDeleteForEveryone chatId msgId none w).world.store.messagesOf chatId
      = (w.store.messagesOf chatId).modify msgId (applyUpdate deleteForEveryonePayload) := by
    unfold handleDeleteForEveryone
    rw [updateMessageDoc_ok chatId msgId _ w d0 hd]
    exact Store.messagesOf_setMessages _ _ _
  have hflag : getField (applyUpdate deleteForEveryonePayload d0) "deletedForEveryone"
      = some (.bool true) := by
    show getField (setField "audioUrl" _ (setField "imageUrl" _ (setField "text" _
      (setField "deletedForEveryone" _ d0)))) "deletedForEveryone" = _
    rw [getField_setField_other _ _ _ _ (by decide), getField_setField_other _ _ _ _ (by decide),
      getField_setField_other _ _ _ _ (by decide), getField_setField_same]
  refine ⟨applyUpdate deleteForEveryonePayload d0, ?_, hflag, ?_, ?_, ?_,
    getField_deleteForEveryone_other d0 _ (by decide),
    getField_deleteForEveryone_other d0 _ (by decide),
    getField_deleteForEveryone_other d0 _ (by decide),
    getField_deleteForEveryone_other d0 _ (by decide),
    getField_deleteForEveryone_other d0 _ (by decide), ?_, ?_⟩
  · rw [hafter, Coll.doc_modify, hd]
    simp
  · show getField (setField "audioUrl" _ (setField "imageUrl" _ (setField "text" _
      (setField "deletedForEveryone" _ d0)))) "text" = _
    rw [getField_setField_other _ _ _ _ (by decide), getField_setField_other _ _ _ _ (by decide),
      getField_setField_same]
  · show getField (setField "audioUrl" _ (setField "imageUrl" _ (setField "text" _
      (setField "deletedForEveryone" _ d0)))) "imageUrl" = _
    rw [getField_setField_other _ _ _ _ (by decide), getField_setField_same]
  · show getField (setField "audioUrl" _ (setField "imageUrl" _ (setField "text" _
      (setField "deletedForEveryone" _ d0)))) "audioUrl" = _
    rw [getField_setField_same]
  · rw [hafter]
    unfold Coll.modify
    rw [List.map_map]
    apply List.map_congr_left
    intro e _
    simp only [Function.comp]
    split <;> rfl
  · intro viewer
    unfold renderMessage
    simp only [hflag]
    simp

/-- Witness of C20: the visitor deletes his own message for everyone. -/
theorem C20_delete_for_everyone_leaves_tombstone_witness :
    ∃ d1, ((handleDeleteForEveryone "c1" "x1" none
          Sample.messageWorld).world.store.messagesOf "c1").doc "x1" = some d1 ∧
      getField d1 "deletedForEveryone" = some (.bool true) ∧
      getField d1 "text" = some (.str "") ∧
      getField d1 "imageUrl" = some .null ∧
      getField d1 "audioUrl" = some .null ∧
      getField d1 "senderId" = getField Sample.messageFromBob "senderId" ∧
      getField d1 "createdAt" = getField Sample.messageFromBob "createdAt" ∧
      getField d1 "status" = getField Sample.messageFromBob "status" ∧
      getField d1 "readBy" = getField Sample.messageFromBob "readBy" ∧
      getField d1 "deletedFor" = getField Sample.messageFromBob "deletedFor" ∧
      ((handleDeleteForEveryone "c1" "x1" none
          Sample.messageWorld).world.store.messagesOf "c1").map Prod.fst
        = (Sample.messageWorld.store.messagesOf "c1").map Prod.fst ∧
      (∀ viewer : String, (renderMessage viewer ("x1", d1)).body = .tombstone ∧
        (renderMessage viewer ("x1", d1)).ticks = none) :=
  C20_delete_for_everyone_leaves_tombstone "c1" "x1" Sample.messageWorld
    Sample.messageFromBob (by rfl)

end Chat

/-! ## Bulk deletion -/

theorem Store.coll_setColl (s : Store) (name : String) (c : Coll)
    (hname : name = "users" ∨ name = "memorials" ∨ name = "notifications" ∨ name = "chats") :
    (s.setColl name c).coll name = c := by
  rcases hname with h | h | h | h <;> subst h <;> simp [Store.coll, Store.setColl]

theorem Coll.deleteIds_deleteIds (c : Coll) (a b : List String) :
    (c.deleteIds a).deleteIds b = c.deleteIds (a ++ b) := by
  unfold Coll.deleteIds
  rw [List.filter_filter]
  congr 1
  funext e
  by_cases h1 : e.1 ∈ a <;> by_cases h2 : e.1 ∈ b <;> simp [h1, h2]

theorem Coll.deleteIds_nil (c : Coll) : c.deleteIds [] = c := by
  unfold Coll.deleteIds
  simp

theorem Coll.deleteIds_self (c : Coll) : c.deleteIds (c.map Prod.fst) = [] := by
  unfold Coll.deleteIds
  apply List.filter_eq_nil_iff.mpr
  intro e he
  simp only [Bool.not_eq_true', decide_eq_false_iff_not, not_not, Bool.not_eq_true,
    Bool.not_eq_false']
  simpa using List.mem_map_of_mem Prod.fst he

namespace BulkDelete

/-- The loop from index `i` on, when no commit is rejected: it ends, having
committed the batches that cut `docs.slice(i)` into runs of at most 500. -/
theorem deleteLoop_spec (commitError : Nat → Option String) (name : String) (docs : Coll)
    (hname : name = "users" ∨ name = "memorials" ∨ name = "notifications" ∨ name = "chats")
    (hok : ∀ b, commitError b = none) :
    ∀ (k i deleted : Nat) (w : World), docs.length - i ≤ k →
      ∃ batches : List (List String),
        (deleteLoop commitError name docs i deleted w).1
          = .ok (deleted + (docs.length - i)) ∧
        (deleteLoop commitError name docs i deleted w).2.log
          = w.log ++ batches.map (Call.commitDeletes name) ∧
        batches.flatten = (docs.drop i).map Prod.fst ∧
        (∀ b ∈ batches, b.length ≤ 500) ∧
        batches.length = (docs.length - i + 499) / 500 ∧
        (deleteLoop commitError name docs i deleted w).2.store.coll name
          = (w.store.coll name).deleteIds ((docs.drop i).map Prod.fst) := by
  intro k
  induction k with
  | zero =>
    intro i deleted w hk
    have hle : docs.length ≤ i := by omega
    have hnlt : ¬ i < docs.length := by omega
    refine ⟨[], ?_, ?_, ?_, ?_, ?_, ?_⟩
    · rw [deleteLoop, if_neg hnlt]
      have hz : docs.length - i = 0 := by omega
      rw [hz]
      rfl
    · rw [deleteLoop, if_neg hnlt]
      simp
    · rw [List.drop_eq_nil_of_le hle]
      rfl
    · intro b hb
      cases hb
    · simp only [List.length_nil]
      omega
    · rw [deleteLoop, if_neg hnlt, List.drop_eq_nil_of_le hle]
      simp [Coll.deleteIds_nil]
  | succ k ih =>
    intro i deleted w hk
    by_cases hlt : i < docs.length
    · obtain ⟨batches, h1, h2, h3, h4, h5, h6⟩ := ih (i + batchSize)
        (deleted + ((docs.drop i).take batchSize).length)
        { store := w.store.setColl name
            ((w.store.coll name).deleteIds (((docs.drop i).take batchSize).map Prod.fst)),
          log := w.log ++ [Call.commitDeletes name
            (((docs.drop i).take batchSize).map Prod.fst)] }
        (by simp only [batchSize]; omega)
      have hlen : ((docs.drop i).take batchSize).length = min 500 (docs.length - i) := by
        simp [batchSize]
      refine ⟨((docs.drop i).take batchSize).map Prod.fst :: batches, ?_, ?_, ?_, ?_, ?_, ?_⟩
      · rw [deleteLoop, if_pos hlt]
        simp only [hok, World.call]
        rw [h1, hlen]
        have harith : deleted + min 500 (docs.length - i) + (docs.length - (i + batchSize))
            = deleted + (docs.length - i) := by
          simp only [batchSize]
          omega
        rw [harith]
      · rw [deleteLoop, if_pos hlt]
        simp only [hok, World.call]
        rw [h2]
        simp
      · rw [List.flatten_cons, h3, ← List.map_append]
        congr 1
        have : docs.drop (i + batchSize) = (docs.drop i).drop batchSize := by
          rw [List.drop_drop]
        rw [this, List.take_append_drop]
      · intro b hb
        rcases List.mem_cons.mp hb with hb | hb
        · rw [hb, List.length_map, hlen]
          omega
        · exact h4 b hb
      · rw [List.length_cons, h5]
        simp only [batchSize]
        omega
      · rw [deleteLoop, if_pos hlt]
        simp only [hok, World.call]
        rw [h6]
        simp only
        rw [Store.coll_setColl _ _ _ hname, Coll.deleteIds_deleteIds, ← List.map_append]
        have : docs.drop (i + batchSize) = (docs.drop i).drop batchSize := by
          rw [List.drop_drop]
        rw [this, List.take_append_drop]
    · have hle : docs.length ≤ i := by omega
      refine ⟨[], ?_, ?_, ?_, ?_, ?_, ?_⟩
      · rw [deleteLoop, if_neg hlt]
        have hz : docs.length - i = 0 := by omega
        rw [hz]
        rfl
      · rw [deleteLoop, if_neg hlt]
        simp
      · rw [List.drop_eq_nil_of_le hle]
        rfl
      · intro b hb
        cases hb
      · simp only [List.length_nil]
        omega
      · rw [deleteLoop, if_neg hlt, List.drop_eq_nil_of_le hle]
        simp [Coll.deleteIds_nil]

/-- C18: when the dialogs are confirmed and no call is rejected, the bulk
delete loops end for every list of n documents, having committed ceil(n/500)
batches one after another, each of at most 500 deletes, whose deletes taken
together are the documents of the list, each once and in list order; the
collection is empty afterwards and clearCollection returns n. -/
theorem C18_bulk_delete_in_batches_of_500 (env : Env) (w : World)
    (hc1 : env.confirm1 = true) (hc2 : env.confirm2 = true)
    (hq : env.getDocsError = none) (hok : ∀ b, env.commitError b = none) :
    (∃ batches : List (List String),
      (clearAllMemorials env w).world.log
        = w.log ++ Call.getDocs "memorials" :: batches.map (Call.commitDeletes "memorials") ∧
      batches.length = (w.store.memorials.length + 499) / 500 ∧
      (∀ b ∈ batches, b.length ≤ 500) ∧
      batches.flatten = w.store.memorials.map Prod.fst ∧
      (clearAllMemorials env w).world.store.memorials = [] ∧
      (clearAllMemorials env w).alerts = []) ∧
    (∀ name : String, name = "memorials" ∨ name = "notifications" →
      ∃ batches : List (List String),
        (clearCollection env name w).1 = .ok (w.store.coll name).length ∧
        (clearCollection env name w).2.log
          = w.log ++ Call.getDocs name :: batches.map (Call.commitDeletes name) ∧
        batches.length = ((w.store.coll name).length + 499) / 500 ∧
        (∀ b ∈ batches, b.length ≤ 500) ∧
        batches.flatten = (w.store.coll name).map Prod.fst ∧
        (clearCollection env name w).2.store.coll name = []) := by
  constructor
  · obtain ⟨batches, h1, h2, h3, h4, h5, h6⟩ :=
      deleteLoop_spec env.commitError "memorials" (w.store.coll "memorials")
        (Or.inr (Or.inl rfl)) hok (w.store.coll "memorials").length 0 0
        (w.call (.getDocs "memorials")) (by omega)
    have hcoll : ∀ s : Store, s.coll "memorials" = s.memorials := by
      intro s
      simp [Store.coll]
    refine ⟨batches, ?_, ?_, h4, ?_, ?_, ?_⟩
    · unfold clearAllMemorials
      simp only [hc1, hc2, hq, Bool.not_true, Bool.false_eq_true, if_false]
      have hw : (w.call (.getDocs "memorials")).store.coll "memorials"
          = w.store.coll "memorials" := rfl
      rw [hw]
      generalize deleteLoop env.commitError "memorials" (w.store.coll "memorials") 0 0
        (w.call (.getDocs "memorials")) = r at h1 h2
      obtain ⟨res, w2⟩ := r
      cases res with
      | error e => cases h1
      | ok n =>
        simp only at h2 ⊢
        rw [h2]
        simp [World.call]
    · rw [h5, hcoll]
      simp
    · rw [h3, hcoll]
      simp
    · unfold clearAllMemorials
      simp only [hc1, hc2, hq, Bool.not_true, Bool.false_eq_true, if_false]
      have hw : (w.call (.getDocs "memorials")).store.coll "memorials"
          = w.store.coll "memorials" := rfl
      rw [hw]
      generalize deleteLoop env.commitError "memorials" (w.store.coll "memorials") 0 0
        (w.call (.getDocs "memorials")) = r at h1 h6
      obtain ⟨res, w2⟩ := r
      cases res with
      | error e => cases h1
      | ok n =>
        simp only at h6 ⊢
        rw [← hcoll w2.store, h6]
        simp only [List.drop_zero]
        exact Coll.deleteIds_self _
    · unfold clearAllMemorials
      simp only [hc1, hc2, hq, Bool.not_true, Bool.false_eq_true, if_false]
      have hw : (w.call (.getDocs "memorials")).store.coll "memorials"
          = w.store.coll "memorials" := rfl
      rw [hw]
      generalize deleteLoop env.commitError "memorials" (w.store.coll "memorials") 0 0
        (w.call (.getDocs "memorials")) = r at h1
      obtain ⟨res, w2⟩ := r
      cases res with
      | error e => cases h1
      | ok n => rfl
  · intro name hname
    have hknown : name = "users" ∨ name = "memorials" ∨ name = "notifications"
        ∨ name = "chats" := by
      rcases hname with h | h
      · exact Or.inr (Or.inl h)
      · exact Or.inr (Or.inr (Or.inl h))
    unfold clearCollection
    simp only [hq]
    have hw : (w.call (.getDocs name)).store.coll name = w.store.coll name := rfl
    rw [hw]
    by_cases hempty : (w.store.coll name).isEmpty = true
    · rw [if_pos hempty]
      have hnil := List.isEmpty_iff.mp hempty
      refine ⟨[], ?_, ?_, ?_, ?_, ?_, ?_⟩
      · rw [hnil]
        rfl
      · simp [World.call]
      · rw [hnil]
        rfl
      · intro b hb
        cases hb
      · rw [hnil]
        rfl
      · exact hnil
    · rw [if_neg hempty]
      obtain ⟨batches, h1, h2, h3, h4, h5, h6⟩ :=
        deleteLoop_spec env.commitError name (w.store.coll name) hknown hok
          (w.store.coll name).length 0 0 (w.call (.getDocs name)) (by omega)
      refine ⟨batches, ?_, ?_, ?_, h4, ?_, ?_⟩
      · rw [h1]
        simp
      · rw [h2]
        simp [World.call]
      · rw [h5]
        simp
      · rw [h3]
        simp
      · rw [h6, hw]
        simp only [List.drop_zero]
        exact Coll.deleteIds_self _

/-- Witness of C18: a store with 1201 memorials. -/
theorem C18_bulk_delete_in_batches_of_500_witness :
    ∃ batches : List (List String),
      (clearAllMemorials Sample.bulkEnvOk Sample.bulkWorld).world.log
        = Sample.bulkWorld.log ++
            Call.getDocs "memorials" :: batches.map (Call.commitDeletes "memorials") ∧
      batches.length = (Sample.bulkWorld.store.memorials.length + 499) / 500 ∧
      (∀ b ∈ batches, b.length ≤ 500) ∧
      batches.flatten = Sample.bulkWorld.store.memorials.map Prod.fst ∧
      (clearAllMemorials Sample.bulkEnvOk Sample.bulkWorld).world.store.memorials = [] ∧
      (clearAllMemorials Sample.bulkEnvOk Sample.bulkWorld).alerts = [] :=
  (C18_bulk_delete_in_batches_of_500 Sample.bulkEnvOk Sample.bulkWorld rfl rfl rfl
    (fun _ => rfl)).1

end BulkDelete

/-! ## The context menu of a message -/

namespace Chat

theorem openContextMenu_eq (uid : String) (msg : String × Fields) :
    openContextMenu uid msg
      = if getField msg.2 "deletedForEveryone" = some (.bool true) then none
        else some { msgId := msg.1,
                    isOwn := getField msg.2 "senderId" == some (.str uid) } := by
  unfold openContextMenu handleMsgContextMenu
  by_cases h : getField msg.2 "deletedForEveryone" = some (.bool true)
  · simp [h]
  · have hb : (getField msg.2 "deletedForEveryone" == some (Value.bool true)) = false := by
      simpa using h
    simp [h, hb]

/-- C21: on the chat page the handler `handleDeleteForEveryone` is reached
only through the "Delete for everyone" button of the context menu opened on a
message, and that button is rendered only for a message whose `senderId` is
the id of the signed-in user.  So a click on it runs the handler on a message
only if the acting user is its sender; for any other user the button does not
exist, and whatever button of the menu this user clicks, every message of the
chat keeps all its fields except `deletedFor`.  For the sender of a message
that is not yet deleted for everyone the button exists and runs the handler on
that message. -/
theorem C21_delete_for_everyone_only_by_sender (user : Upload.AuthUser) (chatId : String)
    (msg : String × Fields) (fails : Option String) (w : World) :
    (∀ r, clickMenuButton user chatId (openContextMenu user.uid msg) .deleteForEveryone fails w
        = some r →
      getField msg.2 "senderId" = some (.str user.uid) ∧
      r = handleDeleteForEveryone chatId msg.1 fails w) ∧
    (getField msg.2 "senderId" ≠ some (.str user.uid) →
      MenuButton.deleteForEveryone ∉ menuButtons (openContextMenu user.uid msg) ∧
      clickMenuButton user chatId (openContextMenu user.uid msg) .deleteForEveryone fails w
        = none ∧
      ∀ b r, clickMenuButton user chatId (openContextMenu user.uid msg) b fails w = some r →
        ∀ j d, (w.store.messagesOf chatId).doc j = some d →
          ∃ d1, (r.world.store.messagesOf chatId).doc j = some d1 ∧
            ∀ k, k ≠ "deletedFor" → getField d1 k = getField d k) ∧
    (getField msg.2 "senderId" = some (.str user.uid) →
      getField msg.2 "deletedForEveryone" ≠ some (.bool true) →
      clickMenuButton user chatId (openContextMenu user.uid msg) .deleteForEveryone fails w
        = some (handleDeleteForEveryone chatId msg.1 fails w)) := by
  rw [openContextMenu_eq]
  refine ⟨?_, ?_, ?_⟩
  · intro r hr
    by_cases hdel : getField msg.2 "deletedForEveryone" = some (.bool true)
    · simp [hdel, clickMenuButton] at hr
    · by_cases hown : getField msg.2 "senderId" = some (.str user.uid)
      · simp [hdel, hown, clickMenuButton, menuButtons] at hr
        exact ⟨hown, hr.symm⟩
      · have hb : (getField msg.2 "senderId" == some (Value.str user.uid)) = false := by
          simpa using hown
        simp [hdel, hb, clickMenuButton, menuButtons] at hr
  · intro hown
    have hb : (getField msg.2 "senderId" == some (Value.str user.uid)) = false := by
      simpa using hown
    by_cases hdel : getField msg.2 "deletedForEveryone" = some (.bool true)
    · simp only [hdel, if_true]
      refine ⟨by simp [menuButtons], rfl, ?_⟩
      intro b r hr
      simp [clickMenuButton] at hr
    · simp only [hdel, if_false, hb]
      refine ⟨by simp [menuButtons], by simp [clickMenuButton, menuButtons], ?_⟩
      intro b r hr j d hd
      cases b with
      | deleteForEveryone => simp [clickMenuButton, menuButtons] at hr
      | cancel =>
        simp [clickMenuButton, menuButtons] at hr
        subst hr
        exact ⟨d, hd, fun _ _ => rfl⟩
      | deleteForMe =>
        simp [clickMenuButton, menuButtons] at hr
        subst hr
        rcases handleDeleteForMe_messages user chatId msg.1 fails w with h | h
        · rw [h]
          exact ⟨d, hd, fun _ _ => rfl⟩
        · rw [h, Coll.doc_modify, hd]
          by_cases hj : j = msg.1
          · refine ⟨deleteForMeChange user.uid d, by simp [hj], ?_⟩
            intro k hk
            exact getField_change _ _ _ hk
          · exact ⟨d, by simp [hj], fun _ _ => rfl⟩
  · intro hown hdel
    simp [hdel, hown, clickMenuButton, menuButtons]

end Chat

/-! ## Trigger handlers -/

namespace Functions

theorem caught_fst (r : Except String Unit × World) : (caught r).1 = .ok () := by
  rcases r with ⟨e | u, w⟩ <;> rfl

theorem caught_snd (r : Except String Unit × World) : (caught r).2 = r.2 := by
  rcases r with ⟨e | u, w⟩ <;> rfl

theorem addMail_undefined (fails : Option String) (autoId subject : String)
    (html : List String) (w : World) :
    addMail fails autoId none subject html w = (.error undefinedMessage, w) := rfl

theorem addMail_rejected (msg autoId subject : String) (v : Value) (html : List String)
    (w : World) :
    addMail (some msg) autoId (some v) subject html w
      = (.error msg, { store := w.store, log := w.log ++ [Call.addDoc "mail"] }) := rfl

theorem addMail_accepted (autoId subject : String) (v : Value) (html : List String)
    (w : World) :
    addMail none autoId (some v) subject html w
      = (.ok (), { store := { w.store with
                     mail := w.store.mail ++ [(autoId, mailDoc v subject html)] },
                   log := w.log ++ [Call.addDoc "mail"] }) := rfl

/-- The world left by `addMail` for a defined recipient. -/
theorem addMail_world (fails : Option String) (autoId subject : String) (v : Value)
    (html : List String) (w : World) :
    (addMail fails autoId (some v) subject html w).2.log = w.log ++ [Call.addDoc "mail"] ∧
    (fails = none → (addMail fails autoId (some v) subject html w).2.store
        = { w.store with mail := w.store.mail ++ [(autoId, mailDoc v subject html)] }) ∧
    (fails ≠ none → (addMail fails autoId (some v) subject html w).2.store = w.store) := by
  cases fails with
  | none => exact ⟨rfl, fun _ => rfl, fun h => absurd rfl h⟩
  | some msg => exact ⟨rfl, fun h => (by cases h), fun _ => rfl⟩

theorem store_ne_mail_append (s : Store) (x : String × Fields) :
    ({ s with mail := s.mail ++ [x] } : Store) ≠ s := by
  intro h
  have h1 : (s.mail ++ [x]).length = s.mail.length := by
    have := congrArg Store.mail h
    simpa using congrArg List.length this
  simp at h1

theorem becameVerified_iff (oldData newData : Fields) :
    becameVerified oldData newData = true ↔
      (getField oldData "isVerified" = some (.bool false) ∧
       getField newData "isVerified" = some (.bool true)) := by
  unfold becameVerified
  simp only [Bool.and_eq_true, beq_iff_eq]
  exact And.comm

/-- The fields of a queued mail. -/
theorem mailDoc_fields (e : Value) (subject : String) (html : List String) :
    getField (mailDoc e subject html) "to" = some e ∧
    getField (mailDoc e subject html) "message.subject" = some (.str subject) ∧
    getField (mailDoc e subject html) "message.html" = some (.strs html) :=
  ⟨rfl, rfl, rfl⟩

/-- The first participant that differs from the sender is the one found. -/
theorem recipientOf_first (pre post : List String) (rid : String) (senderId : Option Value)
    (hpre : ∀ q ∈ pre, some (Value.str q) = senderId)
    (hrid : some (Value.str rid) ≠ senderId) :
    recipientOf (pre ++ rid :: post) senderId = some rid := by
  unfold recipientOf
  induction pre with
  | nil =>
    have hb : (some (Value.str rid) != senderId) = true := by simpa using hrid
    simp only [List.nil_append, List.find?, hb]
  | cons q rest ih =>
    have hq : some (Value.str q) = senderId := hpre q (List.mem_cons_self _ _)
    have hrest : ∀ x ∈ rest, some (Value.str x) = senderId :=
      fun x hx => hpre x (List.mem_cons_of_mem _ hx)
    simp only [List.cons_append, List.find?, hq, bne_self_eq_false]
    exact ih hrest

theorem participantsOf_strs (chat : Fields) (l : List String)
    (h : getField chat "participants" = some (.strs l)) : participantsOf chat = .ok l := by
  simp [participantsOf, h]

theorem participantsOf_ok_mem (chat : Fields) (l : List String) (rid : String)
    (h : participantsOf chat = .ok l) (hm : rid ∈ l) :
    getField chat "participants" = some (.strs l) := by
  unfold participantsOf at h
  split at h
  · rename_i l2 hl
    cases h
    exact hl
  · split at h
    · cases h
    · cases h
      cases hm

/-- C22: `onUserVerified` completes without raising; when the update changes
`isVerified` from false to true and the user has an email field, it sends one
write to the mail queue, which (unless the store rejects it) adds exactly one
document whose `to` is the email of the updated user and whose subject is that
of the welcome mail; for every other update of a user document, among them
those that leave `isVerified` true or set it to false, it leaves the world as
it was, as it does for a user document without an `email` field, whose mail
the client library refuses. -/
theorem C22_onUserVerified_enqueues_on_false_to_true (oldData newData : Fields) (env : Env)
    (w : World) :
    (onUserVerified oldData newData env w).1 = .ok () ∧
    ((getField oldData "isVerified" = some (.bool false) ∧
      getField newData "isVerified" = some (.bool true)) →
      ∀ e, getField newData "email" = some e →
        (onUserVerified oldData newData env w).2.log = w.log ++ [Call.addDoc "mail"] ∧
        (env.addMailError = none →
          ∃ d, (onUserVerified oldData newData env w).2.store
              = { w.store with mail := w.store.mail ++ [(env.mailId, d)] } ∧
            getField d "to" = getField newData "email" ∧
            getField d "to" = some e ∧
            getField d "message.subject" = some (.str welcomeSubject) ∧
            getField d "message.html" = some (.strs (welcomeHtml newData))) ∧
        (env.addMailError ≠ none →
          (onUserVerified oldData newData env w).2.store = w.store)) ∧
    (¬ (getField oldData "isVerified" = some (.bool false) ∧
        getField newData "isVerified" = some (.bool true)) →
      (onUserVerified oldData newData env w).2 = w) ∧
    (getField oldData "isVerified" = some (.bool true) →
      (onUserVerified oldData newData env w).2 = w) ∧
    (getField newData "isVerified" = some (.bool false) →
      (onUserVerified oldData newData env w).2 = w) ∧
    (getField newData "email" = none → (onUserVerified oldData newData env w).2 = w) := by
  have hno : ¬ (getField oldData "isVerified" = some (.bool false) ∧
        getField newData "isVerified" = some (.bool true)) →
      onUserVerified oldData newData env w = (.ok (), w) := by
    intro h
    have hb : becameVerified oldData newData = false := by
      cases hc : becameVerified oldData newData with
      | false => rfl
      | true => exact absurd ((becameVerified_iff _ _).1 hc) h
    simp [onUserVerified, hb]
  refine ⟨?_, ?_, ?_, ?_, ?_, ?_⟩
  · unfold onUserVerified
    split
    · exact caught_fst _
    · rfl
  · intro hg e he
    have hb : becameVerified oldData newData = true := (becameVerified_iff _ _).2 hg
    have hr : onUserVerified oldData newData env w
        = caught (addMail env.addMailError env.mailId (some e) welcomeSubject
            (welcomeHtml newData) w) := by
      simp [onUserVerified, hb, he]
    rw [hr, caught_snd]
    obtain ⟨h1, h2, h3⟩ := addMail_world env.addMailError env.mailId welcomeSubject e
      (welcomeHtml newData) w
    refine ⟨h1, ?_, h3⟩
    intro hadd
    obtain ⟨f1, f2, f3⟩ := mailDoc_fields e welcomeSubject (welcomeHtml newData)
    exact ⟨_, h2 hadd, by rw [f1, he], f1, f2, f3⟩
  · intro h
    rw [hno h]
  · intro h
    rw [hno (fun hc => by rw [h] at hc; cases hc.1)]
  · intro h
    rw [hno (fun hc => by rw [h] at hc; cases hc.2)]
  · intro he
    unfold onUserVerified
    split
    · rw [caught_snd, he, addMail_undefined]
    · rfl

/-- Witness of C22: the verification of the member queues one welcome mail
addressed to the member. -/
theorem C22_onUserVerified_enqueues_on_false_to_true_witness :
    ∃ d, (onUserVerified Sample.bobUnverified Sample.bobProfile Sample.triggerEnvOk
          Sample.world0).2.store.mail = [("mail1", d)] ∧
      getField d "to" = some (.str "bob@example.org") ∧
      getField d "message.subject"
        = some (.str "Your Account is Verified - Welcome to Kamgbunli Legacy") :=
  have h := (C22_onUserVerified_enqueues_on_false_to_true Sample.bobUnverified Sample.bobProfile Sample.triggerEnvOk Sample.world0).2.1
    ⟨by rfl, by rfl⟩ (.str "bob@example.org") (by rfl)
  match h.2.1 (by rfl) with
  | ⟨d, hs, _, hto, hsub, _⟩ => ⟨d, by rw [hs]; rfl, hto, hsub⟩

theorem docPath_ok_iff (v : Option Value) (uid : String) :
    docPath v = .ok uid ↔ (v = some (.str uid) ∧ uid ≠ "") := by
  unfold docPath
  constructor
  · intro h
    split at h
    · rename_i s
      by_cases hs : s = ""
      · simp [hs] at h
      · simp [hs] at h
        subst h
        exact ⟨rfl, hs⟩
    · cases h
  · rintro ⟨rfl, hne⟩
    simp [hne]

theorem getSnapshot_users (fails : Option String) (id : String) (w : World) :
    getSnapshot fails "users" id w
      = ((match fails with
          | some msg => .error msg
          | none => .ok (w.store.users.doc id)),
         { store := w.store, log := w.log ++ [Call.getDoc "users" id] }) := by
  cases fails <;> simp [getSnapshot, World.call, Store.coll]

theorem getSnapshot_chats (fails : Option String) (id : String) (w : World) :
    getSnapshot fails "chats" id w
      = ((match fails with
          | some msg => .error msg
          | none => .ok (w.store.chats.doc id)),
         { store := w.store, log := w.log ++ [Call.getDoc "chats" id] }) := by
  cases fails <;> simp [getSnapshot, World.call, Store.coll]

/-- The `try` block of `onMemorialUpdated` either leaves the store as it was
or has found the poster with an email and queued the mail. -/
theorem onMemorialUpdatedTry_shape (newData : Fields) (memorialId : String) (env : Env)
    (w : World) :
    (onMemorialUpdatedTry newData memorialId env w).2.store = w.store ∨
    ∃ uid u e, getField newData "postedBy" = some (.str uid) ∧ uid ≠ "" ∧
      env.getUserError = none ∧ w.store.users.doc uid = some u ∧
      getField u "email" = some e ∧ truthy (some e) = true ∧ env.addMailError = none ∧
      (onMemorialUpdatedTry newData memorialId env w).2.store
        = { w.store with mail := w.store.mail ++
              [(env.mailId, mailDoc e (liveSubject (getField newData "fullName"))
                  (liveHtml newData memorialId u))] } := by
  unfold onMemorialUpdatedTry
  cases hp : docPath (getField newData "postedBy") with
  | error e => left; rfl
  | ok uid =>
    obtain ⟨hposted, hne⟩ := (docPath_ok_iff _ _).1 hp
    simp only [getSnapshot_users]
    cases hg : env.getUserError with
    | some msg => left; rfl
    | none =>
      simp only []
      cases hu : w.store.users.doc uid with
      | none => left; rfl
      | some u =>
        simp only []
        cases he : getField u "email" with
        | none => left; simp [truthy]
        | some e =>
          by_cases ht : truthy (some e) = true
          · simp only [ht, Bool.not_true, Bool.false_eq_true, if_false]
            cases ha : env.addMailError with
            | some msg => left; rfl
            | none =>
              right
              refine ⟨uid, u, e, ?_, ?_, ?_, ?_, ?_, ?_, ?_, ?_⟩ <;> first | rfl | trivial
          · left
            simp [ht]

theorem becameApproved_iff (oldData newData : Fields) :
    becameApproved oldData newData = true ↔
      (getField oldData "isApproved" ≠ some (.bool true) ∧
       getField newData "isApproved" = some (.bool true)) := by
  unfold becameApproved
  simp only [Bool.and_eq_true, beq_iff_eq, bne_iff_ne]

theorem truthy_str_ne (uid : String) (h : uid ≠ "") : truthy (some (.str uid)) = true := by
  simp [truthy, h]

/-- The run of `onMemorialUpdated` in which the mail is queued. -/
theorem onMemorialUpdated_sends (oldData newData : Fields) (memorialId : String) (env : Env)
    (w : World) (uid : String) (u : Fields) (e : Value)
    (hb : becameApproved oldData newData = true)
    (hposted : getField newData "postedBy" = some (.str uid)) (hne : uid ≠ "")
    (hget : env.getUserError = none) (hu : w.store.users.doc uid = some u)
    (he : getField u "email" = some e) (ht : truthy (some e) = true)
    (hadd : env.addMailError = none) :
    onMemorialUpdated oldData newData memorialId env w
      = (.ok (), { store := { w.store with mail := w.store.mail ++
                      [(env.mailId, mailDoc e (liveSubject (getField newData "fullName"))
                          (liveHtml newData memorialId u))] },
                   log := w.log ++ [Call.getDoc "users" uid, Call.addDoc "mail"] }) := by
  have hp : docPath (some (.str uid)) = .ok uid := (docPath_ok_iff _ _).2 ⟨rfl, hne⟩
  simp [onMemorialUpdated, hb, hposted, truthy_str_ne uid hne, onMemorialUpdatedTry, hp,
    getSnapshot_users, hget, hu, he, ht, hadd, addMail_accepted, caught]

/-- An update that does not newly approve the memorial is ignored. -/
theorem onMemorialUpdated_ignores (oldData newData : Fields) (memorialId : String) (env : Env)
    (w : World) (hb : becameApproved oldData newData = false) :
    onMemorialUpdated oldData newData memorialId env w = (.ok (), w) := by
  simp [onMemorialUpdated, hb]

theorem onMemorialUpdated_fst (oldData newData : Fields) (memorialId : String) (env : Env)
    (w : World) : (onMemorialUpdated oldData newData memorialId env w).1 = .ok () := by
  unfold onMemorialUpdated
  split
  · split
    · rfl
    · exact caught_fst _
  · rfl

/-- The handler `onMemorialUpdated` either leaves the store as it was or has
found the poster with an email and queued the mail. -/
theorem onMemorialUpdated_shape (oldData newData : Fields) (memorialId : String) (env : Env)
    (w : World) :
    (onMemorialUpdated oldData newData memorialId env w).2.store = w.store ∨
    ∃ uid u e, becameApproved oldData newData = true ∧
      getField newData "postedBy" = some (.str uid) ∧ uid ≠ "" ∧
      env.getUserError = none ∧ w.store.users.doc uid = some u ∧
      getField u "email" = some e ∧ truthy (some e) = true ∧ env.addMailError = none ∧
      (onMemorialUpdated oldData newData memorialId env w).2.store
        = { w.store with mail := w.store.mail ++
              [(env.mailId, mailDoc e (liveSubject (getField newData "fullName"))
                  (liveHtml newData memorialId u))] } := by
  unfold onMemorialUpdated
  split
  · rename_i hb
    split
    · left; rfl
    · rw [caught_snd]
      rcases onMemorialUpdatedTry_shape newData memorialId env w with h | ⟨uid, u, e, h⟩
      · left; exact h
      · right
        exact ⟨uid, u, e, hb, h⟩
  · left; rfl


/-- C23: given that `postedBy` names an existing user with an email and that
the store accepts the calls, `onMemorialUpdated` adds one document to the mail
queue whose `to` is that user's email, with the subject and body of the
"memorial live" mail, if and only if `isApproved` is not true before the
update and true after it; an update that does not make this transition, such
as one that leaves `isApproved` true or sets it to false, leaves the world as
it was. -/
theorem C23_onMemorialUpdated_mails_on_approval_only (oldData newData : Fields)
    (memorialId : String) (env : Env) (w : World) (uid : String) (u : Fields) (e : Value)
    (hposted : getField newData "postedBy" = some (.str uid)) (hne : uid ≠ "")
    (hu : w.store.users.doc uid = some u)
    (he : getField u "email" = some e) (ht : truthy (some e) = true)
    (hget : env.getUserError = none) (hadd : env.addMailError = none) :
    ((∃ d, (onMemorialUpdated oldData newData memorialId env w).2.store.mail
          = w.store.mail ++ [(env.mailId, d)] ∧
        getField d "to" = getField u "email")
      ↔ (getField oldData "isApproved" ≠ some (.bool true) ∧
         getField newData "isApproved" = some (.bool true))) ∧
    ((getField oldData "isApproved" ≠ some (.bool true) ∧
      getField newData "isApproved" = some (.bool true)) →
      ∃ d, (onMemorialUpdated oldData newData memorialId env w).2.store
          = { w.store with mail := w.store.mail ++ [(env.mailId, d)] } ∧
        getField d "to" = some e ∧
        getField d "message.subject"
          = some (.str (liveSubject (getField newData "fullName"))) ∧
        getField d "message.html" = some (.strs (liveHtml newData memorialId u))) ∧
    (¬ (getField oldData "isApproved" ≠ some (.bool true) ∧
        getField newData "isApproved" = some (.bool true)) →
      (onMemorialUpdated oldData newData memorialId env w).2 = w) ∧
    (getField oldData "isApproved" = some (.bool true) →
      (onMemorialUpdated oldData newData memorialId env w).2 = w) ∧
    (getField newData "isApproved" ≠ some (.bool true) →
      (onMemorialUpdated oldData newData memorialId env w).2 = w) ∧
    (onMemorialUpdated oldData newData memorialId env w).1 = .ok () := by
  have hno : ¬ (getField oldData "isApproved" ≠ some (.bool true) ∧
        getField newData "isApproved" = some (.bool true)) →
      onMemorialUpdated oldData newData memorialId env w = (.ok (), w) := by
    intro h
    apply onMemorialUpdated_ignores
    cases hc : becameApproved oldData newData with
    | false => rfl
    | true => exact absurd ((becameApproved_iff _ _).1 hc) h
  have hyes : (getField oldData "isApproved" ≠ some (.bool true) ∧
      getField newData "isApproved" = some (.bool true)) →
      onMemorialUpdated oldData newData memorialId env w
      = (.ok (), { store := { w.store with mail := w.store.mail ++
                      [(env.mailId, mailDoc e (liveSubject (getField newData "fullName"))
                          (liveHtml newData memorialId u))] },
                   log := w.log ++ [Call.getDoc "users" uid, Call.addDoc "mail"] }) :=
    fun hg => onMemorialUpdated_sends oldData newData memorialId env w uid u e
      ((becameApproved_iff _ _).2 hg) hposted hne hget hu he ht hadd
  obtain ⟨f1, f2, f3⟩ := mailDoc_fields e (liveSubject (getField newData "fullName"))
    (liveHtml newData memorialId u)
  refine ⟨⟨?_, ?_⟩, ?_, ?_, ?_, ?_, onMemorialUpdated_fst _ _ _ _ _⟩
  · rintro ⟨d, hs, _⟩
    by_contra hg
    rw [hno hg] at hs
    have := congrArg List.length hs
    simp at this
  · intro hg
    rw [hyes hg]
    exact ⟨_, rfl, by rw [f1, he]⟩
  · intro hg
    rw [hyes hg]
    exact ⟨_, rfl, f1, f2, f3⟩
  · intro h
    rw [hno h]
  · intro h
    rw [hno (fun hc => hc.1 h)]
  · intro h
    rw [hno (fun hc => h hc.2)]

/-- Witness of C23: the approval of the member's memorial queues one mail
addressed to the member. -/
theorem C23_onMemorialUpdated_mails_on_approval_only_witness :
    (getField Sample.memorial1 "isApproved" ≠ some (.bool true) ∧
      getField Sample.memorial1Approved "isApproved" = some (.bool true)) ∧
    ∃ d, (onMemorialUpdated Sample.memorial1 Sample.memorial1Approved "m1" Sample.triggerEnvOk
          Sample.world0).2.store.mail = [("mail1", d)] ∧
      getField d "to" = some (.str "alice@example.org") ∧
      getField d "message.subject" = some (.str "Live Now: Ibrahim K. - Kamgbunli Legacy") :=
  have h := C23_onMemorialUpdated_mails_on_approval_only Sample.memorial1
    Sample.memorial1Approved "m1" Sample.triggerEnvOk Sample.world0 "alice" Sample.aliceProfile
    (.str "alice@example.org") (by rfl) (by decide) (by rfl) (by rfl) (by rfl) (by rfl) (by rfl)
  match h.2.1 ⟨by decide, by rfl⟩ with
  | ⟨d, hs, hto, hsub, _⟩ => ⟨⟨by decide, by rfl⟩, d, by rw [hs]; rfl, hto, hsub⟩

/-- The `try` block of `onMemorialCreated` either leaves the store as it was
or has found the poster with an email and queued the mail for a pending
memorial. -/
theorem onMemorialCreatedTry_shape (memorialData : Fields) (env : Env) (w : World) :
    (onMemorialCreatedTry memorialData env w).2.store = w.store ∨
    ∃ uid u e, getField memorialData "status" = some (.str "pending") ∧
      getField memorialData "postedBy" = some (.str uid) ∧ uid ≠ "" ∧
      env.getUserError = none ∧ w.store.users.doc uid = some u ∧
      getField u "email" = some e ∧ truthy (some e) = true ∧ env.addMailError = none ∧
      (onMemorialCreatedTry memorialData env w).2.store
        = { w.store with mail := w.store.mail ++
              [(env.mailId, mailDoc e (receivedSubject (getField memorialData "fullName"))
                  (receivedHtml memorialData u))] } := by
  unfold onMemorialCreatedTry
  cases hp : docPath (getField memorialData "postedBy") with
  | error e => left; rfl
  | ok uid =>
    obtain ⟨hposted, hne⟩ := (docPath_ok_iff _ _).1 hp
    simp only [getSnapshot_users]
    cases hg : env.getUserError with
    | some msg => left; rfl
    | none =>
      simp only []
      cases hu : w.store.users.doc uid with
      | none => left; rfl
      | some u =>
        simp only []
        cases he : getField u "email" with
        | none => left; simp [truthy]
        | some e =>
          by_cases ht : truthy (some e) = true
          · simp only [ht, Bool.not_true, Bool.false_eq_true, if_false]
            by_cases hs : getField memorialData "status" = some (.str "pending")
            · simp only [hs, beq_self_eq_true, if_true]
              cases ha : env.addMailError with
              | some msg => left; rfl
              | none =>
                right
                refine ⟨uid, u, e, ?_, ?_, ?_, ?_, ?_, ?_, ?_, ?_, ?_⟩ <;> first | rfl | trivial
            · left
              have hs2 : (getField memorialData "status" == some (Value.str "pending")) = false := by
                simpa using hs
              simp [hs2]
          · left
            simp [ht]

/-- The handler `onMemorialCreated` either leaves the store as it was or has
found the poster with an email and queued the mail for a pending memorial. -/
theorem onMemorialCreated_shape (memorialData : Fields) (env : Env) (w : World) :
    (onMemorialCreated memorialData env w).2.store = w.store ∨
    ∃ uid u e, getField memorialData "status" = some (.str "pending") ∧
      getField memorialData "postedBy" = some (.str uid) ∧ uid ≠ "" ∧
      env.getUserError = none ∧ w.store.users.doc uid = some u ∧
      getField u "email" = some e ∧ truthy (some e) = true ∧ env.addMailError = none ∧
      (onMemorialCreated memorialData env w).2.store
        = { w.store with mail := w.store.mail ++
              [(env.mailId, mailDoc e (receivedSubject (getField memorialData "fullName"))
                  (receivedHtml memorialData u))] } := by
  unfold onMemorialCreated
  split
  · left; rfl
  · rw [caught_snd]
    exact onMemorialCreatedTry_shape memorialData env w

theorem onMemorialCreated_fst (memorialData : Fields) (env : Env) (w : World) :
    (onMemorialCreated memorialData env w).1 = .ok () := by
  unfold onMemorialCreated
  split
  · rfl
  · exact caught_fst _

/-- The run of `onMemorialCreated` in which the mail is queued. -/
theorem onMemorialCreated_sends (memorialData : Fields) (env : Env)
    (w : World) (uid : String) (u : Fields) (e : Value)
    (hs : getField memorialData "status" = some (.str "pending"))
    (hposted : getField memorialData "postedBy" = some (.str uid)) (hne : uid ≠ "")
    (hget : env.getUserError = none) (hu : w.store.users.doc uid = some u)
    (he : getField u "email" = some e) (ht : truthy (some e) = true)
    (hadd : env.addMailError = none) :
    onMemorialCreated memorialData env w
      = (.ok (), { store := { w.store with mail := w.store.mail ++
                      [(env.mailId, mailDoc e (receivedSubject (getField memorialData "fullName"))
                          (receivedHtml memorialData u))] },
                   log := w.log ++ [Call.getDoc "users" uid, Call.addDoc "mail"] }) := by
  have hp : docPath (some (.str uid)) = .ok uid := (docPath_ok_iff _ _).2 ⟨rfl, hne⟩
  simp [onMemorialCreated, hs, hposted, truthy_str_ne uid hne, onMemorialCreatedTry, hp,
    getSnapshot_users, hget, hu, he, ht, hadd, addMail_accepted, caught]

theorem memorialData_status (inp : Upload.Input) (urls : List String) (doc : Option String) :
    getField (Upload.memorialData inp urls doc) "status"
      = some (.str (if AuthContext.isAdmin inp.userProfile then "approved" else "pending")) := by
  simp [Upload.memorialData, getField, List.lookup]

/-- C24: given that `postedBy` names an existing user with an email and that
the store accepts the calls, `onMemorialCreated` adds one document to the mail
queue whose `to` is that user's email, with the subject and body of the
"submission received" mail, if and only if the created memorial has status
`pending`; otherwise the store is left as it was.  The memorial written by
`handleSubmit` is pending for a member and approved for an admin, so that the
submission of an admin queues no mail. -/
theorem C24_onMemorialCreated_mails_pending_only (memorialData : Fields)
    (env : Env) (w : World) (uid : String) (u : Fields) (e : Value)
    (hposted : getField memorialData "postedBy" = some (.str uid)) (hne : uid ≠ "")
    (hu : w.store.users.doc uid = some u)
    (he : getField u "email" = some e) (ht : truthy (some e) = true)
    (hget : env.getUserError = none) (hadd : env.addMailError = none) :
    ((∃ d, (onMemorialCreated memorialData env w).2.store.mail
          = w.store.mail ++ [(env.mailId, d)] ∧
        getField d "to" = getField u "email")
      ↔ getField memorialData "status" = some (.str "pending")) ∧
    (getField memorialData "status" = some (.str "pending") →
      ∃ d, (onMemorialCreated memorialData env w).2.store
          = { w.store with mail := w.store.mail ++ [(env.mailId, d)] } ∧
        getField d "to" = some e ∧
        getField d "message.subject"
          = some (.str (receivedSubject (getField memorialData "fullName"))) ∧
        getField d "message.html" = some (.strs (receivedHtml memorialData u))) ∧
    (getField memorialData "status" ≠ some (.str "pending") →
      (onMemorialCreated memorialData env w).2.store = w.store) ∧
    (onMemorialCreated memorialData env w).1 = .ok () ∧
    (∀ (inp : Upload.Input) (urls : List String) (doc : Option String) (env2 : Env)
        (w2 : World), AuthContext.isAdmin inp.userProfile = true →
      getField (Upload.memorialData inp urls doc) "status" = some (.str "approved") ∧
      (onMemorialCreated (Upload.memorialData inp urls doc) env2 w2).2.store = w2.store) ∧
    (∀ (inp : Upload.Input) (urls : List String) (doc : Option String),
      AuthContext.isAdmin inp.userProfile = false →
      getField (Upload.memorialData inp urls doc) "status" = some (.str "pending")) := by
  have hno : ∀ (md : Fields) (env2 : Env) (w2 : World),
      getField md "status" ≠ some (.str "pending") →
      (onMemorialCreated md env2 w2).2.store = w2.store := by
    intro md env2 w2 h
    rcases onMemorialCreated_shape md env2 w2 with h1 | ⟨_, _, _, hs, _⟩
    · exact h1
    · exact absurd hs h
  have hyes := fun hs => onMemorialCreated_sends memorialData env w uid u e hs hposted hne
    hget hu he ht hadd
  obtain ⟨f1, f2, f3⟩ := mailDoc_fields e (receivedSubject (getField memorialData "fullName"))
    (receivedHtml memorialData u)
  refine ⟨⟨?_, ?_⟩, ?_, hno memorialData env w, onMemorialCreated_fst _ _ _, ?_, ?_⟩
  · rintro ⟨d, hs, _⟩
    by_contra hg
    rw [hno memorialData env w hg] at hs
    have := congrArg List.length hs
    simp at this
  · intro hs
    rw [hyes hs]
    exact ⟨_, rfl, by rw [f1, he]⟩
  · intro hs
    rw [hyes hs]
    exact ⟨_, rfl, f1, f2, f3⟩
  · intro inp urls doc env2 w2 hadmin
    have hst : getField (Upload.memorialData inp urls doc) "status" = some (.str "approved") := by
      rw [memorialData_status, hadmin]; rfl
    refine ⟨hst, hno _ env2 w2 ?_⟩
    rw [hst]
    decide
  · intro inp urls doc hadmin
    rw [memorialData_status, hadmin]; rfl

/-- Witness of C24: the member's submission queues one mail addressed to the
member. -/
theorem C24_onMemorialCreated_mails_pending_only_witness :
    getField Sample.memorial1 "status" = some (.str "pending") ∧
    ∃ d, (onMemorialCreated Sample.memorial1 Sample.triggerEnvOk Sample.world0).2.store.mail
        = [("mail1", d)] ∧
      getField d "to" = some (.str "alice@example.org") ∧
      getField d "message.subject"
        = some (.str "Submission Received: Ibrahim K. - Kamgbunli Legacy") :=
  have h := C24_onMemorialCreated_mails_pending_only Sample.memorial1 Sample.triggerEnvOk
    Sample.world0 "alice" Sample.aliceProfile (.str "alice@example.org")
    (by rfl) (by decide) (by rfl) (by rfl) (by rfl) (by rfl) (by rfl)
  match h.2.1 (by rfl) with
  | ⟨d, hs, hto, hsub, _⟩ => ⟨by rfl, d, by rw [hs]; rfl, hto, hsub⟩

/-- The `try` block of `onMessageCreated` either leaves the store as it was
or has resolved the recipient with an email and queued the mail. -/
theorem onMessageCreatedTry_shape (messageData : Fields) (chatId : String) (env : Env)
    (w : World) :
    (onMessageCreatedTry messageData chatId env w).2.store = w.store ∨
    ∃ chat l rid u e, env.getChatError = none ∧ w.store.chats.doc chatId = some chat ∧
      participantsOf chat = .ok l ∧
      recipientOf l (getField messageData "senderId") = some rid ∧ rid ≠ "" ∧
      env.getUserError = none ∧ w.store.users.doc rid = some u ∧
      getField u "email" = some e ∧ truthy (some e) = true ∧ env.addMailError = none ∧
      (onMessageCreatedTry messageData chatId env w).2.store
        = { w.store with mail := w.store.mail ++
              [(env.mailId, mailDoc e (messageSubject messageData)
                  (messageHtml messageData chatId u))] } := by
  unfold onMessageCreatedTry
  simp only [getSnapshot_chats]
  cases hgc : env.getChatError with
  | some msg => left; rfl
  | none =>
    simp only []
    cases hc : w.store.chats.doc chatId with
    | none => left; rfl
    | some chat =>
      simp only []
      cases hl : participantsOf chat with
      | error e => left; rfl
      | ok l =>
        simp only []
        cases hr : recipientOf l (getField messageData "senderId") with
        | none => left; rfl
        | some rid =>
          by_cases hne : rid = ""
          · left
            simp [Option.filter, hne]
          · have hf : Option.filter (fun r => r != "") (some rid) = some rid := by
              simp [Option.filter, hne]
            simp only [hf, getSnapshot_users]
            cases hg : env.getUserError with
            | some msg => left; rfl
            | none =>
              simp only []
              cases hu : w.store.users.doc rid with
              | none => left; rfl
              | some u =>
                simp only []
                cases he : getField u "email" with
                | none => left; simp [truthy]
                | some e =>
                  by_cases ht : truthy (some e) = true
                  · simp only [ht, Bool.not_true, Bool.false_eq_true, if_false]
                    cases ha : env.addMailError with
                    | some msg => left; rfl
                    | none =>
                      right
                      refine ⟨chat, l, rid, u, e, ?_, ?_, ?_, ?_, ?_, ?_, ?_, ?_, ?_, ?_, ?_⟩ <;>
                        first | rfl | trivial
                  · left
                    simp [ht]

/-- The handler `onMessageCreated` either leaves the store as it was or has
resolved the recipient with an email and queued the mail. -/
theorem onMessageCreated_shape (messageData : Fields) (chatId : String) (env : Env)
    (w : World) :
    (onMessageCreated messageData chatId env w).2.store = w.store ∨
    ∃ chat l rid u e, env.getChatError = none ∧ w.store.chats.doc chatId = some chat ∧
      participantsOf chat = .ok l ∧
      recipientOf l (getField messageData "senderId") = some rid ∧ rid ≠ "" ∧
      env.getUserError = none ∧ w.store.users.doc rid = some u ∧
      getField u "email" = some e ∧ truthy (some e) = true ∧ env.addMailError = none ∧
      (onMessageCreated messageData chatId env w).2.store
        = { w.store with mail := w.store.mail ++
              [(env.mailId, mailDoc e (messageSubject messageData)
                  (messageHtml messageData chatId u))] } := by
  unfold onMessageCreated
  split
  · left; rfl
  · rw [caught_snd]
    exact onMessageCreatedTry_shape messageData chatId env w

theorem onMessageCreated_fst (messageData : Fields) (chatId : String) (env : Env)
    (w : World) : (onMessageCreated messageData chatId env w).1 = .ok () := by
  unfold onMessageCreated
  split
  · rfl
  · exact caught_fst _

/-- The run of `onMessageCreated` in which the mail is queued. -/
theorem onMessageCreated_sends (messageData : Fields) (chatId : String) (env : Env)
    (w : World) (chat : Fields) (l : List String) (rid : String) (u : Fields) (e : Value)
    (hsender : truthy (getField messageData "senderId") = true)
    (hgc : env.getChatError = none) (hc : w.store.chats.doc chatId = some chat)
    (hl : participantsOf chat = .ok l)
    (hr : recipientOf l (getField messageData "senderId") = some rid) (hne : rid ≠ "")
    (hget : env.getUserError = none) (hu : w.store.users.doc rid = some u)
    (he : getField u "email" = some e) (ht : truthy (some e) = true)
    (hadd : env.addMailError = none) :
    onMessageCreated messageData chatId env w
      = (.ok (), { store := { w.store with mail := w.store.mail ++
                      [(env.mailId, mailDoc e (messageSubject messageData)
                          (messageHtml messageData chatId u))] },
                   log := w.log ++ [Call.getDoc "chats" chatId, Call.getDoc "users" rid,
                     Call.addDoc "mail"] }) := by
  simp [onMessageCreated, hsender, onMessageCreatedTry, getSnapshot_chats, hgc, hc, hl, hr,
    Option.filter, hne, getSnapshot_users, hget, hu, he, ht, hadd, addMail_accepted, caught]

theorem recipientOf_some (l : List String) (senderId : Option Value) (rid : String)
    (h : recipientOf l senderId = some rid) :
    rid ∈ l ∧ some (Value.str rid) ≠ senderId := by
  unfold recipientOf at h
  refine ⟨List.mem_of_find?_eq_some h, ?_⟩
  have := List.find?_some h
  simpa using this

theorem recipientOf_none (l : List String) (senderId : Option Value)
    (h : ∀ p ∈ l, some (Value.str p) = senderId) : recipientOf l senderId = none := by
  unfold recipientOf
  rw [List.find?_eq_none]
  intro p hp
  simp [h p hp]

/-- C25: `onMessageCreated` completes without raising.  Whenever it changes
the store, it has added one document to the mail queue whose `to` is the email
of a participant of the chat whose id differs from the `senderId` of the
message.  It leaves the store as it was when `senderId` is missing, when the
chat document does not exist, when every participant is the sender, and when
the user document of the first participant other than the sender does not
exist.  And when the chat has a participant other than the sender, the first
such participant has a user document with an email and the store accepts the
calls, the mail is queued with that email as its `to`. -/
theorem C25_onMessageCreated_mails_other_participant (messageData : Fields)
    (chatId : String) (env : Env) (w : World) :
    (onMessageCreated messageData chatId env w).1 = .ok () ∧
    ((onMessageCreated messageData chatId env w).2.store ≠ w.store →
      ∃ chat l rid u e d, w.store.chats.doc chatId = some chat ∧
        getField chat "participants" = some (.strs l) ∧ rid ∈ l ∧
        some (Value.str rid) ≠ getField messageData "senderId" ∧
        w.store.users.doc rid = some u ∧ getField u "email" = some e ∧
        (onMessageCreated messageData chatId env w).2.store
          = { w.store with mail := w.store.mail ++ [(env.mailId, d)] } ∧
        getField d "to" = some e) ∧
    (truthy (getField messageData "senderId") = false →
      (onMessageCreated messageData chatId env w).2 = w) ∧
    (w.store.chats.doc chatId = none →
      (onMessageCreated messageData chatId env w).2.store = w.store) ∧
    (∀ chat l, w.store.chats.doc chatId = some chat →
      getField chat "participants" = some (.strs l) →
      (∀ p ∈ l, some (Value.str p) = getField messageData "senderId") →
      (onMessageCreated messageData chatId env w).2.store = w.store) ∧
    (∀ chat pre rid post, w.store.chats.doc chatId = some chat →
      getField chat "participants" = some (.strs (pre ++ rid :: post)) →
      (∀ q ∈ pre, some (Value.str q) = getField messageData "senderId") →
      some (Value.str rid) ≠ getField messageData "senderId" →
      w.store.users.doc rid = none →
      (onMessageCreated messageData chatId env w).2.store = w.store) ∧
    (∀ chat pre rid post u e, truthy (getField messageData "senderId") = true →
      env.getChatError = none → w.store.chats.doc chatId = some chat →
      getField chat "participants" = some (.strs (pre ++ rid :: post)) →
      (∀ q ∈ pre, some (Value.str q) = getField messageData "senderId") →
      some (Value.str rid) ≠ getField messageData "senderId" → rid ≠ "" →
      env.getUserError = none → w.store.users.doc rid = some u →
      getField u "email" = some e → truthy (some e) = true → env.addMailError = none →
      ∃ d, (onMessageCreated messageData chatId env w).2.store
          = { w.store with mail := w.store.mail ++ [(env.mailId, d)] } ∧
        getField d "to" = some e ∧
        getField d "message.subject" = some (.str (messageSubject messageData)) ∧
        getField d "message.html" = some (.strs (messageHtml messageData chatId u))) := by
  refine ⟨onMessageCreated_fst _ _ _ _, ?_, ?_, ?_, ?_, ?_, ?_⟩
  · intro hne
    rcases onMessageCreated_shape messageData chatId env w with h | h
    · exact absurd h hne
    · obtain ⟨chat, l, rid, u, e, _, hc, hl, hr, _, _, hu, he, _, _, hs⟩ := h
      obtain ⟨hmem, hdiff⟩ := recipientOf_some l _ rid hr
      exact ⟨chat, l, rid, u, e, _, hc, participantsOf_ok_mem chat l rid hl hmem, hmem, hdiff,
        hu, he, hs, (mailDoc_fields _ _ _).1⟩
  · intro hs
    simp [onMessageCreated, hs]
  · intro hc
    rcases onMessageCreated_shape messageData chatId env w with h | h
    · exact h
    · obtain ⟨chat, l, rid, u, e, _, hc2, _⟩ := h
      rw [hc] at hc2
      cases hc2
  · intro chat l hc hl hall
    rcases onMessageCreated_shape messageData chatId env w with h | h
    · exact h
    · obtain ⟨chat2, l2, rid, u, e, _, hc2, hl2, hr, _⟩ := h
      rw [hc] at hc2
      cases hc2
      rw [participantsOf_strs chat l hl] at hl2
      cases hl2
      rw [recipientOf_none l _ hall] at hr
      cases hr
  · intro chat pre rid post hc hl hpre hrid hu
    rcases onMessageCreated_shape messageData chatId env w with h | h
    · exact h
    · obtain ⟨chat2, l2, rid2, u, e, _, hc2, hl2, hr2, _, _, hu2, _⟩ := h
      rw [hc] at hc2
      cases hc2
      rw [participantsOf_strs chat _ hl] at hl2
      cases hl2
      rw [recipientOf_first pre post rid _ hpre hrid] at hr2
      cases hr2
      rw [hu] at hu2
      cases hu2
  · intro chat pre rid post u e hsender hgc hc hl hpre hrid hne hget hu he ht hadd
    rw [onMessageCreated_sends messageData chatId env w chat (pre ++ rid :: post) rid u e hsender
      hgc hc (participantsOf_strs chat _ hl) (recipientOf_first pre post rid _ hpre hrid) hne
      hget hu he ht hadd]
    obtain ⟨f1, f2, f3⟩ := mailDoc_fields e (messageSubject messageData)
      (messageHtml messageData chatId u)
    exact ⟨_, rfl, f1, f2, f3⟩

/-- Witness of C25: the message of the visitor in the sample chat is announced
to the poster, the participant after the sender in the list. -/
theorem C25_onMessageCreated_mails_other_participant_witness :
    ∃ d, (onMessageCreated Sample.messageFromBob "c1" Sample.triggerEnvOk
          Sample.mailWorld).2.store.mail = [("mail1", d)] ∧
      getField d "to" = some (.str "alice@example.org") ∧
      getField d "message.subject"
        = some (.str "New Message from Bob - Kamgbunli Legacy") :=
  have h := (C25_onMessageCreated_mails_other_participant Sample.messageFromBob "c1" Sample.triggerEnvOk
    Sample.mailWorld).2.2.2.2.2.2 Sample.chatDoc ["bob"] "alice" [] Sample.aliceProfile
    (.str "alice@example.org") (by rfl) (by rfl) (by rfl) (by rfl)
    (by intro q hq; rw [List.mem_singleton.mp hq]; rfl) (by decide) (by decide) (by rfl)
    (by rfl) (by rfl) (by rfl) (by rfl)
  match h with
  | ⟨d, hs, hto, hsub, _⟩ => ⟨d, by rw [hs]; rfl, hto, hsub⟩

/-- The message of the poster in the sample chat is announced to the visitor,
the other participant. -/
theorem onMessageCreated_example :
    (onMessageCreated Sample.messageFromAlice "c1" Sample.triggerEnvOk
        Sample.mailWorld).2.store.mail
      = [("mail1", mailDoc (.str "bob@example.org") "New Message from Alice - Kamgbunli Legacy"
            ["message", "Bob", "Alice", "Thank you for your kind words.", "c1"])] := by
  rfl

end Functions

/-! ## Accounts and the welcome mail -/

theorem Coll.doc_create_of_none (c : Coll) (id : String) (data : Fields)
    (h : c.doc id = none) : (c.create id data).doc id = some data := by
  induction c with
  | nil => simp [Coll.create, Coll.doc, List.lookup]
  | cons e rest ih =>
    obtain ⟨i, d⟩ := e
    rw [Coll.doc_cons] at h
    by_cases hi : id = i
    · simp [hi] at h
    · simp only [hi, if_false] at h
      show Coll.doc ((i, d) :: (rest ++ [(id, data)])) id = some data
      rw [Coll.doc_cons]
      simp only [hi, if_false]
      exact ih h

theorem Coll.doc_set (c : Coll) (id : String) (data : Fields) :
    (c.set id data).doc id = some data := by
  unfold Coll.set
  cases h : c.doc id with
  | none => simpa using Coll.doc_create_of_none c id data h
  | some d =>
    simp only [Option.isSome_some, if_true]
    rw [Coll.doc_modify, h]
    simp

namespace AdminDashboard

/-- The user document after an accepted click on the verification button. -/
theorem toggleUserVerification_doc (uid : String) (d : Fields) (b : Bool) (w : World)
    (hd : w.store.users.doc uid = some d)
    (hb : getField d "isVerified" = some (.bool b)) :
    (toggleUserVerification uid (getField d "isVerified") none w).world.store.users.doc uid
      = some (applyUpdate [("isVerified", .bool (!b))] d) ∧
    (toggleUserVerification uid (getField d "isVerified") none w).alerts = [] := by
  have hw : (w.call (.updateDoc "users" uid)).store.users.doc uid = some d := hd
  have ht : truthy (some (Value.bool b)) = b := rfl
  simp only [toggleUserVerification, updateUserDoc, hw, hb, ht]
  refine ⟨?_, trivial⟩
  show (Coll.modify w.store.users uid _).doc uid = _
  rw [Coll.doc_modify, hd]
  simp

end AdminDashboard

namespace Functions

theorem isVerified_toggled (d : Fields) (b : Bool) :
    getField (applyUpdate [("isVerified", .bool b)] d) "isVerified" = some (.bool b) :=
  getField_setField_same _ _ _

theorem email_toggled (d : Fields) (b : Bool) :
    getField (applyUpdate [("isVerified", .bool b)] d) "email" = getField d "email" :=
  getField_setField_other "isVerified" "email" (.bool b) d (by decide)

/-- An accepted run of `onUserVerified` on a verifying update queues one mail. -/
theorem onUserVerified_sends (oldData newData : Fields) (env : Env) (w : World) (e : Value)
    (hold : getField oldData "isVerified" = some (.bool false))
    (hnew : getField newData "isVerified" = some (.bool true))
    (he : getField newData "email" = some e) (hadd : env.addMailError = none) :
    (onUserVerified oldData newData env w).2.store.mail
      = w.store.mail ++ [(env.mailId, mailDoc e welcomeSubject (welcomeHtml newData))] := by
  have hb : becameVerified oldData newData = true := (becameVerified_iff _ _).2 ⟨hold, hnew⟩
  simp [onUserVerified, hb, he, hadd, addMail_accepted, caught]

/-- A run of `onUserVerified` on any other update changes nothing. -/
theorem onUserVerified_ignores (oldData newData : Fields) (env : Env) (w : World)
    (hb : becameVerified oldData newData = false) :
    onUserVerified oldData newData env w = (.ok (), w) := by
  simp [onUserVerified, hb]

/-- C30: the user documents written by `signup` and by a first Google sign-in
hold `isVerified: false` and an `email` field, and are what the store holds
under the uid afterwards; `signInWithGoogle` leaves the store as it was when a
document of the user exists.  For a stored user document with `isVerified`
false, the accepted click on the verification button stores the document with
`isVerified` true, and this pair of documents satisfies the guard of
`onUserVerified`, whose accepted run queues exactly one welcome mail; the next
click stores `isVerified` false, a pair that the handler ignores; and the click
after that stores `isVerified` true again, a pair for which a further welcome
mail is queued. -/
theorem C30_first_verification_sends_welcome_mail :
    (∀ uid email displayName location phoneNumber communityReference now,
      getField (AuthContext.signupDoc uid email displayName location phoneNumber
        communityReference now) "isVerified" = some (.bool false) ∧
      getField (AuthContext.signupDoc uid email displayName location phoneNumber
        communityReference now) "email" = some (.str email)) ∧
    (∀ user now,
      getField (AuthContext.googleDoc user now) "isVerified" = some (.bool false) ∧
      getField (AuthContext.googleDoc user now) "email"
        = some (AuthContext.optStr user.email)) ∧
    (∀ (env : AuthContext.SignupEnv) email displayName location phoneNumber
        communityReference (w : World) uid,
      env.createUser = .ok uid → env.updateProfileError = none → env.setDocError = none →
      (AuthContext.signup env email displayName location phoneNumber communityReference
          w).2.store.users.doc uid
        = some (AuthContext.signupDoc uid email displayName location phoneNumber
            communityReference env.now)) ∧
    (∀ (env : AuthContext.GoogleEnv) (w : World) user,
      env.popup = .ok user → env.getDocError = none → env.setDocError = none →
      w.store.users.doc user.uid = none →
      (AuthContext.signInWithGoogle env w).2.store.users.doc user.uid
        = some (AuthContext.googleDoc user env.now)) ∧
    (∀ (env : AuthContext.GoogleEnv) (w : World) user d,
      env.popup = .ok user → w.store.users.doc user.uid = some d →
      (AuthContext.signInWithGoogle env w).2.store = w.store) ∧
    (∀ (w : World) uid d b, w.store.users.doc uid = some d →
      getField d "isVerified" = some (.bool b) →
      (AdminDashboard.toggleUserVerification uid (getField d "isVerified") none
          w).world.store.users.doc uid
        = some (applyUpdate [("isVerified", .bool (!b))] d)) ∧
    (∀ d e, getField d "isVerified" = some (.bool false) → getField d "email" = some e →
      becameVerified d (applyUpdate [("isVerified", .bool true)] d) = true ∧
      becameVerified (applyUpdate [("isVerified", .bool true)] d)
        (applyUpdate [("isVerified", .bool false)]
          (applyUpdate [("isVerified", .bool true)] d)) = false ∧
      becameVerified
        (applyUpdate [("isVerified", .bool false)]
          (applyUpdate [("isVerified", .bool true)] d))
        (applyUpdate [("isVerified", .bool true)]
          (applyUpdate [("isVerified", .bool false)]
            (applyUpdate [("isVerified", .bool true)] d))) = true ∧
      ∀ (env : Env) (w : World), env.addMailError = none →
        (onUserVerified d (applyUpdate [("isVerified", .bool true)] d) env w).2.store.mail
          = w.store.mail ++ [(env.mailId, mailDoc e welcomeSubject
              (welcomeHtml (applyUpdate [("isVerified", .bool true)] d)))] ∧
        (onUserVerified (applyUpdate [("isVerified", .bool true)] d)
          (applyUpdate [("isVerified", .bool false)]
            (applyUpdate [("isVerified", .bool true)] d)) env w).2 = w ∧
        (onUserVerified
          (applyUpdate [("isVerified", .bool false)]
            (applyUpdate [("isVerified", .bool true)] d))
          (applyUpdate [("isVerified", .bool true)]
            (applyUpdate [("isVerified", .bool false)]
              (applyUpdate [("isVerified", .bool true)] d))) env w).2.store.mail
          = w.store.mail ++ [(env.mailId, mailDoc e welcomeSubject
              (welcomeHtml (applyUpdate [("isVerified", .bool true)]
                (applyUpdate [("isVerified", .bool false)]
                  (applyUpdate [("isVerified", .bool true)] d)))))]) := by
  refine ⟨?_, ?_, ?_, ?_, ?_, ?_, ?_⟩
  · intro uid email displayName location phoneNumber communityReference now
    exact ⟨rfl, rfl⟩
  · intro user now
    exact ⟨rfl, rfl⟩
  · intro env email displayName location phoneNumber communityReference w uid hc hp hs
    simp only [AuthContext.signup, hc, hp, setUserDoc, hs]
    exact Coll.doc_set _ _ _
  · intro env w user hp hg hs hnone
    have hw : (w.call (.getDoc "users" user.uid)).store.users.doc user.uid = none := hnone
    simp only [AuthContext.signInWithGoogle, hp, hg, hw, setUserDoc, hs]
    exact Coll.doc_set _ _ _
  · intro env w user d hp hd
    have hw : (w.call (.getDoc "users" user.uid)).store.users.doc user.uid = some d := hd
    simp only [AuthContext.signInWithGoogle, hp, hw]
    cases env.getDocError <;> rfl
  · intro w uid d b hd hb
    exact (AdminDashboard.toggleUserVerification_doc uid d b w hd hb).1
  · intro d e hv he
    have h1 := isVerified_toggled d true
    have h2 := isVerified_toggled (applyUpdate [("isVerified", .bool true)] d) false
    have h3 := isVerified_toggled
      (applyUpdate [("isVerified", .bool false)] (applyUpdate [("isVerified", .bool true)] d))
      true
    have e1 : getField (applyUpdate [("isVerified", .bool true)] d) "email" = some e := by
      rw [email_toggled, he]
    have e3 : getField (applyUpdate [("isVerified", .bool true)]
        (applyUpdate [("isVerified", .bool false)]
          (applyUpdate [("isVerified", .bool true)] d))) "email" = some e := by
      rw [email_toggled, email_toggled, email_toggled, he]
    have g2 : becameVerified (applyUpdate [("isVerified", .bool true)] d)
        (applyUpdate [("isVerified", .bool false)]
          (applyUpdate [("isVerified", .bool true)] d)) = false := by
      unfold becameVerified
      rw [h1, h2]
      rfl
    refine ⟨(becameVerified_iff _ _).2 ⟨hv, h1⟩, g2, (becameVerified_iff _ _).2 ⟨h2, h3⟩, ?_⟩
    intro env w hadd
    refine ⟨onUserVerified_sends _ _ env w e hv h1 e1 hadd, ?_,
      onUserVerified_sends _ _ env w e h2 h3 e3 hadd⟩
    rw [onUserVerified_ignores _ _ env w g2]

end Functions

namespace Functions

/-- C26: `onUserVerified` has no guard on the email.  For the profile written
at the Google sign-in of an account without an email (`email: null`), the
verification of the user queues a mail whose `to` is `null`; in general, a
verifying update of a user whose `email` field is present but falsy queues a
mail addressed to that value whenever the store accepts the write.  The other
three handlers do return before any write when the user document they read
has no email. -/
theorem C26_onUserVerified_queues_mail_without_address :
    getField Sample.googleProfileVerified "email" = some .null ∧
    (onUserVerified Sample.googleProfile Sample.googleProfileVerified Sample.triggerEnvOk
        Sample.world0).2.store.mail
      = [("mail1", mailDoc .null welcomeSubject ["welcome", "Gina"])] ∧
    (∀ (oldData newData : Fields) (env : Env) (w : World) (v : Value),
      getField oldData "isVerified" = some (.bool false) →
      getField newData "isVerified" = some (.bool true) →
      getField newData "email" = some v → truthy (some v) = false →
      env.addMailError = none →
      (onUserVerified oldData newData env w).2.store.mail
        = w.store.mail ++ [(env.mailId, mailDoc v welcomeSubject (welcomeHtml newData))]) ∧
    (∀ (messageData : Fields) (chatId : String) (env : Env) (w : World) chat l rid u,
      w.store.chats.doc chatId = some chat → participantsOf chat = .ok l →
      recipientOf l (getField messageData "senderId") = some rid →
      w.store.users.doc rid = some u → truthy (getField u "email") = false →
      (onMessageCreated messageData chatId env w).2.store = w.store ∧
      (onMessageCreated messageData chatId env w).1 = .ok ()) ∧
    (∀ (memorialData : Fields) (env : Env) (w : World) uid u,
      getField memorialData "postedBy" = some (.str uid) →
      w.store.users.doc uid = some u → truthy (getField u "email") = false →
      (onMemorialCreated memorialData env w).2.store = w.store ∧
      (onMemorialCreated memorialData env w).1 = .ok ()) ∧
    (∀ (oldData newData : Fields) (memorialId : String) (env : Env) (w : World) uid u,
      getField newData "postedBy" = some (.str uid) →
      w.store.users.doc uid = some u → truthy (getField u "email") = false →
      (onMemorialUpdated oldData newData memorialId env w).2.store = w.store ∧
      (onMemorialUpdated oldData newData memorialId env w).1 = .ok ()) := by
  refine ⟨by rfl, by rfl, ?_, ?_, ?_, ?_⟩
  · intro oldData newData env w v hold hnew he _ hadd
    exact onUserVerified_sends oldData newData env w v hold hnew he hadd
  · intro messageData chatId env w chat l rid u hc hl hr hu hemail
    refine ⟨?_, onMessageCreated_fst _ _ _ _⟩
    rcases onMessageCreated_shape messageData chatId env w with h | h
    · exact h
    · obtain ⟨chat2, l2, rid2, u2, e, _, hc2, hl2, hr2, _, _, hu2, he, ht, _⟩ := h
      rw [hc] at hc2
      cases hc2
      rw [hl] at hl2
      cases hl2
      rw [hr] at hr2
      cases hr2
      rw [hu] at hu2
      cases hu2
      rw [he, ht] at hemail
      cases hemail
  · intro memorialData env w uid u hp hu hemail
    refine ⟨?_, onMemorialCreated_fst _ _ _⟩
    rcases onMemorialCreated_shape memorialData env w with h | h
    · exact h
    · obtain ⟨uid2, u2, e, _, hp2, _, _, hu2, he, ht, _⟩ := h
      rw [hp] at hp2
      cases hp2
      rw [hu] at hu2
      cases hu2
      rw [he, ht] at hemail
      cases hemail
  · intro oldData newData memorialId env w uid u hp hu hemail
    refine ⟨?_, onMemorialUpdated_fst _ _ _ _ _⟩
    rcases onMemorialUpdated_shape oldData newData memorialId env w with h | h
    · exact h
    · obtain ⟨uid2, u2, e, _, hp2, _, _, hu2, he, ht, _⟩ := h
      rw [hp] at hp2
      cases hp2
      rw [hu] at hu2
      cases hu2
      rw [he, ht] at hemail
      cases hemail

end Functions

/-! ## Notifications -/

namespace Notifications

theorem handleNotificationClick_world (notif : String × Fields) (fails : Option String)
    (w : World) :
    (handleNotificationClick notif fails w).world
      = if truthy (getField notif.2 "isRead") = true then w else markAsRead notif.1 fails w := by
  unfold handleNotificationClick
  cases h : truthy (getField notif.2 "isRead")
  · simp only [Bool.not_false, if_true, Bool.false_eq_true, if_false]
    repeat' split
    all_goals rfl
  · simp only [Bool.not_true, Bool.false_eq_true, if_false, if_true]
    repeat' split
    all_goals rfl

theorem handleNotificationClick_navigations (notif : String × Fields) (fails : Option String)
    (w : World) :
    (handleNotificationClick notif fails w).navigations
      = if getField notif.2 "type" = some (.str "message") ∧
            truthy (getField notif.2 "chatId") = true then
          ["/chat/" ++ Functions.templ (getField notif.2 "chatId")]
        else if (getField notif.2 "type" = some (.str "approved") ∨
                 getField notif.2 "type" = some (.str "denied")) ∧
                truthy (getField notif.2 "memorialId") = true then
          ["/memorial/" ++ Functions.templ (getField notif.2 "memorialId")]
        else [] := by
  unfold handleNotificationClick
  simp only [Bool.and_eq_true, Bool.or_eq_true, beq_iff_eq]
  repeat' split
  all_goals rfl

theorem notification_markAsRead_log (notifId : String) (fails : Option String) (w : World) :
    (markAsRead notifId fails w).log = w.log ++ [Call.updateDoc "notifications" notifId] := by
  unfold markAsRead updateNotificationDoc
  cases fails with
  | some e => rfl
  | none =>
    simp only [World.call]
    cases w.store.notifications.doc notifId <;> rfl

theorem notification_markAsRead_doc (notifId : String) (w : World) (d : Fields)
    (hd : w.store.notifications.doc notifId = some d) :
    (markAsRead notifId none w).store.notifications.doc notifId
      = some (applyUpdate [("isRead", .bool true)] d) := by
  unfold markAsRead updateNotificationDoc
  simp only [World.call, hd]
  show (Coll.modify w.store.notifications notifId _).doc notifId = _
  rw [Coll.doc_modify, hd]
  simp

/-- C28: a click on a notification sends the update `isRead: true` of that
notification exactly when its `isRead` is falsy, and the accepted update
stores `isRead` true; a notification that is already read leaves the world as
it was.  The click navigates to `/chat/<chatId>` for the type `message` with a
chat id, to `/memorial/<memorialId>` for the types `approved` and `denied`
with a memorial id, and nowhere in every other case, in particular for the
type `admin_alert`. -/
theorem C28_click_marks_unread_and_navigates_by_type (notif : String × Fields)
    (fails : Option String) (w : World) :
    ((handleNotificationClick notif fails w).world.log
      = w.log ++ (if truthy (getField notif.2 "isRead") = true then []
                  else [Call.updateDoc "notifications" notif.1])) ∧
    (truthy (getField notif.2 "isRead") = true →
      (handleNotificationClick notif fails w).world = w) ∧
    (truthy (getField notif.2 "isRead") = false → fails = none →
      ∀ d, w.store.notifications.doc notif.1 = some d →
        ∃ d1, (handleNotificationClick notif fails w).world.store.notifications.doc notif.1
            = some d1 ∧
          getField d1 "isRead" = some (.bool true) ∧
          ∀ k, k ≠ "isRead" → getField d1 k = getField d k) ∧
    (getField notif.2 "type" = some (.str "message") →
      truthy (getField notif.2 "chatId") = true →
      (handleNotificationClick notif fails w).navigations
        = ["/chat/" ++ Functions.templ (getField notif.2 "chatId")]) ∧
    ((getField notif.2 "type" = some (.str "approved") ∨
      getField notif.2 "type" = some (.str "denied")) →
      truthy (getField notif.2 "memorialId") = true →
      (handleNotificationClick notif fails w).navigations
        = ["/memorial/" ++ Functions.templ (getField notif.2 "memorialId")]) ∧
    (¬ (getField notif.2 "type" = some (.str "message") ∧
        truthy (getField notif.2 "chatId") = true) →
      ¬ ((getField notif.2 "type" = some (.str "approved") ∨
          getField notif.2 "type" = some (.str "denied")) ∧
        truthy (getField notif.2 "memorialId") = true) →
      (handleNotificationClick notif fails w).navigations = []) ∧
    (getField notif.2 "type" = some (.str "admin_alert") →
      (handleNotificationClick notif fails w).navigations = []) := by
  rw [handleNotificationClick_world, handleNotificationClick_navigations]
  refine ⟨?_, ?_, ?_, ?_, ?_, ?_, ?_⟩
  · by_cases h : truthy (getField notif.2 "isRead") = true
    · simp [h]
    · simp only [h, if_false]
      exact notification_markAsRead_log _ _ _
  · intro h
    simp [h]
  · intro h hf d hd
    subst hf
    simp only [h, Bool.false_eq_true, if_false]
    refine ⟨_, notification_markAsRead_doc notif.1 w d hd, getField_setField_same _ _ _, ?_⟩
    intro k hk
    exact getField_setField_other "isRead" k (.bool true) d hk
  · intro ht hc
    simp [ht, hc]
  · intro ht hm
    have hnm : getField notif.2 "type" ≠ some (.str "message") := by
      rcases ht with h | h <;> rw [h] <;> decide
    simp [hnm, ht, hm]
  · intro h1 h2
    simp only [h1, h2, if_false]
  · intro ht
    have h1 : getField notif.2 "type" ≠ some (.str "message") := by rw [ht]; decide
    have h2 : getField notif.2 "type" ≠ some (.str "approved") := by rw [ht]; decide
    have h3 : getField notif.2 "type" ≠ some (.str "denied") := by rw [ht]; decide
    simp [h1, h2, h3]

end Notifications

/-! ## Photo selection -/

theorem jsSliceFrom0_length (l : List String) (e : Int) (he : 0 ≤ e) :
    (jsSliceFrom0 l e).length ≤ e.toNat := by
  unfold jsSliceFrom0
  simp only [he, if_true, List.length_take]
  exact Nat.min_le_left _ _

theorem removeAt_length (l : List String) (index : Nat) :
    (removeAt l index).length ≤ l.length := by
  unfold removeAt
  rw [List.length_map]
  calc (List.filter (fun p => p.1 != index) l.enum).length
      ≤ l.enum.length := List.length_filter_le _ _
    _ = l.length := List.enum_length

namespace Upload

theorem handlePhotoSelect_length (photoFiles selectedFiles : List String)
    (h : photoFiles.length ≤ MAX_PHOTOS) :
    (handlePhotoSelect photoFiles selectedFiles).length ≤ MAX_PHOTOS := by
  unfold handlePhotoSelect
  simp only []
  split
  · exact h
  · have h0 : (0 : Int) ≤ (MAX_PHOTOS : Int) - (photoFiles.length : Int) := by omega
    have h1 := jsSliceFrom0_length selectedFiles _ h0
    rw [List.length_append]
    omega

theorem run_length (a : PhotoAction) (photoFiles : List String)
    (h : photoFiles.length ≤ MAX_PHOTOS) : (a.run photoFiles).length ≤ MAX_PHOTOS := by
  cases a with
  | select selectedFiles => exact handlePhotoSelect_length _ _ h
  | remove index => exact Nat.le_trans (removeAt_length _ _) h

theorem runPhotoActions_length (actions : List PhotoAction) :
    ∀ photoFiles : List String, photoFiles.length ≤ MAX_PHOTOS →
      (runPhotoActions actions photoFiles).length ≤ MAX_PHOTOS := by
  induction actions with
  | nil => intro photoFiles h; exact h
  | cons a rest ih =>
    intro photoFiles h
    exact ih _ (run_length a photoFiles h)

theorem uploadPhotos_length (env : Env) (files : List String) :
    ∀ (i : Nat) (urls : List String) (w : World) (out : List String),
      (uploadPhotos env i files urls w).1 = .ok out →
      out.length = urls.length + files.length := by
  induction files with
  | nil =>
    intro i urls w out h
    simp only [uploadPhotos] at h
    cases h
    simp
  | cons file rest ih =>
    intro i urls w out h
    unfold uploadPhotos at h
    cases hu : uploadToCloudinary (env.photoFetch i) with
    | error e => simp [hu] at h
    | ok url =>
      simp only [hu] at h
      have := ih _ _ _ _ h
      simp at this ⊢
      omega

/-- A successful submission has stored the memorial built from the URLs of
the uploaded photos. -/
theorem handleSubmit_success (inp : Input) (env : Env) (w : World)
    (h : (handleSubmit inp env w).success = true) :
    ∃ urls docUrl, (uploadPhotos env 0 inp.photoFiles [] w).1 = .ok urls ∧
      (handleSubmit inp env w).world.store.memorials
        = w.store.memorials ++ [(env.memorialId, memorialData inp urls docUrl)] := by
  unfold handleSubmit at h ⊢
  split at h
  · cases h
  split at h
  · cases h
  rename_i h1 h2
  simp only [h1, h2, if_false] at h ⊢
  have hp := (uploadPhotos_world env inp.photoFiles 0 [] w).1
  generalize uploadPhotos env 0 inp.photoFiles [] w = rp at h hp ⊢
  obtain ⟨resp, w1⟩ := rp
  cases resp with
  | error e => cases h
  | ok urls =>
    simp only [] at h hp ⊢
    have hd := (uploadDocument_world env inp.legacyDocFile w1).1
    generalize uploadDocument env inp.legacyDocFile w1 = rd at h hd ⊢
    obtain ⟨resd, w2⟩ := rd
    cases resd with
    | error e => cases h
    | ok docUrl =>
      simp only [] at h hd ⊢
      have hm := saveMemorial_memorials inp env (memorialData inp urls docUrl) w2
      have hok := saveMemorial_ok inp env (memorialData inp urls docUrl) w2
      generalize saveMemorial inp env (memorialData inp urls docUrl) w2 = rs at h hm hok ⊢
      obtain ⟨ress, w3⟩ := rs
      cases ress with
      | error e => cases h
      | ok u =>
        simp only [] at hm ⊢
        have hset : env.setDocError = none := (hok.1 rfl).1
        refine ⟨urls, docUrl, rfl, ?_⟩
        show w3.store.memorials = _
        rw [hm, hset, hd, hp]
        rfl

end Upload

namespace EditMemorial

theorem handlePhotoSelect_total (st : Photos) (selectedFiles : List String)
    (h : st.existingPhotos.length + st.newPhotoFiles.length ≤ MAX_PHOTOS) :
    (handlePhotoSelect st selectedFiles).existingPhotos.length
      + (handlePhotoSelect st selectedFiles).newPhotoFiles.length ≤ MAX_PHOTOS := by
  unfold handlePhotoSelect
  simp only []
  split
  · exact h
  · have h0 : (0 : Int) ≤ max 0 ((MAX_PHOTOS : Int)
        - ((st.existingPhotos.length + st.newPhotoFiles.length : Nat) : Int)) :=
      le_max_left _ _
    have h1 := jsSliceFrom0_length selectedFiles _ h0
    simp only [List.length_append]
    have h2 : (max 0 ((MAX_PHOTOS : Int)
        - ((st.existingPhotos.length + st.newPhotoFiles.length : Nat) : Int))).toNat
        = MAX_PHOTOS - (st.existingPhotos.length + st.newPhotoFiles.length) := by
      omega
    rw [h2] at h1
    omega

theorem run_total (a : PhotoAction) (st : Photos)
    (h : st.existingPhotos.length + st.newPhotoFiles.length ≤ MAX_PHOTOS) :
    (a.run st).existingPhotos.length + (a.run st).newPhotoFiles.length ≤ MAX_PHOTOS := by
  cases a with
  | select selectedFiles => exact handlePhotoSelect_total _ _ h
  | removeExisting index =>
    have := removeAt_length st.existingPhotos index
    show (removeAt st.existingPhotos index).length + st.newPhotoFiles.length ≤ MAX_PHOTOS
    omega
  | removeNew index =>
    have := removeAt_length st.newPhotoFiles index
    show st.existingPhotos.length + (removeAt st.newPhotoFiles index).length ≤ MAX_PHOTOS
    omega

theorem runPhotoActions_total (actions : List PhotoAction) :
    ∀ st : Photos, st.existingPhotos.length + st.newPhotoFiles.length ≤ MAX_PHOTOS →
      (runPhotoActions actions st).existingPhotos.length
        + (runPhotoActions actions st).newPhotoFiles.length ≤ MAX_PHOTOS := by
  induction actions with
  | nil => intro st h; exact h
  | cons a rest ih =>
    intro st h
    exact ih _ (run_total a st h)

theorem edit_uploadPhotos_length (env : Env) (files : List String) :
    ∀ (i : Nat) (urls : List String) (w : World) (out : List String),
      (uploadPhotos env i files urls w).1 = .ok out →
      out.length = urls.length + files.length := by
  induction files with
  | nil =>
    intro i urls w out h
    simp only [uploadPhotos] at h
    cases h
    simp
  | cons file rest ih =>
    intro i urls w out h
    unfold uploadPhotos at h
    cases hc : env.compressError i with
    | some e => simp [hc] at h
    | none =>
      cases hu : uploadToCloudinary (env.photoFetch i) with
      | error e => simp [hc, hu] at h
      | ok url =>
        simp only [hc, hu] at h
        have := ih _ _ _ _ h
        simp at this ⊢
        omega

/-- A successful edit has merged the update built from the kept URLs followed
by the URLs of the newly uploaded photos. -/
theorem edit_handleSubmit_success (inp : Input) (env : Env) (w : World)
    (h : (handleSubmit inp env w).success = true) :
    ∃ finalImageUrls,
      (uploadPhotos env 0 inp.newPhotoFiles inp.existingPhotos w).1 = .ok finalImageUrls ∧
      (handleSubmit inp env w).world.store.memorials
        = w.store.memorials.modify inp.id (applyUpdate (updateData inp.form finalImageUrls)) := by
  unfold handleSubmit at h ⊢
  split at h
  · cases h
  rename_i h1
  simp only [h1, if_false] at h ⊢
  have hp := uploadPhotos_store env inp.newPhotoFiles 0 inp.existingPhotos w
  generalize uploadPhotos env 0 inp.newPhotoFiles inp.existingPhotos w = rp at h hp ⊢
  obtain ⟨resp, w1⟩ := rp
  cases resp with
  | error e => cases h
  | ok urls =>
    simp only [] at h hp ⊢
    have hu := updateMemorialDoc_ok env.updateDocError inp.id (updateData inp.form urls) w1
    generalize updateMemorialDoc env.updateDocError inp.id (updateData inp.form urls) w1
      = ru at h hu ⊢
    obtain ⟨resu, w2⟩ := ru
    cases resu with
    | error e => cases h
    | ok u =>
      simp only [] at hu ⊢
      refine ⟨urls, rfl, ?_⟩
      show w2.store.memorials = _
      rw [(hu trivial).2.2.1, hp]

theorem getImageList_length (data : Fields)
    (h : ∀ l, getField data "imageUrls" = some (.strs l) → l.length ≤ MAX_PHOTOS) :
    (getImageList data).length ≤ MAX_PHOTOS := by
  unfold getImageList
  split
  · rename_i u us hl
    exact h _ hl
  · split
    · split
      · simp [MAX_PHOTOS]
      · simp
    · simp

end EditMemorial

theorem memorialData_images (inp : Upload.Input) (urls : List String) (doc : Option String) :
    getField (Upload.memorialData inp urls doc) "imageUrls"
      = some (if urls.length > 0 then .strs urls else .null) ∧
    getField (Upload.memorialData inp urls doc) "imageUrl"
      = some (Upload.optStrOrNull urls.head?) := by
  constructor <;> simp [Upload.memorialData, getField, List.lookup]

/-- C29: in the upload form the number of selected photos is at most 3 after
every sequence of selections and removals; a successful submission of at most
3 photos stores a memorial whose `imageUrls` holds one URL per photo, so at
most 3 (`null` when there is none), and whose `imageUrl` is `imageUrls[0] ||
null`: `null` when there is no photo and the first URL when that URL is not
empty.  In the edit form the kept photos of a memorial whose `imageUrls` has
at most 3 entries are at most 3, the kept plus the newly selected photos stay
at most 3 after every sequence of selections and removals, and a successful
edit stores exactly that many URLs. -/
theorem C29_at_most_three_photos :
    (∀ actions : List Upload.PhotoAction, (Upload.runPhotoActions actions []).length ≤ 3) ∧
    (∀ (inp : Upload.Input) (env : Upload.Env) (w : World),
      inp.photoFiles.length ≤ 3 → (Upload.handleSubmit inp env w).success = true →
      ∃ urls data,
        (Upload.handleSubmit inp env w).world.store.memorials
          = w.store.memorials ++ [(env.memorialId, data)] ∧
        urls.length = inp.photoFiles.length ∧ urls.length ≤ 3 ∧
        getField data "imageUrls" = some (if urls.length > 0 then .strs urls else .null) ∧
        (urls = [] → getField data "imageUrl" = some .null) ∧
        (∀ u rest, urls = u :: rest → u ≠ "" → getField data "imageUrl" = some (.str u))) ∧
    (∀ data : Fields,
      (∀ l, getField data "imageUrls" = some (.strs l) → l.length ≤ 3) →
      (EditMemorial.getImageList data).length ≤ 3) ∧
    (∀ (actions : List EditMemorial.PhotoAction) (existing : List String),
      existing.length ≤ 3 →
      (EditMemorial.runPhotoActions actions
          { existingPhotos := existing, newPhotoFiles := [] }).existingPhotos.length
        + (EditMemorial.runPhotoActions actions
          { existingPhotos := existing, newPhotoFiles := [] }).newPhotoFiles.length ≤ 3) ∧
    (∀ (inp : EditMemorial.Input) (env : EditMemorial.Env) (w : World),
      inp.existingPhotos.length + inp.newPhotoFiles.length ≤ 3 →
      (EditMemorial.handleSubmit inp env w).success = true →
      ∃ finalImageUrls,
        finalImageUrls.length = inp.existingPhotos.length + inp.newPhotoFiles.length ∧
        finalImageUrls.length ≤ 3 ∧
        (EditMemorial.handleSubmit inp env w).world.store.memorials
          = w.store.memorials.modify inp.id
              (applyUpdate (EditMemorial.updateData inp.form finalImageUrls))) := by
  refine ⟨?_, ?_, ?_, ?_, ?_⟩
  · intro actions
    exact Upload.runPhotoActions_length actions [] (by simp)
  · intro inp env w hlen hs
    obtain ⟨urls, docUrl, hu, hm⟩ := Upload.handleSubmit_success inp env w hs
    have hl := Upload.uploadPhotos_length env inp.photoFiles 0 [] w urls hu
    simp only [List.length_nil, Nat.zero_add] at hl
    obtain ⟨h1, h2⟩ := memorialData_images inp urls docUrl
    refine ⟨urls, Upload.memorialData inp urls docUrl, hm, hl, by omega, h1, ?_, ?_⟩
    · intro he
      rw [h2, he]
      rfl
    · intro u rest he hne
      rw [h2, he]
      simp [Upload.optStrOrNull, strOr, hne]
  · intro data h
    exact EditMemorial.getImageList_length data h
  · intro actions existing h
    exact EditMemorial.runPhotoActions_total actions _ (by simpa using h)
  · intro inp env w hlen hs
    obtain ⟨final, hu, hm⟩ := EditMemorial.edit_handleSubmit_success inp env w hs
    have hl := EditMemorial.edit_uploadPhotos_length env inp.newPhotoFiles 0
      inp.existingPhotos w final hu
    exact ⟨final, hl, by omega, hm⟩

/-- The upload form keeps the first three of five selected photos, and one
more selection adds nothing. -/
theorem runPhotoActions_example :
    Upload.runPhotoActions [.select ["a", "b", "c", "d", "e"], .select ["f"]] []
      = ["a", "b", "c"] ∧
    Upload.runPhotoActions [.select ["a", "b"], .remove 0, .select ["c", "d", "e"]] []
      = ["b", "c", "d"] := by
  constructor <;> decide

/-! ## Failures of the notification write -/

/-- Counterexample to C27 as stated: in each of the three operations the
triggering write succeeds and the notification write is rejected; the
submission then shows an alert and an error and is not marked successful, the
approval shows an alert, and the send shows an alert and keeps the typed
text, while the triggering write stays stored. -/
theorem C27_notification_failure_is_surfaced :
    ((Upload.handleSubmit Sample.input0 Sample.envCommitFails Sample.world0).world.store.memorials.map
        Prod.fst = ["m1"] ∧
      (Upload.handleSubmit Sample.input0 Sample.envCommitFails Sample.world0).success = false ∧
      (Upload.handleSubmit Sample.input0 Sample.envCommitFails Sample.world0).alerts
        = ["Firestore error: resource-exhausted"] ∧
      (Upload.handleSubmit Sample.input0 Sample.envCommitFails Sample.world0).error
        = "Failed: resource-exhausted" ∧
      (Upload.handleSubmit Sample.input0 Sample.envCommitFails Sample.world0).navigations = []) ∧
    ((∃ d, (AdminDashboard.approveMemorial Sample.adminEnvNotifyFails Sample.adminState1 "m1"
          Sample.world1).world.store.memorials.doc "m1" = some d ∧
        getField d "status" = some (.str "approved")) ∧
      (AdminDashboard.approveMemorial Sample.adminEnvNotifyFails Sample.adminState1 "m1"
          Sample.world1).alerts = ["Failed to approve: unavailable"]) ∧
    ((Chat.sendMessage Sample.bob "c1" Sample.chatState Sample.sendEnvNotifyFails "Salaam" none
          none Sample.messageWorld).world.store.messagesOf "c1"
        = Sample.messageWorld.store.messagesOf "c1"
            ++ [("x3", Chat.messageData Sample.bob "Salaam" none none)] ∧
      (Chat.sendMessage Sample.bob "c1" Sample.chatState Sample.sendEnvNotifyFails "Salaam" none
          none Sample.messageWorld).alerts = ["Failed to send message: unavailable"] ∧
      (Chat.sendMessage Sample.bob "c1" Sample.chatState Sample.sendEnvNotifyFails "Salaam" none
          none Sample.messageWorld).cleared = false) := by
  refine ⟨⟨by rfl, by rfl, by rfl, by rfl, by rfl⟩, ⟨⟨_, by rfl, by rfl⟩, by rfl⟩,
    ⟨by rfl, by rfl, by rfl⟩⟩

/-- C27, amended: when the triggering write has succeeded and the notification
write that follows it is rejected with the message `e`, the triggering write
stays stored and the failure is shown to the user.  `Upload.handleSubmit`
keeps the memorial, alerts `Firestore error: e`, sets the error `Failed: e`,
does not report success and does not navigate; `approveMemorial` keeps the
approval, alerts `Failed to approve: e` and keeps the custom message;
`sendMessage` keeps the message, alerts `Failed to send message: e` and does
not clear the input. -/
theorem C27_notification_failure_keeps_write_and_alerts :
    (∀ (inp : Upload.Input) (env : Upload.Env) (w w1 w2 : World) (urls : List String)
        (docUrl : Option String) (e : String),
      jsTrim inp.form.fullName ≠ "" → jsTrim inp.form.relationship ≠ "" →
      Upload.uploadPhotos env 0 inp.photoFiles [] w = (.ok urls, w1) →
      Upload.uploadDocument env inp.legacyDocFile w1 = (.ok docUrl, w2) →
      env.setDocError = none → AuthContext.isAdmin inp.userProfile = false →
      env.getDocsError = none → (Upload.adminDocs w2.store.users).isEmpty = false →
      env.commitError = some e →
      (Upload.handleSubmit inp env w).world.store.memorials
        = w2.store.memorials ++ [(env.memorialId, Upload.memorialData inp urls docUrl)] ∧
      (Upload.handleSubmit inp env w).world.store.notifications = w2.store.notifications ∧
      (Upload.handleSubmit inp env w).success = false ∧
      (Upload.handleSubmit inp env w).alerts = ["Firestore error: " ++ e] ∧
      (Upload.handleSubmit inp env w).error = "Failed: " ++ e ∧
      (Upload.handleSubmit inp env w).navigations = []) ∧
    (∀ (env : AdminDashboard.Env) (st : AdminDashboard.State) (memorialId : String)
        (w : World) (m : Fields) (e : String),
      (updateMemorialDoc env.updateDocError memorialId AdminDashboard.approvePayload w).1
        = .ok () →
      AdminDashboard.findMemorial st memorialId = some m →
      truthy (getField m "postedBy") = true → env.addDocError = some e →
      (AdminDashboard.approveMemorial env st memorialId w).world.store.memorials
        = w.store.memorials.modify memorialId (applyUpdate AdminDashboard.approvePayload) ∧
      (AdminDashboard.approveMemorial env st memorialId w).world.store.notifications
        = w.store.notifications ∧
      (AdminDashboard.approveMemorial env st memorialId w).alerts
        = ["Failed to approve: " ++ e] ∧
      (AdminDashboard.approveMemorial env st memorialId w).state.customMessages
        = st.customMessages) ∧
    (∀ (user : Upload.AuthUser) (chatId : String) (st : Chat.State) (env : Chat.SendEnv)
        (text : String) (audioUrl imageUrl : Option String) (w : World) (c : Fields)
        (r e : String),
      ((jsTrim text == "" && !Chat.present audioUrl && !Chat.present imageUrl) || st.sending)
        = false →
      env.addMessageError = none → env.updateChatError = none →
      w.store.chats.doc chatId = some c →
      Chat.recipientUid st.chat user.uid = some r → r ≠ "" →
      env.addNotificationError = some e →
      (Chat.sendMessage user chatId st env text audioUrl imageUrl w).world.store.messagesOf chatId
        = w.store.messagesOf chatId
            ++ [(env.messageId, Chat.messageData user text audioUrl imageUrl)] ∧
      (Chat.sendMessage user chatId st env text audioUrl imageUrl w).world.store.notifications
        = w.store.notifications ∧
      (Chat.sendMessage user chatId st env text audioUrl imageUrl w).alerts
        = ["Failed to send message: " ++ e] ∧
      (Chat.sendMessage user chatId st env text audioUrl imageUrl w).cleared = false) := by
  refine ⟨?_, ?_, ?_⟩
  · intro inp env w w1 w2 urls docUrl e hname hrel hp hd hset hadmin hget hadmins hcommit
    have hn1 : (jsTrim inp.form.fullName == "") = false := by simpa using hname
    have hn2 : (jsTrim inp.form.relationship == "") = false := by simpa using hrel
    have hadmins2 : (Upload.adminDocs (w2.call (.setDoc "memorials" env.memorialId)).store.users).isEmpty
        = false := hadmins
    have hr : Upload.handleSubmit inp env w
        = Upload.failed
            { store := { w2.store with
                memorials := w2.store.memorials ++
                  [(env.memorialId, Upload.memorialData inp urls docUrl)] },
              log := w2.log ++ [.setDoc "memorials" env.memorialId, .getDocs "users",
                .commit (Upload.adminBatch inp env (Upload.adminDocs w2.store.users)).length] }
            ["Firestore error: " ++ e] e := by
      simp [Upload.handleSubmit, hn1, hn2, hp, hd, Upload.saveMemorial, Upload.setMemorialDoc,
        hset, hadmin, Upload.notifyAdmins, hget, World.call, hadmins, Upload.commitNotifications,
        hcommit, Coll.create]
    rw [hr]
    exact ⟨rfl, rfl, rfl, rfl, rfl, rfl⟩
  · intro env st memorialId w m e hupd hm hposted hadd
    have hu := updateMemorialDoc_ok_eq env.updateDocError memorialId
      AdminDashboard.approvePayload w hupd
    simp [AdminDashboard.approveMemorial, hu, hm, AdminDashboard.notifyPoster, hposted,
      addNotificationDoc, hadd, World.call]
  · intro user chatId st env text audioUrl imageUrl w c r e hg hadd hupd hchat hrec hr hnotif
    have hmsg := (Chat.sendMessage_after_write user chatId st env text audioUrl imageUrl w hg).2.1
      hadd
    refine ⟨hmsg, ?_⟩
    have hf : Option.filter (fun r => r != "") (some r) = some r := by
      simp [Option.filter, hr]
    simp [Chat.sendMessage, hg, Chat.addMessageDoc, hadd, Chat.updateChatDoc, hupd, hchat,
      hrec, hf, addNotificationDoc, hnotif, Chat.sendFailed, World.call, Store.setMessages]

/-! ## The archive list -/

namespace Archive

theorem startsWith_iff (s p : List Char) : startsWith s p = true ↔ ∃ t, s = p ++ t := by
  induction s generalizing p with
  | nil =>
    cases p with
    | nil => simp [startsWith]
    | cons d p => simp [startsWith]
  | cons c s ih =>
    cases p with
    | nil => simp [startsWith]
    | cons d p =>
      simp only [startsWith, Bool.and_eq_true, beq_iff_eq, ih, List.cons_append,
        List.cons.injEq]
      constructor
      · rintro ⟨h1, t, h2⟩
        exact ⟨t, h1, h2⟩
      · rintro ⟨t, h1, h2⟩
        exact ⟨h1, t, h2⟩

/-- The function `includes` decides whether `p` occurs in `s` as a contiguous
run of characters. -/
theorem includes_iff (s p : List Char) :
    includes s p = true ↔ ∃ pre suf, s = pre ++ p ++ suf := by
  induction s with
  | nil =>
    simp only [includes, List.isEmpty_iff]
    constructor
    · intro h
      exact ⟨[], [], by simp [h]⟩
    · rintro ⟨pre, suf, h⟩
      have h2 := congrArg List.length h
      simp only [List.length_nil, List.length_append] at h2
      exact List.eq_nil_of_length_eq_zero (by omega)
  | cons c s ih =>
    simp only [includes, Bool.or_eq_true, startsWith_iff, ih]
    constructor
    · rintro (⟨t, h⟩ | ⟨pre, suf, h⟩)
      · exact ⟨[], t, by simpa using h⟩
      · exact ⟨c :: pre, suf, by simp [h]⟩
    · rintro ⟨pre, suf, h⟩
      cases pre with
      | nil => exact Or.inl ⟨suf, by simpa using h⟩
      | cons x pre =>
        right
        simp only [List.cons_append, List.cons.injEq] at h
        exact ⟨pre, suf, h.2⟩

/-- The callback of the filter, as a proposition. -/
theorem passesFilter_iff (toLowerCase : String → String)
    (selectedYear debouncedSearch : String) (m : Fields) :
    passesFilter toLowerCase selectedYear debouncedSearch m = true ↔
      (selectedYear ≠ "All" →
        ∃ d, getField m "dateOfPassing" = some (.str d) ∧ d ≠ "" ∧
          startsWith d.data selectedYear.data = true) ∧
      (jsTrim debouncedSearch ≠ "" →
        fieldIncludes toLowerCase m "fullName" (toLowerCase debouncedSearch) = true ∨
        fieldIncludes toLowerCase m "familyHouse" (toLowerCase debouncedSearch) = true) := by
  unfold passesFilter
  by_cases hy : selectedYear = "All"
  · by_cases hs : jsTrim debouncedSearch = ""
    · simp [hy, hs]
    · cases h1 : fieldIncludes toLowerCase m "fullName" (toLowerCase debouncedSearch) <;>
        cases h2 : fieldIncludes toLowerCase m "familyHouse" (toLowerCase debouncedSearch) <;>
        simp [hy, hs, h1, h2]
  · cases hd : getField m "dateOfPassing" with
    | none => simp [hy, hd]
    | some v =>
      cases v with
      | str d =>
        by_cases hd0 : d = ""
        · simp [hy, hd, hd0]
        · cases hst : startsWith d.data selectedYear.data
          · simp [hy, hd, hd0, hst]
          · by_cases hs : jsTrim debouncedSearch = ""
            · simp [hy, hd, hd0, hst, hs]
            · cases h1 : fieldIncludes toLowerCase m "fullName"
                  (toLowerCase debouncedSearch) <;>
                cases h2 : fieldIncludes toLowerCase m "familyHouse"
                  (toLowerCase debouncedSearch) <;>
                simp [hy, hd, hd0, hst, hs, h1, h2]
      | _ => simp [hy, hd]

theorem fieldIncludes_iff (toLowerCase : String → String) (m : Fields) (k search : String) :
    fieldIncludes toLowerCase m k (toLowerCase search) = true ↔
      ContainsIgnoringCase toLowerCase m k search := by
  unfold fieldIncludes ContainsIgnoringCase
  cases h : getField m k with
  | none => simp
  | some v =>
    cases v with
    | str s0 =>
      simp only [includes_iff, Option.some.injEq, Value.str.injEq]
      constructor
      · rintro ⟨pre, suf, h1⟩
        exact ⟨s0, pre, suf, rfl, h1⟩
      · rintro ⟨s1, pre, suf, h1, h2⟩
        subst h1
        exact ⟨pre, suf, h2⟩
    | _ => simp

theorem hasPassingYear_iff (m : Fields) (year : String) :
    (∃ d, getField m "dateOfPassing" = some (.str d) ∧ d ≠ "" ∧
        startsWith d.data year.data = true) ↔ HasPassingYear m year := by
  unfold HasPassingYear
  constructor
  · rintro ⟨d, h1, h2, h3⟩
    obtain ⟨t, ht⟩ := (startsWith_iff _ _).mp h3
    exact ⟨d, t, h1, h2, ht⟩
  · rintro ⟨d, t, h1, h2, h3⟩
    exact ⟨d, h1, h2, (startsWith_iff _ _).mpr ⟨t, h3⟩⟩

theorem mem_filteredMemorials (toLowerCase : String → String)
    (localeCompare : String → String → Int) (memorials : List Fields)
    (selectedYear debouncedSearch sortOrder : String) (m : Fields) :
    m ∈ filteredMemorials toLowerCase localeCompare memorials selectedYear debouncedSearch
        sortOrder ↔
      m ∈ memorials ∧ passesFilter toLowerCase selectedYear debouncedSearch m = true := by
  unfold filteredMemorials jsSort
  rw [List.mem_mergeSort, List.mem_filter]

/-- Counterexample to C12 as stated: with year 'All' and the search string
consisting of one space, which is not empty, the archive lists a memorial whose
full name and family house do not contain the search string. -/
theorem C12_blank_search_lists_unmatched_memorial :
    Sample.zainab ∈ filteredMemorials Sample.asciiLower Sample.codePointCompare
        [Sample.zainab] "All" " " "newest" ∧
      (" " : String) ≠ "" ∧
      ¬ ContainsIgnoringCase Sample.asciiLower Sample.zainab "fullName" " " ∧
      ¬ ContainsIgnoringCase Sample.asciiLower Sample.zainab "familyHouse" " " := by
  refine ⟨?_, by decide, ?_, ?_⟩
  · rw [mem_filteredMemorials]
    exact ⟨List.mem_singleton.mpr rfl, by rfl⟩
  · rw [← fieldIncludes_iff]
    decide
  · rw [← fieldIncludes_iff]
    decide

/-- C12, amended: for every list of approved memorials, every search string
and every year selection, the archive list contains exactly the memorials that
(a) when a year is selected, have a date of passing starting with that year
(memorials without one are excluded), and (b) when the search is not blank,
that is not empty after trimming, have a full name or family house containing
the search string case-insensitively; a blank search with year 'All' returns
every memorial. -/
theorem C12_filter_by_year_and_nonblank_search (toLowerCase : String → String)
    (localeCompare : String → String → Int) (memorials : List Fields)
    (selectedYear debouncedSearch sortOrder : String) :
    (∀ m, m ∈ filteredMemorials toLowerCase localeCompare memorials selectedYear
          debouncedSearch sortOrder ↔
        m ∈ memorials ∧
        (selectedYear ≠ "All" → HasPassingYear m selectedYear) ∧
        (jsTrim debouncedSearch ≠ "" →
          ContainsIgnoringCase toLowerCase m "fullName" debouncedSearch ∨
          ContainsIgnoringCase toLowerCase m "familyHouse" debouncedSearch)) ∧
    (selectedYear = "All" ∧ jsTrim debouncedSearch = "" →
      (filteredMemorials toLowerCase localeCompare memorials selectedYear debouncedSearch
        sortOrder).Perm memorials) := by
  constructor
  · intro m
    rw [mem_filteredMemorials, passesFilter_iff, hasPassingYear_iff, fieldIncludes_iff,
      fieldIncludes_iff]
  · rintro ⟨hy, hs⟩
    unfold filteredMemorials jsSort
    refine (List.mergeSort_perm _ _).trans ?_
    have hall : ∀ m ∈ memorials, passesFilter toLowerCase selectedYear debouncedSearch m
        = true := by
      intro m _
      rw [passesFilter_iff]
      exact ⟨fun h => absurd hy h, fun h => absurd hs h⟩
    rw [List.filter_eq_self.mpr hall]

theorem compareFn_trans (localeCompare : String → String → Int) (sortOrder : String)
    (htrans : ∀ a b c, localeCompare a b ≤ 0 → localeCompare b c ≤ 0 → localeCompare a c ≤ 0)
    (a b c : Fields) (h1 : compareFn localeCompare sortOrder a b ≤ 0)
    (h2 : compareFn localeCompare sortOrder b c ≤ 0) :
    compareFn localeCompare sortOrder a c ≤ 0 := by
  unfold compareFn at h1 h2 ⊢
  split_ifs at h1 h2 ⊢
  · omega
  · omega
  · exact htrans _ _ _ h1 h2
  · exact htrans _ _ _ h2 h1
  · exact le_refl 0

theorem compareFn_total (localeCompare : String → String → Int) (sortOrder : String)
    (htotal : ∀ a b, localeCompare a b ≤ 0 ∨ localeCompare b a ≤ 0) (a b : Fields) :
    compareFn localeCompare sortOrder a b ≤ 0 ∨ compareFn localeCompare sortOrder b a ≤ 0 := by
  unfold compareFn
  split_ifs
  · omega
  · omega
  · exact htotal _ _
  · exact htotal _ _
  · exact Or.inl (le_refl 0)

theorem jsSort_sorted (cmp : Fields → Fields → Int)
    (htrans : ∀ a b c, cmp a b ≤ 0 → cmp b c ≤ 0 → cmp a c ≤ 0)
    (htotal : ∀ a b, cmp a b ≤ 0 ∨ cmp b a ≤ 0) (l : List Fields) :
    (jsSort cmp l).Pairwise (fun a b => cmp a b ≤ 0) := by
  unfold jsSort
  have h : (l.mergeSort (fun a b => decide (cmp a b ≤ 0))).Pairwise
      (fun a b => decide (cmp a b ≤ 0) = true) :=
    List.sorted_mergeSort
      (by
        intro a b c h1 h2
        simp only [decide_eq_true_eq] at h1 h2 ⊢
        exact htrans a b c h1 h2)
      (by
        intro a b
        simp only [Bool.or_eq_true, decide_eq_true_eq]
        exact htotal a b) l
  exact h.imp (by intro a b hab; simpa using hab)

/-- C13: provided `localeCompare` is a total and transitive comparison, for
each sort order the displayed archive list is a permutation of the filtered
list, ordered by the chosen key: non-increasing `createdAt.seconds` for
'newest', non-decreasing for 'oldest' (a missing timestamp counts as 0),
ascending full name for 'az' and descending for 'za' in the order of
`localeCompare` (a missing name counts as the empty string). -/
theorem C13_sort_is_ordered_permutation (toLowerCase : String → String)
    (localeCompare : String → String → Int) (memorials : List Fields)
    (selectedYear debouncedSearch sortOrder : String)
    (htrans : ∀ a b c, localeCompare a b ≤ 0 → localeCompare b c ≤ 0 → localeCompare a c ≤ 0)
    (htotal : ∀ a b, localeCompare a b ≤ 0 ∨ localeCompare b a ≤ 0) :
    (filteredMemorials toLowerCase localeCompare memorials selectedYear debouncedSearch
        sortOrder).Perm
      (memorials.filter (passesFilter toLowerCase selectedYear debouncedSearch)) ∧
    (sortOrder = "newest" →
      (filteredMemorials toLowerCase localeCompare memorials selectedYear debouncedSearch
        sortOrder).Pairwise (fun a b => seconds b ≤ seconds a)) ∧
    (sortOrder = "oldest" →
      (filteredMemorials toLowerCase localeCompare memorials selectedYear debouncedSearch
        sortOrder).Pairwise (fun a b => seconds a ≤ seconds b)) ∧
    (sortOrder = "az" →
      (filteredMemorials toLowerCase localeCompare memorials selectedYear debouncedSearch
        sortOrder).Pairwise
          (fun a b => localeCompare (nameOrEmpty a) (nameOrEmpty b) ≤ 0)) ∧
    (sortOrder = "za" →
      (filteredMemorials toLowerCase localeCompare memorials selectedYear debouncedSearch
        sortOrder).Pairwise
          (fun a b => localeCompare (nameOrEmpty b) (nameOrEmpty a) ≤ 0)) := by
  have hsorted := jsSort_sorted (compareFn localeCompare sortOrder)
    (compareFn_trans localeCompare sortOrder htrans)
    (compareFn_total localeCompare sortOrder htotal)
    (memorials.filter (passesFilter toLowerCase selectedYear debouncedSearch))
  refine ⟨List.mergeSort_perm _ _, ?_, ?_, ?_, ?_⟩
  · intro ho
    refine hsorted.imp ?_
    intro a b hab
    simp only [compareFn, ho, if_true] at hab
    omega
  · intro ho
    refine hsorted.imp ?_
    intro a b hab
    simp only [compareFn, ho] at hab
    simp at hab
    omega
  · intro ho
    refine hsorted.imp ?_
    intro a b hab
    simp only [compareFn, ho] at hab
    simpa using hab
  · intro ho
    refine hsorted.imp ?_
    intro a b hab
    simp only [compareFn, ho] at hab
    simpa using hab

theorem codePointCompare_le_iff (a b : String) :
    Sample.codePointCompare a b ≤ 0 ↔ a ≤ b := by
  unfold Sample.codePointCompare
  split_ifs with h1 h2
  · simp [le_of_lt h1]
  · simp [not_le.mpr h2]
  · simp [not_lt.mp h2]

/-- Witness of C13: the sample objects, compared by code points. -/
theorem C13_sort_is_ordered_permutation_witness :
    (filteredMemorials Sample.asciiLower Sample.codePointCompare Sample.archiveObjects
        "2021" "" "az").Perm
      (Sample.archiveObjects.filter (passesFilter Sample.asciiLower "2021" "")) ∧
    (filteredMemorials Sample.asciiLower Sample.codePointCompare Sample.archiveObjects
        "2021" "" "az").Pairwise
          (fun a b => Sample.codePointCompare (nameOrEmpty a) (nameOrEmpty b) ≤ 0) :=
  have h := C13_sort_is_ordered_permutation Sample.asciiLower Sample.codePointCompare
    Sample.archiveObjects "2021" "" "az"
    (fun a b c h1 h2 => (codePointCompare_le_iff a c).mpr
      (le_trans ((codePointCompare_le_iff a b).mp h1) ((codePointCompare_le_iff b c).mp h2)))
    (fun a b => (le_total a b).imp (codePointCompare_le_iff a b).mpr
      (codePointCompare_le_iff b a).mpr)
  ⟨h.1, h.2.2.2.1 rfl⟩

end Archive

/-! ## The approval flag over histories -/

theorem mem_modify (c : Coll) (id : String) (f : Fields → Fields) (e : String × Fields)
    (h : e ∈ c.modify id f) : e ∈ c ∨ ∃ e0 ∈ c, e = (e0.1, f e0.2) := by
  unfold Coll.modify at h
  obtain ⟨e0, he0, rfl⟩ := List.mem_map.mp h
  by_cases hi : e0.1 = id
  · right
    exact ⟨e0, he0, by simp [hi]⟩
  · left
    simpa [hi] using he0

theorem flag_modify (c : Coll) (id : String) (f : Fields → Fields)
    (hc : ∀ e ∈ c, FlagImpliesStatus e.2) (hf : ∀ d, FlagImpliesStatus d → FlagImpliesStatus (f d)) :
    ∀ e ∈ c.modify id f, FlagImpliesStatus e.2 := by
  intro e he
  rcases mem_modify c id f e he with h | ⟨e0, h0, rfl⟩
  · exact hc e h
  · exact hf _ (hc e0 h0)

theorem flag_approve (d : Fields) : FlagImpliesStatus (applyUpdate AdminDashboard.approvePayload d) := by
  intro _
  show getField (setField "status" _ (setField "isApproved" _ d)) "status" = _
  rw [getField_setField_same]

theorem flag_reject (d : Fields) : FlagImpliesStatus (applyUpdate AdminDashboard.rejectPayload d) := by
  intro h
  have h1 : getField (applyUpdate AdminDashboard.rejectPayload d) "isApproved"
      = some (.bool false) := by
    show getField (setField "status" _ (setField "isApproved" _ d)) "isApproved" = _
    rw [getField_setField_other _ _ _ _ (by decide), getField_setField_same]
  rw [h1] at h
  simp at h

theorem flag_edit (form : Upload.Form) (urls : List String) (d : Fields)
    (h : FlagImpliesStatus d) :
    FlagImpliesStatus (applyUpdate (EditMemorial.updateData form urls) d) := by
  unfold FlagImpliesStatus
  rw [EditMemorial.getField_updateData_other _ _ _ _ (by decide),
    EditMemorial.getField_updateData_other _ _ _ _ (by decide)]
  exact h

theorem flag_memorialData (inp : Upload.Input) (urls : List String) (docUrl : Option String) :
    FlagImpliesStatus (Upload.memorialData inp urls docUrl) := by
  unfold FlagImpliesStatus
  cases ha : AuthContext.isAdmin inp.userProfile <;>
    simp [Upload.memorialData, getField, List.lookup, ha]

theorem Op.run_flag (o : Op) (w : World) (hw : ∀ e ∈ w.store.memorials, FlagImpliesStatus e.2) :
    ∀ e ∈ (o.run w).store.memorials, FlagImpliesStatus e.2 := by
  cases o with
  | submit inp env =>
    show ∀ e ∈ (Upload.handleSubmit inp env w).world.store.memorials, _
    rcases Upload.handleSubmit_shape inp env w with h | h | h
    · rw [h.2.1]
      exact hw
    · obtain ⟨_, _, w1, e, h1, h2, _⟩ := h
      rw [h1]
      show ∀ e ∈ w1.store.memorials, _
      rw [h2]
      exact hw
    · obtain ⟨_, _, _, urls, docUrl, w2, h1, _, h2, _⟩ := h
      rw [h2, Upload.saveMemorial_memorials, h1]
      split
      · intro e he
        rcases List.mem_append.mp he with he | he
        · exact hw e he
        · simp only [List.mem_singleton] at he
          subst he
          exact flag_memorialData inp urls docUrl
      · exact hw
  | approve env st memorialId =>
    show ∀ e ∈ (AdminDashboard.approveMemorial env st memorialId w).world.store.memorials, _
    cases hu : (updateMemorialDoc env.updateDocError memorialId
        AdminDashboard.approvePayload w).1 with
    | error e =>
      rw [((AdminDashboard.approveMemorial_error env st memorialId w e hu))]
      exact hw
    | ok u =>
      rw [AdminDashboard.approveMemorial_memorials env st memorialId w hu]
      exact flag_modify _ _ _ hw (fun d _ => flag_approve d)
  | reject env st memorialId =>
    show ∀ e ∈ (AdminDashboard.rejectMemorial env st memorialId w).world.store.memorials, _
    cases hc : env.confirm with
    | false =>
      have : (AdminDashboard.rejectMemorial env st memorialId w).world = w := by
        simp [AdminDashboard.rejectMemorial, hc]
      rw [this]
      exact hw
    | true =>
      cases hu : (updateMemorialDoc env.updateDocError memorialId
          AdminDashboard.rejectPayload w).1 with
      | error e =>
        rw [AdminDashboard.rejectMemorial_error env st memorialId w e hu]
        exact hw
      | ok u =>
        rw [AdminDashboard.rejectMemorial_memorials env st memorialId w hc hu]
        exact flag_modify _ _ _ hw (fun d _ => flag_reject d)
  | edit inp env =>
    show ∀ e ∈ (EditMemorial.handleSubmit inp env w).world.store.memorials, _
    rcases EditMemorial.handleSubmit_memorials inp env w with h | ⟨urls, h⟩
    · rw [h]
      exact hw
    · rw [h]
      exact flag_modify _ _ _ hw (fun d hd => flag_edit _ _ d hd)

theorem runOps_flag (ops : List Op) :
    ∀ w : World, (∀ e ∈ w.store.memorials, FlagImpliesStatus e.2) →
      ∀ e ∈ (runOps ops w).store.memorials, FlagImpliesStatus e.2 := by
  induction ops with
  | nil => intro w hw; exact hw
  | cons o rest ih =>
    intro w hw
    exact ih (o.run w) (Op.run_flag o w hw)

/-- C2: in every store reached from a store without memorials by a finite
sequence of runs of Upload.handleSubmit, approveMemorial, rejectMemorial and
EditMemorial.handleSubmit, every memorial with `isApproved === true` has
`status === 'approved'`; hence the archive query `where('isApproved', '==', true)`
yields no document whose status is 'pending' or 'rejected'. -/
theorem C2_archive_query_only_approved (ops : List Op) (w0 : World)
    (h0 : w0.store.memorials = []) :
    (∀ e ∈ (runOps ops w0).store.memorials,
      getField e.2 "isApproved" = some (.bool true) →
        getField e.2 "status" = some (.str "approved")) ∧
    (∀ e ∈ Archive.approvedQuery (runOps ops w0).store.memorials,
      getField e.2 "status" ≠ some (.str "pending") ∧
        getField e.2 "status" ≠ some (.str "rejected")) := by
  have hinv := runOps_flag ops w0 (by rw [h0]; simp)
  refine ⟨hinv, ?_⟩
  intro e he
  unfold Archive.approvedQuery at he
  obtain ⟨hm, hq⟩ := List.mem_filter.mp he
  have hs := hinv e hm (by simpa using hq)
  rw [hs]
  exact ⟨by decide, by decide⟩

/-- Witness of C2: the sample history of one memorial. -/
theorem C2_archive_query_only_approved_witness :
    (∀ e ∈ (runOps Sample.history Sample.world0).store.memorials,
      getField e.2 "isApproved" = some (.bool true) →
        getField e.2 "status" = some (.str "approved")) ∧
    (∀ e ∈ Archive.approvedQuery (runOps Sample.history Sample.world0).store.memorials,
      getField e.2 "status" ≠ some (.str "pending") ∧
        getField e.2 "status" ≠ some (.str "rejected")) :=
  C2_archive_query_only_approved Sample.history Sample.world0 (by rfl)

end MemorialArchive
